import Mathlib

/-!
Shallow embedding of the tudi 2-D bounded grid library (src/) and proofs of
the specification claims about it.

Conventions used throughout:
* Rust `i32` values are embedded as `Int`, `usize`/`u64` as `Nat`; the claims
  quantify over valid counts where no wrap-around occurs, so arithmetic is
  unbounded. Rust's truncating `i32` division is `Int.tdiv`; Rust `usize`
  division/remainder is `Nat` division/remainder.
* Fallible Rust functions returning `Result` are embedded as `Except`;
  `&mut self` methods are embedded in state-passing style, returning the
  updated value alongside the result.
* Rust panics (`assert!`, `unwrap` on indices proven in range) are modelled by
  a harmless total default, marked by a comment at each spot; all theorems
  below only exercise panic-free paths.
-/

namespace Tudi

/-- Embeds `Coordinate` (src/coordinate.rs): an immutable 2-D integer point. -/
structure Coordinate where
  x : Int
  y : Int
deriving DecidableEq, Repr

/-- Embeds `AbsoluteDirection` (src/direction.rs). -/
inductive AbsoluteDirection where
  | East
  | North
  | West
  | South
deriving DecidableEq, Repr

/-- Embeds `Positioned::coordinate_in_direction` (src/positioned.rs):
the coordinate one gets by stepping `magnitude` in `direction`. -/
def Coordinate.coordinate_in_direction (c : Coordinate) (direction : AbsoluteDirection)
    (magnitude : Nat) : Coordinate :=
  match direction with
  | .North => ⟨c.x, c.y + magnitude⟩
  | .South => ⟨c.x, c.y - magnitude⟩
  | .East => ⟨c.x + magnitude, c.y⟩
  | .West => ⟨c.x - magnitude, c.y⟩

/-- Embeds `Coordinate::move_in_direction` (src/coordinate.rs). -/
def Coordinate.move_in_direction (c : Coordinate) (direction : AbsoluteDirection)
    (magnitude : Nat) : Coordinate :=
  match direction with
  | .North => ⟨c.x, c.y + magnitude⟩
  | .East => ⟨c.x + magnitude, c.y⟩
  | .West => ⟨c.x - magnitude, c.y⟩
  | .South => ⟨c.x, c.y - magnitude⟩

/-- Embeds `Coordinate::is_above_row` (src/coordinate.rs): true also on the row. -/
def Coordinate.is_above_row (c : Coordinate) (row : Int) : Bool :=
  decide (c.y ≥ row)

/-- Embeds `Coordinate::is_below_row` (src/coordinate.rs): true also on the row. -/
def Coordinate.is_below_row (c : Coordinate) (row : Int) : Bool :=
  decide (c.y ≤ row)

/-- The four scalar boundaries any `Bounded` implementor exposes
(src/bounded.rs). The derived trait operations below are defined over this
record once, exactly as the sealed blanket implementation defines them. -/
structure Rect where
  x_min_boundary : Int
  x_max_boundary : Int
  y_min_boundary : Int
  y_max_boundary : Int
deriving DecidableEq, Repr

namespace Rect

/-- Embeds `Bounded::x_count`: `(x_max - x_min).unsigned_abs() as usize + 1`. -/
def x_count (r : Rect) : Nat :=
  (r.x_max_boundary - r.x_min_boundary).natAbs + 1

/-- Embeds `Bounded::y_count`. -/
def y_count (r : Rect) : Nat :=
  (r.y_max_boundary - r.y_min_boundary).natAbs + 1

/-- Embeds `Bounded::x_geometric_len`. -/
def x_geometric_len (r : Rect) : Nat :=
  (r.x_max_boundary - r.x_min_boundary).natAbs

/-- Embeds `Bounded::y_geometric_len`. -/
def y_geometric_len (r : Rect) : Nat :=
  (r.y_max_boundary - r.y_min_boundary).natAbs

/-- Embeds `Bounded::is_within_bounds`. -/
def is_within_bounds (r : Rect) (c : Coordinate) : Bool :=
  decide (r.x_min_boundary ≤ c.x) && decide (r.x_max_boundary ≥ c.x) &&
    decide (r.y_min_boundary ≤ c.y) && decide (r.y_max_boundary ≥ c.y)

/-- Embeds `Bounded::southeast_corner`. -/
def southeast_corner (r : Rect) : Coordinate :=
  ⟨r.x_max_boundary, r.y_min_boundary⟩

/-- Embeds `Bounded::northwest_corner`. -/
def northwest_corner (r : Rect) : Coordinate :=
  ⟨r.x_min_boundary, r.y_max_boundary⟩

/-- Embeds `Bounded::to_matrix_like`: the `[x, y]` distances (via `abs_diff`)
from the west and north edges. (Rust asserts the coordinate is in bounds;
out of bounds the Rust call panics, here it still returns the `abs_diff`s.) -/
def to_matrix_like (r : Rect) (c : Coordinate) : Nat × Nat :=
  ((c.x - r.x_min_boundary).natAbs, (r.y_max_boundary - c.y).natAbs)

/-- Embeds `Bounded::coordinate_to_index`: row-major index from the northwest
corner; the error payload is the offending coordinate (`OutOfBoundsError`). -/
def coordinate_to_index (r : Rect) (c : Coordinate) : Except Coordinate Nat :=
  if !(r.is_within_bounds c) then
    .error c
  else
    let m := r.to_matrix_like c
    .ok (m.2 * r.x_count + m.1)

/-- Embeds `Bounded::to_grid_like`: inverse of `to_matrix_like`. -/
def to_grid_like (r : Rect) (distance : Nat × Nat) : Except Coordinate Coordinate :=
  let coordinate : Coordinate :=
    ⟨r.x_min_boundary + distance.1, r.y_max_boundary - distance.2⟩
  if r.is_within_bounds coordinate then .ok coordinate else .error coordinate

/-- Embeds `Bounded::index_to_coordinate`. -/
def index_to_coordinate (r : Rect) (index : Nat) : Except Coordinate Coordinate :=
  let y_matrix_like := index / r.x_count
  let x_matrix_like := index - y_matrix_like * r.x_count
  r.to_grid_like (x_matrix_like, y_matrix_like)

/-- Embeds `Bounded::move_in_absolute_direction`: the clamped destination and
whether the position actually changed. -/
def clamped_move (r : Rect) (pos : Coordinate) (direction : AbsoluteDirection)
    (magnitude : Nat) : Coordinate × Bool :=
  let p := pos.coordinate_in_direction direction magnitude
  let x := max (min p.x r.x_max_boundary) r.x_min_boundary
  let y := max (min p.y r.y_max_boundary) r.y_min_boundary
  (⟨x, y⟩, decide (pos ≠ (⟨x, y⟩ : Coordinate)))

end Rect

/-- Embeds `Bounds` (src/bounds.rs): a rectangle stored as its four corners. -/
structure Bounds where
  northwest : Coordinate
  southwest : Coordinate
  northeast : Coordinate
  southeast : Coordinate
deriving DecidableEq, Repr

namespace Bounds

/-- Embeds `Bounds::new(x_min, x_len, y_min, y_len)`. -/
def new (x_min : Int) (x_len : Nat) (y_min : Int) (y_len : Nat) : Bounds where
  northwest := ⟨x_min, y_min + y_len⟩
  southwest := ⟨x_min, y_min⟩
  northeast := ⟨x_min + x_len, y_min + y_len⟩
  southeast := ⟨x_min + x_len, y_min⟩

/-- The `MaybeOriginBounded` implementation for `Bounds` (src/bounds.rs):
`x_min` is `southwest.x`, `x_max` is `southeast.x`, `y_min` is `southwest.y`,
`y_max` is `northeast.y`. These are the four boundaries the blanket `Bounded`
implementation sees. -/
def rect (b : Bounds) : Rect :=
  ⟨b.southwest.x, b.southeast.x, b.southwest.y, b.northeast.y⟩

/-- Embeds `Bounds::expand_in_direction`: move the two corners facing the
direction one step that way. -/
def expand_in_direction (b : Bounds) (dir : AbsoluteDirection) : Bounds :=
  match dir with
  | .North =>
    { b with
      northwest := b.northwest.move_in_direction .North 1
      northeast := b.northeast.move_in_direction .North 1 }
  | .South =>
    { b with
      southeast := b.southeast.move_in_direction .South 1
      southwest := b.southwest.move_in_direction .South 1 }
  | .East =>
    { b with
      southeast := b.southeast.move_in_direction .East 1
      northeast := b.northeast.move_in_direction .East 1 }
  | .West =>
    { b with
      northwest := b.northwest.move_in_direction .West 1
      southwest := b.southwest.move_in_direction .West 1 }

end Bounds

/-- Embeds `InvalidRegionError` (src/origin_centered_bounds.rs). -/
structure InvalidRegionError where
  min : Int
  max : Int
deriving DecidableEq, Repr

/-- Embeds `OriginCenteredBounds` (src/origin_centered_bounds.rs): a `Bounds`
whose type invariant (established by `try_from`) is the origin-centering
parity rule. -/
structure OriginCenteredBounds where
  b : Bounds
deriving DecidableEq, Repr

namespace OriginCenteredBounds

/-- Embeds `TryFrom<Bounds> for OriginCenteredBounds`: re-derive min/max from
the corner data, check the parity rule on both axes (x first). -/
def try_from (value : Bounds) : Except InvalidRegionError OriginCenteredBounds :=
  let x_max := value.rect.x_min_boundary + (value.rect.x_geometric_len : Int)
  let y_max := value.rect.y_min_boundary + (value.rect.y_geometric_len : Int)
  let x_min := value.rect.x_min_boundary
  let y_min := value.rect.y_min_boundary
  let x_dist := (x_max - x_min).toNat
  let y_dist := (y_max - y_min).toNat
  if ¬(-x_min = x_max ∨ -x_min + 1 = x_max) then
    .error ⟨x_min, x_max⟩
  else if ¬(-y_min = y_max ∨ -y_min + 1 = y_max) then
    .error ⟨y_min, y_max⟩
  else
    .ok ⟨Bounds.new x_min x_dist y_min y_dist⟩

/-- The bounds computed inside `OriginCenteredBounds::new` before the final
`try_from(..).unwrap()`; Rust's truncating `i32` division is `Int.tdiv`. -/
def new_bounds (x_count y_count : Nat) : Bounds :=
  let x_min : Int := Int.tdiv (-((x_count : Int) - ((x_count + 1) % 2 : Nat))) 2
  let x_max : Int := Int.tdiv ((x_count : Int) + ((x_count + 1) % 2 : Nat)) 2
  let y_min : Int := Int.tdiv (-((y_count : Int) - ((y_count + 1) % 2 : Nat))) 2
  let y_max : Int := Int.tdiv ((y_count : Int) + ((y_count + 1) % 2 : Nat)) 2
  let x_dist := x_max - x_min
  let y_dist := y_max - y_min
  Bounds.new x_min x_dist.toNat y_min y_dist.toNat

/-- Embeds `OriginCenteredBounds::new(x_count, y_count)`. The Rust code is
`Self::try_from(bounds).unwrap()`; `try_from_new_bounds` below proves the
`unwrap` never fails and yields exactly this value. -/
def new (x_count y_count : Nat) : OriginCenteredBounds :=
  ⟨new_bounds x_count y_count⟩

/-- Embeds `OriginBounded::x_count` for `OriginCenteredBounds`:
`(x_max - x_min + 1).try_into().unwrap()` (negative would panic; `toNat`
agrees on every reachable, hence valid, value). -/
def x_count (o : OriginCenteredBounds) : Nat :=
  (o.b.rect.x_max_boundary - o.b.rect.x_min_boundary + 1).toNat

/-- Embeds `OriginBounded::y_count` for `OriginCenteredBounds`. -/
def y_count (o : OriginCenteredBounds) : Nat :=
  (o.b.rect.y_max_boundary - o.b.rect.y_min_boundary + 1).toNat

/-- Embeds `OriginCenteredBounds::expand_bounds_horizontally`: grow West when
the x-count is even (returning `true`), East when odd (returning `false`). -/
def expand_bounds_horizontally (o : OriginCenteredBounds) :
    Bool × OriginCenteredBounds :=
  if o.x_count % 2 = 0 then
    (true, ⟨o.b.expand_in_direction .West⟩)
  else
    (false, ⟨o.b.expand_in_direction .East⟩)

/-- Embeds `OriginCenteredBounds::expand_bounds_vertically`: grow South when
the y-count is even (returning `false`), North when odd (returning `true`). -/
def expand_bounds_vertically (o : OriginCenteredBounds) :
    Bool × OriginCenteredBounds :=
  if o.y_count % 2 = 0 then
    (false, ⟨o.b.expand_in_direction .South⟩)
  else
    (true, ⟨o.b.expand_in_direction .North⟩)

/-- The documented type invariant of `OriginCenteredBounds`: on each axis the
parity rule holds and min does not exceed max. Every value reachable through
`try_from` / `new` / the expansions satisfies it. -/
def origin_centered (o : OriginCenteredBounds) : Bool :=
  let r := o.b.rect
  (decide (-r.x_min_boundary = r.x_max_boundary) ||
      decide (-r.x_min_boundary + 1 = r.x_max_boundary)) &&
    (decide (-r.y_min_boundary = r.y_max_boundary) ||
      decide (-r.y_min_boundary + 1 = r.y_max_boundary)) &&
    decide (r.x_min_boundary ≤ r.x_max_boundary) &&
    decide (r.y_min_boundary ≤ r.y_max_boundary)

end OriginCenteredBounds

/-- The `BoundsHelper<OriginCentered>` derived `x_max_boundary`
(src/bounded.rs): `x_count as i32 / 2`, with the zero-count special case. -/
def origin_centered_x_max (x_count : Nat) : Int :=
  if x_count = 0 then 0 else ((x_count / 2 : Nat) : Int)

/-- The `BoundsHelper<OriginCentered>` derived `x_min_boundary`. -/
def origin_centered_x_min (x_count : Nat) : Int :=
  if x_count % 2 = 0 then
    -(origin_centered_x_max x_count - 1)
  else
    -(origin_centered_x_max x_count)

/-- The `BoundsHelper<OriginCentered>` derived `y_max_boundary`. -/
def origin_centered_y_max (y_count : Nat) : Int :=
  if y_count = 0 then 0 else ((y_count / 2 : Nat) : Int)

/-- The `BoundsHelper<OriginCentered>` derived `y_min_boundary`. -/
def origin_centered_y_min (y_count : Nat) : Int :=
  if y_count % 2 = 0 then
    -(origin_centered_y_max y_count - 1)
  else
    -(origin_centered_y_max y_count)

/-- Embeds `GridError` (src/grid/grid_error.rs). -/
inductive GridError where
  | OutOfBoundsError (position : Coordinate)
  | CollisionError
  | UnoccupiedError (position : Coordinate)
deriving DecidableEq, Repr

/-- Embeds `GridCoordinate` (src/grid/grid_coordinate.rs): one cell, either an
empty placeholder carrying its own coordinate or a stored value. -/
inductive GridCoordinate (α : Type) where
  | Empty (c : Coordinate)
  | Object (v : α)
deriving DecidableEq, Repr

/-- Embeds `Grid` (src/grid/mod.rs): flat row-major cell storage plus the
origin-centered bounds. (The `performance_tuning` field only chooses between
two identical iterator implementations and carries no observable behaviour,
so it is not represented.) -/
structure Grid (α : Type) where
  grid_data : List (GridCoordinate α)
  bounds : OriginCenteredBounds
deriving DecidableEq, Repr

/-- The integers from `lo` to `hi` inclusive, in order: embeds a Rust
`lo..=hi` range over `i32`. -/
def int_range (lo hi : Int) : List Int :=
  (List.range (hi - lo + 1).toNat).map (fun (i : Nat) => lo + (i : Int))

namespace Grid

variable {α : Type}

/-- Embeds `OriginBounded::x_count` for `Grid` (delegates to the bounds). -/
def x_count (g : Grid α) : Nat := g.bounds.x_count

/-- Embeds `OriginBounded::y_count` for `Grid`. -/
def y_count (g : Grid α) : Nat := g.bounds.y_count

/-- The four boundaries the blanket `Bounded` implementation derives for
`Grid` through `BoundsHelper<OriginCentered>`: computed from the counts. -/
def rect (g : Grid α) : Rect :=
  ⟨origin_centered_x_min g.x_count, origin_centered_x_max g.x_count,
    origin_centered_y_min g.y_count, origin_centered_y_max g.y_count⟩

/-- Embeds `Grid::new(x_count, y_count)`: origin-centered bounds from the
counts, storage filled with `Empty` placeholders in row-major order
(`iproduct!` over `(y_min..=y_max).rev()` and `x_min..=x_max`). -/
def new (x_count y_count : Nat) : Grid α :=
  let bounds := OriginCenteredBounds.new x_count y_count
  let base : Grid α := ⟨[], bounds⟩
  let r := base.rect
  ⟨((int_range r.y_min_boundary r.y_max_boundary).reverse.flatMap fun y =>
      (int_range r.x_min_boundary r.x_max_boundary).map fun x =>
        GridCoordinate.Empty ⟨x, y⟩),
    bounds⟩

/-- Embeds `Grid::element_unchecked`: the optional value stored at a
coordinate. (Rust asserts the coordinate is in bounds and indexes the vec;
both panics are modelled as `none`.) -/
def element_unchecked (g : Grid α) (c : Coordinate) : Option α :=
  match g.rect.coordinate_to_index c with
  | .ok index =>
    match g.grid_data[index]? with
    | some (.Object element) => some element
    | _ => none
  | .error _ => none

/-- Embeds `Grid::store_element`: overwrite the cell, returning the previous
occupant (overwriting is allowed here). The cell index is in range for every
well-formed grid; an out-of-range index (a Rust panic) leaves the grid as is. -/
def store_element (g : Grid α) (c : Coordinate) (element : α) :
    Except GridError (Option α) × Grid α :=
  match g.rect.coordinate_to_index c with
  | .error e => (.error (.OutOfBoundsError e), g)
  | .ok index =>
    match g.grid_data[index]? with
    | some (.Object val) =>
      (.ok (some val), ⟨g.grid_data.set index (.Object element), g.bounds⟩)
    | some (.Empty _) =>
      (.ok none, ⟨g.grid_data.set index (.Object element), g.bounds⟩)
    | none => (.ok none, g)

/-- Embeds `Grid::remove_element`. Note the Rust code replaces the cell with
`Empty(coordinate)` before inspecting the previous value, so the storage is
written even on the `Unoccupied` error path. An out-of-range index (a Rust
panic) leaves the grid as is. -/
def remove_element (g : Grid α) (c : Coordinate) : Except GridError α × Grid α :=
  match g.rect.coordinate_to_index c with
  | .error e => (.error (.OutOfBoundsError e), g)
  | .ok index =>
    match g.grid_data[index]? with
    | some (.Object val) =>
      (.ok val, ⟨g.grid_data.set index (.Empty c), g.bounds⟩)
    | some (.Empty _) =>
      (.error (.UnoccupiedError c), ⟨g.grid_data.set index (.Empty c), g.bounds⟩)
    | none => (.error (.UnoccupiedError c), g)

/-- Embeds `Grid::move_element_in_direction`: seed a transient
`BoundedMovingObject` at the coordinate (out of bounds fails there), do a
clamped single step, fail `OutOfBounds` naming the would-be destination when
no movement happened, fail `Collision` when the destination is occupied,
otherwise remove from the source and store at the destination. -/
def move_element_in_direction (g : Grid α) (coordinate : Coordinate)
    (direction : AbsoluteDirection) : Except GridError Coordinate × Grid α :=
  if !(g.rect.is_within_bounds coordinate) then
    (.error (.OutOfBoundsError coordinate), g)
  else
    let step := g.rect.clamped_move coordinate direction 1
    if step.2 then
      if (g.element_unchecked step.1).isSome then
        (.error .CollisionError, g)
      else
        match g.remove_element coordinate with
        | (.error e, g1) => (.error e, g1)
        | (.ok element, g1) =>
          match g1.store_element step.1 element with
          | (.error e, g2) => (.error e, g2)
          | (.ok _, g2) => (.ok step.1, g2)
    else
      (.error (.OutOfBoundsError (coordinate.coordinate_in_direction direction 1)),
        g)

/-- Embeds `Grid::add_bottom_row`: append a fresh `Empty` row below, then
expand the bounds vertically. -/
def add_bottom_row (g : Grid α) : Grid α :=
  let y_min := g.rect.y_min_boundary - 1
  ⟨g.grid_data ++
      ((int_range g.rect.x_min_boundary g.rect.x_max_boundary).map fun x =>
        GridCoordinate.Empty ⟨x, y_min⟩),
    (g.bounds.expand_bounds_vertically).2⟩

/-- Embeds `Grid::add_top_row`: insert a fresh `Empty` row at the front (the
Rust loop inserts at index 0 while iterating x in reverse, leaving the row in
ascending x order), then expand the bounds vertically. -/
def add_top_row (g : Grid α) : Grid α :=
  let y_max := g.rect.y_max_boundary + 1
  ⟨((int_range g.rect.x_min_boundary g.rect.x_max_boundary).map fun x =>
      GridCoordinate.Empty ⟨x, y_max⟩) ++ g.grid_data,
    (g.bounds.expand_bounds_vertically).2⟩

/-- Embeds `Grid::add_row`: bottom row when the row count is even (returns
`false`), top row when odd (returns `true`). -/
def add_row (g : Grid α) : Bool × Grid α :=
  if g.y_count % 2 = 0 then (false, g.add_bottom_row) else (true, g.add_top_row)

end Grid

namespace Rect

/-- One advancement step of `GridIter::next` (src/grid/grid_iter.rs): a
clamped East step; if that did not move, a clamped South step followed by
resetting x to the west edge; if neither moved, the cursor stays put. -/
def cursor_next (r : Rect) (pos : Coordinate) : Coordinate :=
  let east := r.clamped_move pos .East 1
  if east.2 then
    east.1
  else
    let south := r.clamped_move pos .South 1
    if south.2 then ⟨r.x_min_boundary, south.1.y⟩ else pos

/-- The sequence of positions `GridIter` visits starting from `pos`: each
position is yielded, and the iteration stops after yielding the southeast
corner. The Rust iterator carries no fuel; the `Nat` argument is an upper
bound on the number of yields (the iterator visits each cell once, so
`x_count * y_count` is exact, as proven below). -/
def cursor_positions (r : Rect) (pos : Coordinate) : Nat → List Coordinate
  | 0 => []
  | n + 1 =>
    pos ::
      (if pos = r.southeast_corner then []
        else r.cursor_positions (r.cursor_next pos) n)

end Rect

namespace Grid

variable {α : Type}

/-- The coordinates yielded by `Grid::iter_new` (src/grid/grid_iter.rs): the
cursor starts at the northwest corner and scans to the southeast corner. -/
def iter_positions (g : Grid α) : List Coordinate :=
  g.rect.cursor_positions ⟨g.rect.x_min_boundary, g.rect.y_max_boundary⟩
    (g.x_count * g.y_count)

/-- The coordinates produced by `Grid::iter_elements_new` (the occupied ones,
in iteration order). -/
def iter_elements_coords (g : Grid α) : List Coordinate :=
  g.iter_positions.filter fun c => (g.element_unchecked c).isSome

/-- The loop body of `Grid::row_filter_move_elements_in_direction`: move each
listed coordinate one step, stopping at (and propagating) the first error. -/
def move_elements_list (direction : AbsoluteDirection) :
    Grid α → List Coordinate → Except GridError Unit × Grid α
  | g, [] => (.ok (), g)
  | g, c :: rest =>
    match g.move_element_in_direction c direction with
    | (.ok _, g1) => move_elements_list direction g1 rest
    | (.error e, g1) => (.error e, g1)

/-- Embeds `Grid::row_filter_move_elements_in_direction`: collect the occupied
coordinates passing the row filter (in iteration order), then move them all in
`direction` — in reverse order for South/East, in order for North/West. -/
def row_filter_move_elements_in_direction (g : Grid α)
    (filter : Coordinate → Int → Bool) (row : Int)
    (direction : AbsoluteDirection) : Except GridError Unit × Grid α :=
  let element_coordinates := g.iter_elements_coords.filter fun c => filter c row
  if direction = .South ∨ direction = .East then
    move_elements_list direction g element_coordinates.reverse
  else
    move_elements_list direction g element_coordinates

/-- Embeds `Grid::move_elements_above_row_in_direction`. -/
def move_elements_above_row_in_direction (g : Grid α) (y_coord : Int)
    (direction : AbsoluteDirection) : Except GridError Unit × Grid α :=
  g.row_filter_move_elements_in_direction Coordinate.is_above_row y_coord direction

/-- Embeds `Grid::move_elements_below_row_in_direction`. -/
def move_elements_below_row_in_direction (g : Grid α) (y_coord : Int)
    (direction : AbsoluteDirection) : Except GridError Unit × Grid α :=
  g.row_filter_move_elements_in_direction Coordinate.is_below_row y_coord direction

/-- Embeds `Grid::expand_at_row`: add a row, then relocate elements above
(resp. below) the given row North (resp. South) depending on which side grew.
The Rust code unwraps the relocation result (a failure is a contract-violation
panic); the `Except` component records it instead, and is proven `ok` below. -/
def expand_at_row (g : Grid α) (y_coord : Int) :
    Except GridError Unit × Grid α × Bool :=
  let top_add := g.add_row
  if top_add.1 then
    let res := top_add.2.move_elements_above_row_in_direction y_coord .North
    (res.1, res.2, true)
  else
    let res := top_add.2.move_elements_below_row_in_direction y_coord .South
    (res.1, res.2, false)

end Grid

/-- Embeds `GridCreationError` (ragged rows during row-based construction). -/
structure GridCreationError where
deriving DecidableEq, Repr

namespace Grid

variable {α : Type}

/-- Embeds `TryFrom<Vec<Vec<Option<T>>>> for Grid` (src/grid/generic_grid.rs):
all rows must share the first row's length; a grid of those counts is built
and its storage replaced by the given cells, `Empty` placeholders taking the
coordinate of their position. The Rust code panics (`first().unwrap()`) on an
empty outer vec, modelled as a creation error; the `to_grid_like(..).unwrap()`
for a placeholder is modelled by using the raw coordinate either way. -/
def try_from_rows (value : List (List (Option α))) :
    Except GridCreationError (Grid α) :=
  match value.head? with
  | none => .error ⟨⟩
  | some first_row =>
    if !(value.all fun row => row.length = first_row.length) then
      .error ⟨⟩
    else
      let y_size := value.length
      let x_size := first_row.length
      let result : Grid α := Grid.new x_size y_size
      let grid_data := value.enum.flatMap fun yline =>
        yline.2.enum.map fun xelement =>
          match xelement.2 with
          | some val => GridCoordinate.Object val
          | none =>
            match result.rect.to_grid_like (xelement.1, yline.1) with
            | .ok coordinate => GridCoordinate.Empty coordinate
            | .error coordinate => GridCoordinate.Empty coordinate
      .ok ⟨grid_data, result.bounds⟩

/-- Embeds `IntoIterator for Grid`: every storage cell paired with the
coordinate its index maps to under the grid's bounds, in storage order.
(An index outside `[0, x_count*y_count)` makes the Rust code panic on
`unwrap`; such cells are dropped here — well-formed grids have none.) -/
def into_iter_list (g : Grid α) : List (Coordinate × Option α) :=
  let bounds := Bounds.new g.rect.x_min_boundary g.rect.x_geometric_len
    g.rect.y_min_boundary g.rect.y_geometric_len
  g.grid_data.enum.flatMap fun cell =>
    match bounds.rect.index_to_coordinate cell.1 with
    | .ok c =>
      [(c, match cell.2 with
        | .Object val => some val
        | .Empty _ => none)]
    | .error _ => []

/-- Embeds `Grid::transpose_new`: build a fresh grid with swapped counts, then
re-store every occupied cell at the matrix-transposed position. The
`to_grid_like(..).unwrap()` and `store_element(..).expect(..)` panics are
modelled by skipping (both are proven unreachable below). -/
def transpose_new (g : Grid α) : Grid α :=
  let fresh : Grid α := Grid.new g.y_count g.x_count
  let previous_bounds := Bounds.new g.rect.x_min_boundary g.rect.x_geometric_len
    g.rect.y_min_boundary g.rect.y_geometric_len
  g.into_iter_list.foldl
    (fun acc pair =>
      let m := previous_bounds.rect.to_matrix_like pair.1
      match acc.rect.to_grid_like (m.2, m.1) with
      | .ok new_coordinate =>
        match pair.2 with
        | some e => (acc.store_element new_coordinate e).2
        | none => acc
      | .error _ => acc)
    fresh

/-- The number of occupied cells of a grid (what
`Grid::iter_elements_new().count()` reports). -/
def count_objects (g : Grid α) : Nat :=
  (g.grid_data.filter fun cell =>
      match cell with
      | .Object _ => true
      | .Empty _ => false).length

/-- The unstated storage invariant of `Grid`: the backing sequence has length
exactly `x_count * y_count` and every `Empty` cell at flat index `i` carries
exactly the coordinate `index_to_coordinate(i)`. -/
def well_formed (g : Grid α) : Bool :=
  (g.grid_data.length == g.bounds.x_count * g.bounds.y_count) &&
    g.grid_data.enum.all fun cell =>
      match cell.2 with
      | .Empty c =>
        match g.rect.index_to_coordinate cell.1 with
        | .ok c2 => c2 == c
        | .error _ => false
      | .Object _ => true

end Grid

/-- Embeds `Axis` (src/bounded_moving_object.rs). -/
inductive Axis where
  | X
  | Y
deriving DecidableEq, Repr

/-- Embeds `MinMax` (src/bounded_moving_object.rs). -/
inductive MinMax where
  | Min
  | Max
deriving DecidableEq, Repr

/-- Embeds `BoundedMovingObject` (src/bounded_moving_object.rs): a position, a
facing direction and an owned (not necessarily centered) rectangle. -/
structure BoundedMovingObject where
  current_pos : Coordinate
  current_direction : AbsoluteDirection
  bounds : Bounds
deriving DecidableEq, Repr

namespace BoundedMovingObject

/-- Embeds `BoundedMovingObject::set_boundary`: validate the new boundary
against the opposite boundary and the current position on that axis, then
rebuild the rectangle. Note the Rust code passes `x_count()` (resp.
`y_count()`) — one more than the geometric length — as the length of the
unchanged axis when rebuilding. -/
def set_boundary (m : BoundedMovingObject) (axis : Axis) (minmax : MinMax)
    (boundary : Int) : Except String Int × BoundedMovingObject :=
  let previous_min := match axis with
    | .Y => m.bounds.rect.y_min_boundary
    | .X => m.bounds.rect.x_min_boundary
  let previous_max := match axis with
    | .Y => m.bounds.rect.y_max_boundary
    | .X => m.bounds.rect.x_max_boundary
  let pos := match axis with
    | .Y => m.current_pos.y
    | .X => m.current_pos.x
  match minmax with
  | .Min =>
    if previous_max < boundary then
      (.error "New min greater than previous min", m)
    else if pos < boundary then
      (.error "Current x-position smaller than new min!", m)
    else
      let new_min := boundary
      let new_max := previous_max
      let new_bounds := match axis with
        | .Y =>
          Bounds.new m.bounds.rect.x_min_boundary m.bounds.rect.x_count
            new_min (new_max - new_min).toNat
        | .X =>
          Bounds.new new_min (new_max - new_min).toNat
            m.bounds.rect.y_min_boundary m.bounds.rect.y_count
      (.ok boundary, { m with bounds := new_bounds })
  | .Max =>
    if previous_min > boundary then
      (.error "New max smaller than previous min!", m)
    else if pos > boundary then
      (.error "Current y-positon greater than new max", m)
    else
      let new_min := previous_min
      let new_max := boundary
      let new_bounds := match axis with
        | .Y =>
          Bounds.new m.bounds.rect.x_min_boundary m.bounds.rect.x_count
            new_min (new_max - new_min).toNat
        | .X =>
          Bounds.new new_min (new_max - new_min).toNat
            m.bounds.rect.y_min_boundary m.bounds.rect.y_count
      (.ok boundary, { m with bounds := new_bounds })

/-- Embeds `DynamicallyBounded::set_x_min_boundary` for `BoundedMovingObject`. -/
def set_x_min_boundary (m : BoundedMovingObject) (boundary : Int) :
    Except String Int × BoundedMovingObject :=
  m.set_boundary .X .Min boundary

/-- Embeds `DynamicallyBounded::set_x_max_boundary`. -/
def set_x_max_boundary (m : BoundedMovingObject) (boundary : Int) :
    Except String Int × BoundedMovingObject :=
  m.set_boundary .X .Max boundary

/-- Embeds `DynamicallyBounded::set_y_min_boundary`. -/
def set_y_min_boundary (m : BoundedMovingObject) (boundary : Int) :
    Except String Int × BoundedMovingObject :=
  m.set_boundary .Y .Min boundary

/-- Embeds `DynamicallyBounded::set_y_max_boundary`. -/
def set_y_max_boundary (m : BoundedMovingObject) (boundary : Int) :
    Except String Int × BoundedMovingObject :=
  m.set_boundary .Y .Max boundary

end BoundedMovingObject

/-- The stored value of a cell, if any (what the iterators surface). -/
def GridCoordinate.value_opt {α : Type} : GridCoordinate α → Option α
  | .Object v => some v
  | .Empty _ => none

/-- Whether a cell holds a stored value. -/
def GridCoordinate.is_object {α : Type} : GridCoordinate α → Bool
  | .Object _ => true
  | .Empty _ => false

namespace Grid

variable {α : Type}

/-- The raw storage cell a coordinate addresses (the grid cell
`grid_data[coordinate_to_index c]`). -/
def cell_at (g : Grid α) (c : Coordinate) : Option (GridCoordinate α) :=
  match g.rect.coordinate_to_index c with
  | .ok index => g.grid_data[index]?
  | .error _ => none

/-- Whether the cell at a coordinate is occupied (as reported by
`element_unchecked(..).is_some()`). -/
def occupied_at (g : Grid α) (c : Coordinate) : Bool :=
  (g.element_unchecked c).isSome

end Grid

end Tudi

/-! ## Basic facts about the bounded-region index arithmetic -/

namespace Tudi

/-- `is_within_bounds` unfolded to a proposition. -/
theorem Rect.is_within_bounds_iff (r : Rect) (c : Coordinate) :
    r.is_within_bounds c = true ↔
      r.x_min_boundary ≤ c.x ∧ c.x ≤ r.x_max_boundary ∧
        r.y_min_boundary ≤ c.y ∧ c.y ≤ r.y_max_boundary := by
  simp only [Rect.is_within_bounds, Bool.and_eq_true, decide_eq_true_eq, ge_iff_le]
  tauto

/-- The cast of `x_count` when the rectangle is non-degenerate. -/
theorem Rect.x_count_cast (r : Rect) (hx : r.x_min_boundary ≤ r.x_max_boundary) :
    (r.x_count : Int) = r.x_max_boundary - r.x_min_boundary + 1 := by
  simp only [Rect.x_count]
  omega

/-- The cast of `y_count` when the rectangle is non-degenerate. -/
theorem Rect.y_count_cast (r : Rect) (hy : r.y_min_boundary ≤ r.y_max_boundary) :
    (r.y_count : Int) = r.y_max_boundary - r.y_min_boundary + 1 := by
  simp only [Rect.y_count]
  omega


/-- For an in-bounds coordinate, `coordinate_to_index` succeeds with the
row-major index, which is below `x_count * y_count`. -/
theorem Rect.coordinate_to_index_ok (r : Rect) (c : Coordinate)
    (hc : r.is_within_bounds c = true) :
    r.coordinate_to_index c =
      .ok ((r.y_max_boundary - c.y).toNat * r.x_count + (c.x - r.x_min_boundary).toNat) ∧
      (r.y_max_boundary - c.y).toNat * r.x_count + (c.x - r.x_min_boundary).toNat <
        r.x_count * r.y_count := by
  rcases (r.is_within_bounds_iff c).mp hc with ⟨h1, h2, h3, h4⟩
  have ex : (c.x - r.x_min_boundary).natAbs = (c.x - r.x_min_boundary).toNat := by omega
  have ey : (r.y_max_boundary - c.y).natAbs = (r.y_max_boundary - c.y).toNat := by omega
  constructor
  · simp only [Rect.coordinate_to_index, hc, Bool.not_true, Bool.false_eq_true,
      if_false, Rect.to_matrix_like, ex, ey]
  · have hxc : (c.x - r.x_min_boundary).toNat < r.x_count := by
      simp only [Rect.x_count]; omega
    have hyc : (r.y_max_boundary - c.y).toNat < r.y_count := by
      simp only [Rect.y_count]; omega
    calc (r.y_max_boundary - c.y).toNat * r.x_count + (c.x - r.x_min_boundary).toNat
        < (r.y_max_boundary - c.y).toNat * r.x_count + r.x_count := by omega
      _ = ((r.y_max_boundary - c.y).toNat + 1) * r.x_count := by ring
      _ ≤ r.y_count * r.x_count := Nat.mul_le_mul_right _ (by omega)
      _ = r.x_count * r.y_count := Nat.mul_comm _ _

/-- For an index of the form `my * x_count + mx` with `mx < x_count`,
`index_to_coordinate` recovers the matrix-like pair. -/
theorem Rect.index_to_coordinate_of_split (r : Rect) (mx my : Nat)
    (hmx : mx < r.x_count) :
    r.index_to_coordinate (my * r.x_count + mx) = r.to_grid_like (mx, my) := by
  have hx0 : 0 < r.x_count := by simp only [Rect.x_count]; omega
  have hdiv : (my * r.x_count + mx) / r.x_count = my := by
    rw [Nat.mul_comm my r.x_count, Nat.mul_add_div hx0, Nat.div_eq_of_lt hmx]
    omega
  simp only [Rect.index_to_coordinate, hdiv, Nat.add_sub_cancel_left]

/-- The first half of the claim C1 bijection: round trip from a coordinate. -/
theorem Rect.round_trip_coordinate (r : Rect) (c : Coordinate)
    (hc : r.is_within_bounds c = true) :
    ∃ i : Nat, r.coordinate_to_index c = .ok i ∧ i < r.x_count * r.y_count ∧
      r.index_to_coordinate i = .ok c := by
  rcases (r.is_within_bounds_iff c).mp hc with ⟨h1, h2, h3, h4⟩
  obtain ⟨hok, hlt⟩ := r.coordinate_to_index_ok c hc
  refine ⟨_, hok, hlt, ?_⟩
  have hmx : (c.x - r.x_min_boundary).toNat < r.x_count := by
    simp only [Rect.x_count]; omega
  rw [r.index_to_coordinate_of_split _ _ hmx]
  have hcoord : (⟨r.x_min_boundary + ((c.x - r.x_min_boundary).toNat : Int),
      r.y_max_boundary - ((r.y_max_boundary - c.y).toNat : Int)⟩ : Coordinate) = c := by
    have hx : r.x_min_boundary + ((c.x - r.x_min_boundary).toNat : Int) = c.x := by omega
    have hy : r.y_max_boundary - ((r.y_max_boundary - c.y).toNat : Int) = c.y := by omega
    calc (⟨r.x_min_boundary + ((c.x - r.x_min_boundary).toNat : Int),
        r.y_max_boundary - ((r.y_max_boundary - c.y).toNat : Int)⟩ : Coordinate)
        = ⟨c.x, c.y⟩ := by rw [hx, hy]
      _ = c := rfl
  simp only [Rect.to_grid_like, hcoord, hc, if_true]

/-- The second half of the claim C1 bijection: every index in range maps to an
in-bounds coordinate that maps back. -/
theorem Rect.round_trip_index (r : Rect)
    (hx : r.x_min_boundary ≤ r.x_max_boundary)
    (hy : r.y_min_boundary ≤ r.y_max_boundary)
    (i : Nat) (hi : i < r.x_count * r.y_count) :
    ∃ c : Coordinate, r.index_to_coordinate i = .ok c ∧
      r.is_within_bounds c = true ∧ r.coordinate_to_index c = .ok i := by
  have hx0 : 0 < r.x_count := by simp only [Rect.x_count]; omega
  obtain ⟨mx, my, hmx, hmy, hsplit⟩ :
      ∃ mx my : Nat, mx < r.x_count ∧ my < r.y_count ∧ my * r.x_count + mx = i := by
    refine ⟨i % r.x_count, i / r.x_count, Nat.mod_lt i hx0,
      Nat.div_lt_of_lt_mul hi, ?_⟩
    rw [Nat.mul_comm]
    exact Nat.div_add_mod i r.x_count
  subst hsplit
  have hmxI : (mx : Int) < r.x_max_boundary - r.x_min_boundary + 1 := by
    rw [← r.x_count_cast hx]; exact_mod_cast hmx
  have hmyI : (my : Int) < r.y_max_boundary - r.y_min_boundary + 1 := by
    rw [← r.y_count_cast hy]; exact_mod_cast hmy
  have hwithin : r.is_within_bounds
      ⟨r.x_min_boundary + (mx : Int), r.y_max_boundary - (my : Int)⟩ = true := by
    rw [Rect.is_within_bounds_iff]
    dsimp only
    refine ⟨by omega, by omega, by omega, by omega⟩
  refine ⟨⟨r.x_min_boundary + (mx : Int), r.y_max_boundary - (my : Int)⟩, ?_,
    hwithin, ?_⟩
  · rw [r.index_to_coordinate_of_split mx my hmx]
    simp only [Rect.to_grid_like, hwithin, if_true]
  · obtain ⟨hok, _⟩ := r.coordinate_to_index_ok _ hwithin
    rw [hok]
    have e1 : (r.y_max_boundary -
        (⟨r.x_min_boundary + (mx : Int), r.y_max_boundary - (my : Int)⟩ :
          Coordinate).y).toNat = my := by
      dsimp only; omega
    have e2 : ((⟨r.x_min_boundary + (mx : Int), r.y_max_boundary - (my : Int)⟩ :
        Coordinate).x - r.x_min_boundary).toNat = mx := by
      dsimp only; omega
    rw [e1, e2]

/-- **C1.** For every bounded region with `x_min ≤ x_max` and `y_min ≤ y_max`
(in particular every grid) and every coordinate `c` within its bounds,
`index_to_coordinate (coordinate_to_index c) = c`, and `coordinate_to_index`
is a bijection from the in-bounds coordinates onto `[0, x_count * y_count)`:
every in-bounds coordinate gets an index in that range, distinct coordinates
get distinct indices, and every index in the range maps back to an in-bounds
coordinate. -/
theorem claim_c1_coordinate_index_bijection (r : Rect)
    (hx : r.x_min_boundary ≤ r.x_max_boundary)
    (hy : r.y_min_boundary ≤ r.y_max_boundary) :
    (∀ c : Coordinate, r.is_within_bounds c = true →
      ∃ i : Nat, r.coordinate_to_index c = .ok i ∧ i < r.x_count * r.y_count ∧
        r.index_to_coordinate i = .ok c) ∧
    (∀ c c' : Coordinate, r.is_within_bounds c = true →
      r.is_within_bounds c' = true →
      r.coordinate_to_index c = r.coordinate_to_index c' → c = c') ∧
    (∀ i : Nat, i < r.x_count * r.y_count →
      ∃ c : Coordinate, r.index_to_coordinate i = .ok c ∧
        r.is_within_bounds c = true ∧ r.coordinate_to_index c = .ok i) := by
  refine ⟨fun c hc => r.round_trip_coordinate c hc, ?_, r.round_trip_index hx hy⟩
  intro c c' hc hc' heq
  obtain ⟨i, hok, _, hback⟩ := r.round_trip_coordinate c hc
  obtain ⟨i', hok', _, hback'⟩ := r.round_trip_coordinate c' hc'
  rw [hok, hok'] at heq
  cases heq
  rw [hback] at hback'
  cases hback'
  rfl

/-- Witness for C1: the bounds of a 3×3 grid. -/
theorem claim_c1_witness :
    ((⟨-1, 1, -1, 1⟩ : Rect).x_min_boundary ≤ (⟨-1, 1, -1, 1⟩ : Rect).x_max_boundary) ∧
    ((⟨-1, 1, -1, 1⟩ : Rect).y_min_boundary ≤ (⟨-1, 1, -1, 1⟩ : Rect).y_max_boundary) ∧
    ((∀ c : Coordinate, (⟨-1, 1, -1, 1⟩ : Rect).is_within_bounds c = true →
      ∃ i : Nat, (⟨-1, 1, -1, 1⟩ : Rect).coordinate_to_index c = .ok i ∧
        i < (⟨-1, 1, -1, 1⟩ : Rect).x_count * (⟨-1, 1, -1, 1⟩ : Rect).y_count ∧
        (⟨-1, 1, -1, 1⟩ : Rect).index_to_coordinate i = .ok c) ∧
    (∀ c c' : Coordinate, (⟨-1, 1, -1, 1⟩ : Rect).is_within_bounds c = true →
      (⟨-1, 1, -1, 1⟩ : Rect).is_within_bounds c' = true →
      (⟨-1, 1, -1, 1⟩ : Rect).coordinate_to_index c =
        (⟨-1, 1, -1, 1⟩ : Rect).coordinate_to_index c' → c = c') ∧
    (∀ i : Nat, i < (⟨-1, 1, -1, 1⟩ : Rect).x_count * (⟨-1, 1, -1, 1⟩ : Rect).y_count →
      ∃ c : Coordinate, (⟨-1, 1, -1, 1⟩ : Rect).index_to_coordinate i = .ok c ∧
        (⟨-1, 1, -1, 1⟩ : Rect).is_within_bounds c = true ∧
        (⟨-1, 1, -1, 1⟩ : Rect).coordinate_to_index c = .ok i)) :=
  ⟨by decide, by decide,
    claim_c1_coordinate_index_bijection ⟨-1, 1, -1, 1⟩ (by decide) (by decide)⟩


/-! ## The origin-centered bounds constructor and its parity facts -/

/-- The two truncating divisions inside `OriginCenteredBounds::new` for one
axis, characterised: the resulting min/max pair brackets the origin, has the
requested count (at least 1 — a zero count degenerates to `[0, 0]`), always
satisfies one of the two centering parity shapes, and for a positive count
satisfies exactly the parity rule. -/
theorem ocb_new_axis (m : Nat) :
    ∃ lo hi : Int,
      Int.tdiv (-((m : Int) - (((m + 1) % 2 : Nat) : Int))) 2 = lo ∧
      Int.tdiv ((m : Int) + (((m + 1) % 2 : Nat) : Int)) 2 = hi ∧
      lo ≤ 0 ∧ 0 ≤ hi ∧ (hi - lo + 1).toNat = max m 1 ∧
      (hi = -lo ∨ hi = -lo + 1) ∧
      (1 ≤ m → hi - lo + 1 = (m : Int) ∧
        (m % 2 = 1 → hi = -lo) ∧ (m % 2 = 0 → hi = -lo + 1)) := by
  by_cases hm : m = 0
  · subst hm
    exact ⟨0, 0, by decide, by decide, by decide, by decide, by decide,
      Or.inl (by decide), by omega⟩
  · have hm1 : 1 ≤ m := by omega
    have hpm : (m + 1) % 2 ≤ m := by omega
    refine ⟨-((((m - (m + 1) % 2) / 2 : Nat)) : Int),
      ((((m + (m + 1) % 2) / 2 : Nat)) : Int), ?_, ?_, by omega, by omega, by omega,
      by omega, fun _ => ⟨by omega, fun h => by omega, fun h => by omega⟩⟩
    · have h1 : -((m : Int) - (((m + 1) % 2 : Nat) : Int)) =
          -(((m - (m + 1) % 2 : Nat) : Int)) := by omega
      rw [h1, Int.neg_tdiv, show ((2 : Int)) = (((2 : Nat) : Int)) from rfl,
        ← Int.ofNat_tdiv]
    · have h2 : (m : Int) + (((m + 1) % 2 : Nat) : Int) =
          ((m + (m + 1) % 2 : Nat) : Int) := by omega
      rw [h2, show ((2 : Int)) = (((2 : Nat) : Int)) from rfl, ← Int.ofNat_tdiv]

/-- The boundary record of `OriginCenteredBounds::new`, characterised per axis
through `ocb_new_axis`. -/
theorem ocb_new_rect (m n : Nat) :
    ∃ lox hix loy hiy : Int,
      (OriginCenteredBounds.new m n).b.rect = ⟨lox, hix, loy, hiy⟩ ∧
      lox ≤ 0 ∧ 0 ≤ hix ∧ (hix - lox + 1).toNat = max m 1 ∧
      (hix = -lox ∨ hix = -lox + 1) ∧
      (1 ≤ m → hix - lox + 1 = (m : Int) ∧
        (m % 2 = 1 → hix = -lox) ∧ (m % 2 = 0 → hix = -lox + 1)) ∧
      loy ≤ 0 ∧ 0 ≤ hiy ∧ (hiy - loy + 1).toNat = max n 1 ∧
      (hiy = -loy ∨ hiy = -loy + 1) ∧
      (1 ≤ n → hiy - loy + 1 = (n : Int) ∧
        (n % 2 = 1 → hiy = -loy) ∧ (n % 2 = 0 → hiy = -loy + 1)) := by
  obtain ⟨lox, hix, hx1, hx2, hx3, hx4, hx5, hx6, hx7⟩ := ocb_new_axis m
  obtain ⟨loy, hiy, hy1, hy2, hy3, hy4, hy5, hy6, hy7⟩ := ocb_new_axis n
  refine ⟨lox, hix, loy, hiy, ?_, hx3, hx4, hx5, hx6, hx7, hy3, hy4, hy5, hy6, hy7⟩
  show (OriginCenteredBounds.new_bounds m n).rect = _
  unfold OriginCenteredBounds.new_bounds
  simp only [hx1, hx2, hy1, hy2, Bounds.new, Bounds.rect]
  have ex : lox + ((hix - lox).toNat : Int) = hix := by omega
  have ey : loy + ((hiy - loy).toNat : Int) = hiy := by omega
  rw [ex, ey]

/-- `OriginCenteredBounds::new` always produces a value satisfying the
origin-centering type invariant. -/
theorem ocb_new_origin_centered (m n : Nat) :
    (OriginCenteredBounds.new m n).origin_centered = true := by
  obtain ⟨lox, hix, loy, hiy, hrect, hx3, hx4, _, hx6, _, hy3, hy4, _, hy6, _⟩ :=
    ocb_new_rect m n
  simp only [OriginCenteredBounds.origin_centered, hrect, Bool.and_eq_true,
    Bool.or_eq_true, decide_eq_true_eq]
  refine ⟨⟨⟨?_, ?_⟩, by omega⟩, by omega⟩
  · rcases hx6 with h | h
    · exact Or.inl (by omega)
    · exact Or.inr (by omega)
  · rcases hy6 with h | h
    · exact Or.inl (by omega)
    · exact Or.inr (by omega)

/-- The counts of `OriginCenteredBounds::new` (a zero request degenerates to
count 1). -/
theorem ocb_new_counts (m n : Nat) :
    (OriginCenteredBounds.new m n).x_count = max m 1 ∧
      (OriginCenteredBounds.new m n).y_count = max n 1 := by
  obtain ⟨lox, hix, loy, hiy, hrect, _, _, hx5, _, _, _, _, hy5, _, _⟩ :=
    ocb_new_rect m n
  simp only [OriginCenteredBounds.x_count, OriginCenteredBounds.y_count, hrect]
  exact ⟨hx5, hy5⟩

/-- Arithmetic of the count-derived boundaries for a positive count: the
derived rectangle is non-degenerate, has the given count, and satisfies the
parity rule. -/
theorem origin_centered_derived_facts (m : Nat) (hm : 1 ≤ m) :
    origin_centered_x_min m ≤ origin_centered_x_max m ∧
      origin_centered_x_max m - origin_centered_x_min m + 1 = (m : Int) ∧
      (m % 2 = 1 → origin_centered_x_max m = -(origin_centered_x_min m)) ∧
      (m % 2 = 0 → origin_centered_x_max m = -(origin_centered_x_min m) + 1) := by
  have h0 : ¬(m = 0) := by omega
  simp only [origin_centered_x_min, origin_centered_x_max, h0, if_false]
  by_cases hp : m % 2 = 0
  · exact ⟨by simp only [hp, if_true]; omega, by simp only [hp, if_true]; omega,
      fun h => by omega, fun h => by simp only [hp, if_true]; omega⟩
  · exact ⟨by simp only [hp, if_false]; omega, by simp only [hp, if_false]; omega,
      fun h => by simp only [hp, if_false]; omega, fun h => by omega⟩

/-- The y-axis versions of `origin_centered_derived_facts` (the definitions
coincide axis-wise). -/
theorem origin_centered_derived_facts_y (m : Nat) (hm : 1 ≤ m) :
    origin_centered_y_min m ≤ origin_centered_y_max m ∧
      origin_centered_y_max m - origin_centered_y_min m + 1 = (m : Int) ∧
      (m % 2 = 1 → origin_centered_y_max m = -(origin_centered_y_min m)) ∧
      (m % 2 = 0 → origin_centered_y_max m = -(origin_centered_y_min m) + 1) := by
  have h0 : ¬(m = 0) := by omega
  simp only [origin_centered_y_min, origin_centered_y_max, h0, if_false]
  by_cases hp : m % 2 = 0
  · exact ⟨by simp only [hp, if_true]; omega, by simp only [hp, if_true]; omega,
      fun h => by omega, fun h => by simp only [hp, if_true]; omega⟩
  · exact ⟨by simp only [hp, if_false]; omega, by simp only [hp, if_false]; omega,
      fun h => by simp only [hp, if_false]; omega, fun h => by omega⟩


/-- **C2.** For all valid counts `(m, n)` (`m ≥ 1`, `n ≥ 1`), `Grid::new(m,n)`
satisfies `x_count() = m` and `y_count() = n`, and its rectangle satisfies the
origin-centering parity rule on each axis: `count = max - min + 1`; if the
count is odd then `max = -min`, and if it is even then `max = -min + 1`. In
particular `Grid::new(3,3)` is bounded by `[-1,1] × [-1,1]`. -/
theorem claim_c2_grid_new (α : Type) (m n : Nat) (hm : 1 ≤ m) (hn : 1 ≤ n) :
    (Grid.new m n : Grid α).x_count = m ∧ (Grid.new m n : Grid α).y_count = n ∧
      (Grid.new m n : Grid α).rect.x_max_boundary -
          (Grid.new m n : Grid α).rect.x_min_boundary + 1 = (m : Int) ∧
      (m % 2 = 1 → (Grid.new m n : Grid α).rect.x_max_boundary =
        -((Grid.new m n : Grid α).rect.x_min_boundary)) ∧
      (m % 2 = 0 → (Grid.new m n : Grid α).rect.x_max_boundary =
        -((Grid.new m n : Grid α).rect.x_min_boundary) + 1) ∧
      (Grid.new m n : Grid α).rect.y_max_boundary -
          (Grid.new m n : Grid α).rect.y_min_boundary + 1 = (n : Int) ∧
      (n % 2 = 1 → (Grid.new m n : Grid α).rect.y_max_boundary =
        -((Grid.new m n : Grid α).rect.y_min_boundary)) ∧
      (n % 2 = 0 → (Grid.new m n : Grid α).rect.y_max_boundary =
        -((Grid.new m n : Grid α).rect.y_min_boundary) + 1) ∧
      (Grid.new 3 3 : Grid Unit).rect = ⟨-1, 1, -1, 1⟩ := by
  obtain ⟨hcx, hcy⟩ := ocb_new_counts m n
  have hxc : (Grid.new m n : Grid α).x_count = m := by
    show (OriginCenteredBounds.new m n).x_count = m
    rw [hcx]; omega
  have hyc : (Grid.new m n : Grid α).y_count = n := by
    show (OriginCenteredBounds.new m n).y_count = n
    rw [hcy]; omega
  have hrect : (Grid.new m n : Grid α).rect =
      ⟨origin_centered_x_min m, origin_centered_x_max m,
        origin_centered_y_min n, origin_centered_y_max n⟩ := by
    simp only [Grid.rect, hxc, hyc]
  obtain ⟨_, hd2, hd3, hd4⟩ := origin_centered_derived_facts m hm
  obtain ⟨_, he2, he3, he4⟩ := origin_centered_derived_facts_y n hn
  rw [hrect]
  exact ⟨hxc, hyc, hd2, hd3, hd4, he2, he3, he4, by decide⟩

/-- Witness for C2 at the counts (3, 4). -/
theorem claim_c2_witness :
    1 ≤ 3 ∧ 1 ≤ 4 ∧
      ((Grid.new 3 4 : Grid Unit).x_count = 3 ∧ (Grid.new 3 4 : Grid Unit).y_count = 4 ∧
        (Grid.new 3 4 : Grid Unit).rect.x_max_boundary -
            (Grid.new 3 4 : Grid Unit).rect.x_min_boundary + 1 = (3 : Int) ∧
        (3 % 2 = 1 → (Grid.new 3 4 : Grid Unit).rect.x_max_boundary =
          -((Grid.new 3 4 : Grid Unit).rect.x_min_boundary)) ∧
        (3 % 2 = 0 → (Grid.new 3 4 : Grid Unit).rect.x_max_boundary =
          -((Grid.new 3 4 : Grid Unit).rect.x_min_boundary) + 1) ∧
        (Grid.new 3 4 : Grid Unit).rect.y_max_boundary -
            (Grid.new 3 4 : Grid Unit).rect.y_min_boundary + 1 = (4 : Int) ∧
        (4 % 2 = 1 → (Grid.new 3 4 : Grid Unit).rect.y_max_boundary =
          -((Grid.new 3 4 : Grid Unit).rect.y_min_boundary)) ∧
        (4 % 2 = 0 → (Grid.new 3 4 : Grid Unit).rect.y_max_boundary =
          -((Grid.new 3 4 : Grid Unit).rect.y_min_boundary) + 1) ∧
        (Grid.new 3 3 : Grid Unit).rect = ⟨-1, 1, -1, 1⟩) :=
  ⟨by decide, by decide, claim_c2_grid_new Unit 3 4 (by decide) (by decide)⟩


/-! ## Validation of arbitrary rectangles (`TryFrom<Bounds>`) -/

/-- Computation of `try_from` on a rectangle built by `Bounds::new`: the
re-derived max of each axis is `min + len`, the x axis is checked first, and
on success the stored bounds are rebuilt from the same data. -/
theorem try_from_new_eq (x_min : Int) (x_len : Nat) (y_min : Int) (y_len : Nat) :
    OriginCenteredBounds.try_from (Bounds.new x_min x_len y_min y_len) =
      if ¬(-x_min = x_min + (x_len : Int) ∨ -x_min + 1 = x_min + (x_len : Int)) then
        .error ⟨x_min, x_min + (x_len : Int)⟩
      else if ¬(-y_min = y_min + (y_len : Int) ∨ -y_min + 1 = y_min + (y_len : Int)) then
        .error ⟨y_min, y_min + (y_len : Int)⟩
      else
        .ok ⟨Bounds.new x_min x_len y_min y_len⟩ := by
  have ex : ((x_min + (x_len : Int) - x_min).natAbs : Int) = (x_len : Int) := by omega
  have ey : ((y_min + (y_len : Int) - y_min).natAbs : Int) = (y_len : Int) := by omega
  have ex2 : (x_min + (x_len : Int) - x_min).toNat = x_len := by omega
  have ey2 : (y_min + (y_len : Int) - y_min).toNat = y_len := by omega
  simp only [OriginCenteredBounds.try_from, Bounds.rect, Bounds.new,
    Rect.x_geometric_len, Rect.y_geometric_len, Rect.x_min_boundary,
    Rect.y_min_boundary, ex, ey, ex2, ey2]

/-- **C7.** Converting an arbitrary rectangle (`Bounds::new(x_min, x_len,
y_min, y_len)`, so each axis count is `len + 1`) to `OriginCenteredBounds`
succeeds exactly when both axes satisfy the parity rule (`max = -min` for an
odd count, `max = -min + 1` for an even count, where `max = min + len`); on
violation it fails with an invalid-region error carrying the min and max of
the offending axis, the x axis being checked first; and on success the
resulting bounds equal the input rectangle. -/
theorem claim_c7_try_from_parity (x_min : Int) (x_len : Nat) (y_min : Int) (y_len : Nat) :
    ((∃ o, OriginCenteredBounds.try_from (Bounds.new x_min x_len y_min y_len) = .ok o) ↔
      ((((x_len + 1) % 2 = 1 → x_min + (x_len : Int) = -x_min) ∧
        ((x_len + 1) % 2 = 0 → x_min + (x_len : Int) = -x_min + 1)) ∧
        (((y_len + 1) % 2 = 1 → y_min + (y_len : Int) = -y_min) ∧
          ((y_len + 1) % 2 = 0 → y_min + (y_len : Int) = -y_min + 1)))) ∧
    (¬(-x_min = x_min + (x_len : Int) ∨ -x_min + 1 = x_min + (x_len : Int)) →
      OriginCenteredBounds.try_from (Bounds.new x_min x_len y_min y_len) =
        .error ⟨x_min, x_min + (x_len : Int)⟩) ∧
    ((-x_min = x_min + (x_len : Int) ∨ -x_min + 1 = x_min + (x_len : Int)) →
      ¬(-y_min = y_min + (y_len : Int) ∨ -y_min + 1 = y_min + (y_len : Int)) →
      OriginCenteredBounds.try_from (Bounds.new x_min x_len y_min y_len) =
        .error ⟨y_min, y_min + (y_len : Int)⟩) ∧
    (∀ o, OriginCenteredBounds.try_from (Bounds.new x_min x_len y_min y_len) = .ok o →
      o.b = Bounds.new x_min x_len y_min y_len) := by
  rw [try_from_new_eq]
  by_cases hx : -x_min = x_min + (x_len : Int) ∨ -x_min + 1 = x_min + (x_len : Int)
  · by_cases hy : -y_min = y_min + (y_len : Int) ∨ -y_min + 1 = y_min + (y_len : Int)
    · rw [if_neg (not_not_intro hx), if_neg (not_not_intro hy)]
      refine ⟨?_, fun h => absurd hx h, fun _ h => absurd hy h, ?_⟩
      · constructor
        · intro _
          refine ⟨⟨fun _ => by omega, fun _ => by omega⟩,
            ⟨fun _ => by omega, fun _ => by omega⟩⟩
        · intro _
          exact ⟨_, rfl⟩
      · intro o ho
        cases ho
        rfl
    · rw [if_neg (not_not_intro hx), if_pos hy]
      refine ⟨?_, fun h => absurd hx h, fun _ _ => rfl, fun o ho => by cases ho⟩
      constructor
      · intro ⟨o, ho⟩
        cases ho
      · intro ⟨_, hy1, hy2⟩
        rcases Nat.mod_two_eq_zero_or_one (y_len + 1) with h | h
        · exact absurd (Or.inr (by have := hy2 h; omega)) hy
        · exact absurd (Or.inl (by have := hy1 h; omega)) hy
  · rw [if_pos hx]
    refine ⟨?_, fun _ => rfl, fun h _ => absurd h hx, fun o ho => by cases ho⟩
    constructor
    · intro ⟨o, ho⟩
      cases ho
    · intro ⟨⟨hx1, hx2⟩, _⟩
      rcases Nat.mod_two_eq_zero_or_one (x_len + 1) with h | h
      · exact absurd (Or.inr (by have := hx2 h; omega)) hx
      · exact absurd (Or.inl (by have := hx1 h; omega)) hx

/-- Witness for C7: the rectangle `[-1, 2] × [-1, 1]` (x even count 4, y odd
count 3). -/
theorem claim_c7_witness :
    ((∃ o, OriginCenteredBounds.try_from (Bounds.new (-1) 3 (-1) 2) = .ok o) ↔
      ((((3 + 1) % 2 = 1 → (-1 : Int) + ((3 : Nat) : Int) = -(-1)) ∧
        ((3 + 1) % 2 = 0 → (-1 : Int) + ((3 : Nat) : Int) = -(-1) + 1)) ∧
        (((2 + 1) % 2 = 1 → (-1 : Int) + ((2 : Nat) : Int) = -(-1)) ∧
          ((2 + 1) % 2 = 0 → (-1 : Int) + ((2 : Nat) : Int) = -(-1) + 1)))) ∧
    (¬(-(-1) = (-1 : Int) + ((3 : Nat) : Int) ∨ -(-1) + 1 = (-1 : Int) + ((3 : Nat) : Int)) →
      OriginCenteredBounds.try_from (Bounds.new (-1) 3 (-1) 2) =
        .error ⟨-1, (-1 : Int) + ((3 : Nat) : Int)⟩) ∧
    ((-(-1) = (-1 : Int) + ((3 : Nat) : Int) ∨ -(-1) + 1 = (-1 : Int) + ((3 : Nat) : Int)) →
      ¬(-(-1) = (-1 : Int) + ((2 : Nat) : Int) ∨ -(-1) + 1 = (-1 : Int) + ((2 : Nat) : Int)) →
      OriginCenteredBounds.try_from (Bounds.new (-1) 3 (-1) 2) =
        .error ⟨-1, (-1 : Int) + ((2 : Nat) : Int)⟩) ∧
    (∀ o, OriginCenteredBounds.try_from (Bounds.new (-1) 3 (-1) 2) = .ok o →
      o.b = Bounds.new (-1) 3 (-1) 2) :=
  claim_c7_try_from_parity (-1) 3 (-1) 2


/-! ## Centering-preserving expansion of `OriginCenteredBounds` -/

/-- Expanding South lowers `y_min` by one and leaves the other boundaries. -/
theorem Bounds.expand_south_rect (b : Bounds) :
    (b.expand_in_direction .South).rect =
      ⟨b.rect.x_min_boundary, b.rect.x_max_boundary,
        b.rect.y_min_boundary - 1, b.rect.y_max_boundary⟩ := by
  cases b
  simp only [Bounds.expand_in_direction, Bounds.rect, Coordinate.move_in_direction,
    Nat.cast_one]

/-- Expanding North raises `y_max` by one and leaves the other boundaries. -/
theorem Bounds.expand_north_rect (b : Bounds) :
    (b.expand_in_direction .North).rect =
      ⟨b.rect.x_min_boundary, b.rect.x_max_boundary,
        b.rect.y_min_boundary, b.rect.y_max_boundary + 1⟩ := by
  cases b
  simp only [Bounds.expand_in_direction, Bounds.rect, Coordinate.move_in_direction,
    Nat.cast_one]

/-- Expanding West lowers `x_min` by one and leaves the other boundaries. -/
theorem Bounds.expand_west_rect (b : Bounds) :
    (b.expand_in_direction .West).rect =
      ⟨b.rect.x_min_boundary - 1, b.rect.x_max_boundary,
        b.rect.y_min_boundary, b.rect.y_max_boundary⟩ := by
  cases b
  simp only [Bounds.expand_in_direction, Bounds.rect, Coordinate.move_in_direction,
    Nat.cast_one]

/-- Expanding East raises `x_max` by one and leaves the other boundaries. -/
theorem Bounds.expand_east_rect (b : Bounds) :
    (b.expand_in_direction .East).rect =
      ⟨b.rect.x_min_boundary, b.rect.x_max_boundary + 1,
        b.rect.y_min_boundary, b.rect.y_max_boundary⟩ := by
  cases b
  simp only [Bounds.expand_in_direction, Bounds.rect, Coordinate.move_in_direction,
    Nat.cast_one]

/-- The origin-centering invariant unfolded to a proposition. -/
theorem OriginCenteredBounds.origin_centered_iff (o : OriginCenteredBounds) :
    o.origin_centered = true ↔
      (-(o.b.rect.x_min_boundary) = o.b.rect.x_max_boundary ∨
        -(o.b.rect.x_min_boundary) + 1 = o.b.rect.x_max_boundary) ∧
      (-(o.b.rect.y_min_boundary) = o.b.rect.y_max_boundary ∨
        -(o.b.rect.y_min_boundary) + 1 = o.b.rect.y_max_boundary) ∧
      o.b.rect.x_min_boundary ≤ o.b.rect.x_max_boundary ∧
      o.b.rect.y_min_boundary ≤ o.b.rect.y_max_boundary := by
  simp only [OriginCenteredBounds.origin_centered, Bool.and_eq_true,
    Bool.or_eq_true, decide_eq_true_eq]
  tauto

/-- Vertical expansion characterised on an invariant-satisfying value. -/
theorem ocb_expand_vertical_spec (o : OriginCenteredBounds)
    (ho : o.origin_centered = true) :
    (o.expand_bounds_vertically).2.y_count = o.y_count + 1 ∧
      (o.expand_bounds_vertically).2.x_count = o.x_count ∧
      (o.expand_bounds_vertically).2.origin_centered = true ∧
      (o.y_count % 2 = 0 →
        (o.expand_bounds_vertically).1 = false ∧
        (o.expand_bounds_vertically).2.b.rect.y_min_boundary =
          o.b.rect.y_min_boundary - 1 ∧
        (o.expand_bounds_vertically).2.b.rect.y_max_boundary =
          o.b.rect.y_max_boundary) ∧
      (o.y_count % 2 = 1 →
        (o.expand_bounds_vertically).1 = true ∧
        (o.expand_bounds_vertically).2.b.rect.y_min_boundary =
          o.b.rect.y_min_boundary ∧
        (o.expand_bounds_vertically).2.b.rect.y_max_boundary =
          o.b.rect.y_max_boundary + 1) := by
  rcases (o.origin_centered_iff).mp ho with ⟨hxp, hyp, hxle, hyle⟩
  by_cases hpar : o.y_count % 2 = 0
  · have hred : o.expand_bounds_vertically =
        (false, ⟨o.b.expand_in_direction .South⟩) := by
      simp only [OriginCenteredBounds.expand_bounds_vertically, hpar, if_pos]
    have hcnt : (OriginCenteredBounds.mk (o.b.expand_in_direction .South)).b.rect =
        ⟨o.b.rect.x_min_boundary, o.b.rect.x_max_boundary,
          o.b.rect.y_min_boundary - 1, o.b.rect.y_max_boundary⟩ :=
      Bounds.expand_south_rect o.b
    have hparI : o.y_count % 2 = 0 := hpar
    rw [hred]
    have hyc : o.y_count = (o.b.rect.y_max_boundary -
        o.b.rect.y_min_boundary + 1).toNat := rfl
    have hxc : o.x_count = (o.b.rect.x_max_boundary -
        o.b.rect.x_min_boundary + 1).toNat := rfl
    refine ⟨?_, ?_, ?_, fun _ => ⟨rfl, ?_, ?_⟩, fun h => absurd h (by omega)⟩
    · show ((OriginCenteredBounds.mk (o.b.expand_in_direction .South)).b.rect.y_max_boundary -
        (OriginCenteredBounds.mk (o.b.expand_in_direction .South)).b.rect.y_min_boundary
          + 1).toNat = o.y_count + 1
      simp only [hcnt, hyc]
      omega
    · show ((OriginCenteredBounds.mk (o.b.expand_in_direction .South)).b.rect.x_max_boundary -
        (OriginCenteredBounds.mk (o.b.expand_in_direction .South)).b.rect.x_min_boundary
          + 1).toNat = o.x_count
      simp only [hcnt, hxc]
    · simp only [OriginCenteredBounds.origin_centered_iff, hcnt]
      rw [hyc] at hparI
      exact ⟨hxp, by omega, hxle, by omega⟩
    · show (OriginCenteredBounds.mk (o.b.expand_in_direction .South)).b.rect.y_min_boundary = _
      simp only [hcnt]
    · show (OriginCenteredBounds.mk (o.b.expand_in_direction .South)).b.rect.y_max_boundary = _
      simp only [hcnt]
  · have hred : o.expand_bounds_vertically =
        (true, ⟨o.b.expand_in_direction .North⟩) := by
      simp only [OriginCenteredBounds.expand_bounds_vertically, hpar, ite_false]
    have hcnt : (OriginCenteredBounds.mk (o.b.expand_in_direction .North)).b.rect =
        ⟨o.b.rect.x_min_boundary, o.b.rect.x_max_boundary,
          o.b.rect.y_min_boundary, o.b.rect.y_max_boundary + 1⟩ :=
      Bounds.expand_north_rect o.b
    have hparI : ¬(o.y_count % 2 = 0) := hpar
    rw [hred]
    have hyc : o.y_count = (o.b.rect.y_max_boundary -
        o.b.rect.y_min_boundary + 1).toNat := rfl
    have hxc : o.x_count = (o.b.rect.x_max_boundary -
        o.b.rect.x_min_boundary + 1).toNat := rfl
    refine ⟨?_, ?_, ?_, fun h => absurd h (by omega), fun _ => ⟨rfl, ?_, ?_⟩⟩
    · show ((OriginCenteredBounds.mk (o.b.expand_in_direction .North)).b.rect.y_max_boundary -
        (OriginCenteredBounds.mk (o.b.expand_in_direction .North)).b.rect.y_min_boundary
          + 1).toNat = o.y_count + 1
      simp only [hcnt, hyc]
      omega
    · show ((OriginCenteredBounds.mk (o.b.expand_in_direction .North)).b.rect.x_max_boundary -
        (OriginCenteredBounds.mk (o.b.expand_in_direction .North)).b.rect.x_min_boundary
          + 1).toNat = o.x_count
      simp only [hcnt, hxc]
    · simp only [OriginCenteredBounds.origin_centered_iff, hcnt]
      rw [hyc] at hparI
      exact ⟨hxp, by omega, hxle, by omega⟩
    · show (OriginCenteredBounds.mk (o.b.expand_in_direction .North)).b.rect.y_min_boundary = _
      simp only [hcnt]
    · show (OriginCenteredBounds.mk (o.b.expand_in_direction .North)).b.rect.y_max_boundary = _
      simp only [hcnt]

/-- Horizontal expansion characterised on an invariant-satisfying value. -/
theorem ocb_expand_horizontal_spec (o : OriginCenteredBounds)
    (ho : o.origin_centered = true) :
    (o.expand_bounds_horizontally).2.x_count = o.x_count + 1 ∧
      (o.expand_bounds_horizontally).2.y_count = o.y_count ∧
      (o.expand_bounds_horizontally).2.origin_centered = true ∧
      (o.x_count % 2 = 0 →
        (o.expand_bounds_horizontally).1 = true ∧
        (o.expand_bounds_horizontally).2.b.rect.x_min_boundary =
          o.b.rect.x_min_boundary - 1 ∧
        (o.expand_bounds_horizontally).2.b.rect.x_max_boundary =
          o.b.rect.x_max_boundary) ∧
      (o.x_count % 2 = 1 →
        (o.expand_bounds_horizontally).1 = false ∧
        (o.expand_bounds_horizontally).2.b.rect.x_min_boundary =
          o.b.rect.x_min_boundary ∧
        (o.expand_bounds_horizontally).2.b.rect.x_max_boundary =
          o.b.rect.x_max_boundary + 1) := by
  rcases (o.origin_centered_iff).mp ho with ⟨hxp, hyp, hxle, hyle⟩
  by_cases hpar : o.x_count % 2 = 0
  · have hred : o.expand_bounds_horizontally =
        (true, ⟨o.b.expand_in_direction .West⟩) := by
      simp only [OriginCenteredBounds.expand_bounds_horizontally, hpar, if_pos]
    have hcnt : (OriginCenteredBounds.mk (o.b.expand_in_direction .West)).b.rect =
        ⟨o.b.rect.x_min_boundary - 1, o.b.rect.x_max_boundary,
          o.b.rect.y_min_boundary, o.b.rect.y_max_boundary⟩ :=
      Bounds.expand_west_rect o.b
    have hparI : o.x_count % 2 = 0 := hpar
    rw [hred]
    have hyc : o.y_count = (o.b.rect.y_max_boundary -
        o.b.rect.y_min_boundary + 1).toNat := rfl
    have hxc : o.x_count = (o.b.rect.x_max_boundary -
        o.b.rect.x_min_boundary + 1).toNat := rfl
    refine ⟨?_, ?_, ?_, fun _ => ⟨rfl, ?_, ?_⟩, fun h => absurd h (by omega)⟩
    · show ((OriginCenteredBounds.mk (o.b.expand_in_direction .West)).b.rect.x_max_boundary -
        (OriginCenteredBounds.mk (o.b.expand_in_direction .West)).b.rect.x_min_boundary
          + 1).toNat = o.x_count + 1
      simp only [hcnt, hxc]
      omega
    · show ((OriginCenteredBounds.mk (o.b.expand_in_direction .West)).b.rect.y_max_boundary -
        (OriginCenteredBounds.mk (o.b.expand_in_direction .West)).b.rect.y_min_boundary
          + 1).toNat = o.y_count
      simp only [hcnt, hyc]
    · simp only [OriginCenteredBounds.origin_centered_iff, hcnt]
      rw [hxc] at hparI
      exact ⟨by omega, hyp, by omega, hyle⟩
    · show (OriginCenteredBounds.mk (o.b.expand_in_direction .West)).b.rect.x_min_boundary = _
      simp only [hcnt]
    · show (OriginCenteredBounds.mk (o.b.expand_in_direction .West)).b.rect.x_max_boundary = _
      simp only [hcnt]
  · have hred : o.expand_bounds_horizontally =
        (false, ⟨o.b.expand_in_direction .East⟩) := by
      simp only [OriginCenteredBounds.expand_bounds_horizontally, hpar, ite_false]
    have hcnt : (OriginCenteredBounds.mk (o.b.expand_in_direction .East)).b.rect =
        ⟨o.b.rect.x_min_boundary, o.b.rect.x_max_boundary + 1,
          o.b.rect.y_min_boundary, o.b.rect.y_max_boundary⟩ :=
      Bounds.expand_east_rect o.b
    have hparI : ¬(o.x_count % 2 = 0) := hpar
    rw [hred]
    have hyc : o.y_count = (o.b.rect.y_max_boundary -
        o.b.rect.y_min_boundary + 1).toNat := rfl
    have hxc : o.x_count = (o.b.rect.x_max_boundary -
        o.b.rect.x_min_boundary + 1).toNat := rfl
    refine ⟨?_, ?_, ?_, fun h => absurd h (by omega), fun _ => ⟨rfl, ?_, ?_⟩⟩
    · show ((OriginCenteredBounds.mk (o.b.expand_in_direction .East)).b.rect.x_max_boundary -
        (OriginCenteredBounds.mk (o.b.expand_in_direction .East)).b.rect.x_min_boundary
          + 1).toNat = o.x_count + 1
      simp only [hcnt, hxc]
      omega
    · show ((OriginCenteredBounds.mk (o.b.expand_in_direction .East)).b.rect.y_max_boundary -
        (OriginCenteredBounds.mk (o.b.expand_in_direction .East)).b.rect.y_min_boundary
          + 1).toNat = o.y_count
      simp only [hcnt, hyc]
    · simp only [OriginCenteredBounds.origin_centered_iff, hcnt]
      rw [hxc] at hparI
      exact ⟨by omega, hyp, by omega, hyle⟩
    · show (OriginCenteredBounds.mk (o.b.expand_in_direction .East)).b.rect.x_min_boundary = _
      simp only [hcnt]
    · show (OriginCenteredBounds.mk (o.b.expand_in_direction .East)).b.rect.x_max_boundary = _
      simp only [hcnt]


/-- **C8.** For every (invariant-satisfying) `OriginCenteredBounds`, each call
to `expand_bounds_horizontally` (resp. `expand_bounds_vertically`) grows the
x-count (resp. y-count) by exactly one, preserves the origin-centering parity
invariant, grows the West (resp. South) side when the current count is even
and the East (resp. North) side when it is odd, and returns which side was
grown; in particular `OriginCenteredBounds::new(0,0)` expanded vertically
twice ends with `y_min = -1` and `y_max = 1`. -/
theorem claim_c8_expand_bounds (o : OriginCenteredBounds)
    (ho : o.origin_centered = true) :
    ((o.expand_bounds_vertically).2.y_count = o.y_count + 1 ∧
      (o.expand_bounds_vertically).2.x_count = o.x_count ∧
      (o.expand_bounds_vertically).2.origin_centered = true ∧
      (o.y_count % 2 = 0 →
        (o.expand_bounds_vertically).1 = false ∧
        (o.expand_bounds_vertically).2.b.rect.y_min_boundary =
          o.b.rect.y_min_boundary - 1 ∧
        (o.expand_bounds_vertically).2.b.rect.y_max_boundary =
          o.b.rect.y_max_boundary) ∧
      (o.y_count % 2 = 1 →
        (o.expand_bounds_vertically).1 = true ∧
        (o.expand_bounds_vertically).2.b.rect.y_min_boundary =
          o.b.rect.y_min_boundary ∧
        (o.expand_bounds_vertically).2.b.rect.y_max_boundary =
          o.b.rect.y_max_boundary + 1)) ∧
    ((o.expand_bounds_horizontally).2.x_count = o.x_count + 1 ∧
      (o.expand_bounds_horizontally).2.y_count = o.y_count ∧
      (o.expand_bounds_horizontally).2.origin_centered = true ∧
      (o.x_count % 2 = 0 →
        (o.expand_bounds_horizontally).1 = true ∧
        (o.expand_bounds_horizontally).2.b.rect.x_min_boundary =
          o.b.rect.x_min_boundary - 1 ∧
        (o.expand_bounds_horizontally).2.b.rect.x_max_boundary =
          o.b.rect.x_max_boundary) ∧
      (o.x_count % 2 = 1 →
        (o.expand_bounds_horizontally).1 = false ∧
        (o.expand_bounds_horizontally).2.b.rect.x_min_boundary =
          o.b.rect.x_min_boundary ∧
        (o.expand_bounds_horizontally).2.b.rect.x_max_boundary =
          o.b.rect.x_max_boundary + 1)) ∧
    ((((OriginCenteredBounds.new 0 0).expand_bounds_vertically).2.expand_bounds_vertically).2.b.rect.y_min_boundary
        = -1 ∧
      (((OriginCenteredBounds.new 0 0).expand_bounds_vertically).2.expand_bounds_vertically).2.b.rect.y_max_boundary
        = 1) :=
  ⟨ocb_expand_vertical_spec o ho, ocb_expand_horizontal_spec o ho,
    by decide, by decide⟩

/-- Witness for C8 at the 2×3 origin-centered bounds. -/
theorem claim_c8_witness :
    (OriginCenteredBounds.new 2 3).origin_centered = true ∧
    ((((OriginCenteredBounds.new 2 3).expand_bounds_vertically).2.y_count = (OriginCenteredBounds.new 2 3).y_count + 1 ∧
      ((OriginCenteredBounds.new 2 3).expand_bounds_vertically).2.x_count = (OriginCenteredBounds.new 2 3).x_count ∧
      ((OriginCenteredBounds.new 2 3).expand_bounds_vertically).2.origin_centered = true ∧
      ((OriginCenteredBounds.new 2 3).y_count % 2 = 0 →
        ((OriginCenteredBounds.new 2 3).expand_bounds_vertically).1 = false ∧
        ((OriginCenteredBounds.new 2 3).expand_bounds_vertically).2.b.rect.y_min_boundary =
          (OriginCenteredBounds.new 2 3).b.rect.y_min_boundary - 1 ∧
        ((OriginCenteredBounds.new 2 3).expand_bounds_vertically).2.b.rect.y_max_boundary =
          (OriginCenteredBounds.new 2 3).b.rect.y_max_boundary) ∧
      ((OriginCenteredBounds.new 2 3).y_count % 2 = 1 →
        ((OriginCenteredBounds.new 2 3).expand_bounds_vertically).1 = true ∧
        ((OriginCenteredBounds.new 2 3).expand_bounds_vertically).2.b.rect.y_min_boundary =
          (OriginCenteredBounds.new 2 3).b.rect.y_min_boundary ∧
        ((OriginCenteredBounds.new 2 3).expand_bounds_vertically).2.b.rect.y_max_boundary =
          (OriginCenteredBounds.new 2 3).b.rect.y_max_boundary + 1)) ∧
    (((OriginCenteredBounds.new 2 3).expand_bounds_horizontally).2.x_count = (OriginCenteredBounds.new 2 3).x_count + 1 ∧
      ((OriginCenteredBounds.new 2 3).expand_bounds_horizontally).2.y_count = (OriginCenteredBounds.new 2 3).y_count ∧
      ((OriginCenteredBounds.new 2 3).expand_bounds_horizontally).2.origin_centered = true ∧
      ((OriginCenteredBounds.new 2 3).x_count % 2 = 0 →
        ((OriginCenteredBounds.new 2 3).expand_bounds_horizontally).1 = true ∧
        ((OriginCenteredBounds.new 2 3).expand_bounds_horizontally).2.b.rect.x_min_boundary =
          (OriginCenteredBounds.new 2 3).b.rect.x_min_boundary - 1 ∧
        ((OriginCenteredBounds.new 2 3).expand_bounds_horizontally).2.b.rect.x_max_boundary =
          (OriginCenteredBounds.new 2 3).b.rect.x_max_boundary) ∧
      ((OriginCenteredBounds.new 2 3).x_count % 2 = 1 →
        ((OriginCenteredBounds.new 2 3).expand_bounds_horizontally).1 = false ∧
        ((OriginCenteredBounds.new 2 3).expand_bounds_horizontally).2.b.rect.x_min_boundary =
          (OriginCenteredBounds.new 2 3).b.rect.x_min_boundary ∧
        ((OriginCenteredBounds.new 2 3).expand_bounds_horizontally).2.b.rect.x_max_boundary =
          (OriginCenteredBounds.new 2 3).b.rect.x_max_boundary + 1)) ∧
    ((((OriginCenteredBounds.new 0 0).expand_bounds_vertically).2.expand_bounds_vertically).2.b.rect.y_min_boundary
        = -1 ∧
      (((OriginCenteredBounds.new 0 0).expand_bounds_vertically).2.expand_bounds_vertically).2.b.rect.y_max_boundary
        = 1)) :=
  ⟨by decide, claim_c8_expand_bounds (OriginCenteredBounds.new 2 3) (by decide)⟩


/-! ## The cursor boundary-mutation slip (C6) -/

/-- **C6 evaluation.** On the origin-only cursor (bounds `[0,0] × [0,0]`,
position at the origin), `set_y_max_boundary(1)` succeeds and sets the y
boundaries as requested — but it also grows `x_max` from `0` to `1`, because
`set_boundary` passes `x_count()` (one more than the geometric length) to
`Bounds::new` when rebuilding the rectangle. The x-axis setters grow `y_max`
the same way. So a successful call does not leave the other axis unchanged. -/
theorem claim_c6_set_boundary_bug_eval :
    ((BoundedMovingObject.mk ⟨0, 0⟩ .North (Bounds.new 0 0 0 0)).set_y_max_boundary 1).1 =
        .ok 1 ∧
    ((BoundedMovingObject.mk ⟨0, 0⟩ .North
        (Bounds.new 0 0 0 0)).set_y_max_boundary 1).2.bounds.rect.y_max_boundary = 1 ∧
    ((BoundedMovingObject.mk ⟨0, 0⟩ .North
        (Bounds.new 0 0 0 0)).set_y_max_boundary 1).2.bounds.rect.y_min_boundary = 0 ∧
    ((BoundedMovingObject.mk ⟨0, 0⟩ .North
        (Bounds.new 0 0 0 0)).set_y_max_boundary 1).2.bounds.rect.x_min_boundary = 0 ∧
    ((BoundedMovingObject.mk ⟨0, 0⟩ .North
        (Bounds.new 0 0 0 0)).set_y_max_boundary 1).2.bounds.rect.x_max_boundary = 1 ∧
    ((BoundedMovingObject.mk ⟨0, 0⟩ .North
        (Bounds.new 0 0 0 0)).set_x_max_boundary 1).2.bounds.rect.y_max_boundary = 1 :=
  ⟨rfl, rfl, rfl, rfl, rfl, rfl⟩

/-! ## The storage invariant and its violation by empty-row construction -/

/-- **C10 counterexample.** `Grid::try_from(vec![vec![]])` (one row of zero
cells) succeeds, yet the resulting grid has empty storage while its bounds
degenerate to a 1×1 region — so the claimed storage invariant
`grid_data.len() == x_count() * y_count()` fails on a grid reachable through
the public API. -/
theorem claim_c10_counterexample :
    (Grid.try_from_rows ([[]] : List (List (Option Unit)))).map
        (fun g => (g.well_formed, g.grid_data.length, g.x_count * g.y_count)) =
      .ok (false, 0, 1) := rfl


/-! ## List-level infrastructure for row-major storage -/

/-- Length of `int_range`. -/
theorem int_range_length (lo hi : Int) :
    (int_range lo hi).length = (hi - lo + 1).toNat := by
  unfold int_range
  rw [List.length_map, List.length_range]

/-- Elements of `int_range`. -/
theorem int_range_getElem? (lo hi : Int) (k : Nat) (hk : k < (hi - lo + 1).toNat) :
    (int_range lo hi)[k]? = some (lo + (k : Int)) := by
  unfold int_range
  rw [List.getElem?_map, List.getElem?_range hk]
  rfl

/-- Length of a flat-map whose pieces all have length `w`. -/
theorem flatMap_uniform_length {σ β : Type} (l : List σ) (f : σ → List β) (w : Nat)
    (hw : ∀ a ∈ l, (f a).length = w) : (l.flatMap f).length = l.length * w := by
  induction l with
  | nil => simp
  | cons a l ih =>
    simp only [List.flatMap_cons, List.length_append, List.length_cons,
      hw a (List.Mem.head _), ih fun b hb => hw b (List.Mem.tail _ hb)]
    rw [Nat.succ_mul]
    omega

/-- Indexing into a flat-map whose pieces all have length `w`: flat index
`y * w + x` addresses item `x` of piece `y`. -/
theorem flatMap_uniform_getElem? {σ β : Type} (l : List σ) (f : σ → List β) (w : Nat)
    (hw : ∀ a ∈ l, (f a).length = w) (y x : Nat) (hx : x < w) :
    (l.flatMap f)[y * w + x]? =
      (match l[y]? with
        | some a => (f a)[x]?
        | none => none) := by
  induction l generalizing y with
  | nil => simp
  | cons a l ih =>
    cases y with
    | zero =>
      simp only [List.flatMap_cons, Nat.zero_mul, Nat.zero_add]
      rw [List.getElem?_append_left (by rw [hw a (List.Mem.head _)]; exact hx),
        List.getElem?_cons_zero]
    | succ y =>
      simp only [List.flatMap_cons]
      rw [List.getElem?_append_right
        (by rw [hw a (List.Mem.head _), Nat.succ_mul]; omega)]
      have harith : (y + 1) * w + x - (f a).length = y * w + x := by
        rw [hw a (List.Mem.head _), Nat.succ_mul]
        omega
      rw [harith, ih fun b hb => hw b (List.Mem.tail _ hb),
        List.getElem?_cons_succ]

/-- A flat-map all of whose pieces are singletons is a map. -/
theorem flatMap_singleton_eq_map {σ β : Type} (l : List σ) (f : σ → List β)
    (g : σ → β) (h : ∀ a ∈ l, f a = [g a]) : l.flatMap f = l.map g := by
  induction l with
  | nil => rfl
  | cons a l ih =>
    simp only [List.flatMap_cons, List.map_cons, h a (List.Mem.head _)]
    rw [ih fun b hb => h b (List.Mem.tail _ hb)]
    rfl

/-- Counting under a point update: replacing the element at an in-range index
trades its contribution for the new element's. -/
theorem filter_length_set {β : Type} (p : β → Bool) :
    ∀ (l : List β) (i : Nat) (a b : β), l[i]? = some a →
      ((l.set i b).filter p).length + (if p a then 1 else 0) =
        (l.filter p).length + (if p b then 1 else 0)
  | [], i, a, b, h => by simp at h
  | x :: l, 0, a, b, h => by
    simp only [List.getElem?_cons_zero, Option.some.injEq] at h
    subst h
    simp only [List.set_cons_zero, List.filter_cons]
    by_cases hpa : p x <;> by_cases hpb : p b <;>
      simp [hpa, hpb, List.length_cons]
  | x :: l, i + 1, a, b, h => by
    simp only [List.getElem?_cons_succ] at h
    simp only [List.set_cons_succ, List.filter_cons]
    by_cases hpx : p x
    · simp only [hpx, if_true, List.length_cons]
      have := filter_length_set p l i a b h
      omega
    · simp only [hpx, if_false]
      exact filter_length_set p l i a b h

/-! ## Per-operation characterisation of the grid -/

/-- The grid's derived boundary record for invariant-satisfying bounds: it is
non-degenerate and its derived counts agree with the stored counts. -/
theorem grid_rect_facts {α : Type} (g : Grid α)
    (hb : g.bounds.origin_centered = true) :
    g.rect.x_min_boundary ≤ g.rect.x_max_boundary ∧
      g.rect.y_min_boundary ≤ g.rect.y_max_boundary ∧
      g.rect.x_count = g.x_count ∧ g.rect.y_count = g.y_count ∧
      1 ≤ g.x_count ∧ 1 ≤ g.y_count := by
  rcases (g.bounds.origin_centered_iff).mp hb with ⟨_, _, hxle, hyle⟩
  have hxc : 1 ≤ g.x_count := by
    show 1 ≤ (g.bounds.b.rect.x_max_boundary - g.bounds.b.rect.x_min_boundary
      + 1).toNat
    omega
  have hyc : 1 ≤ g.y_count := by
    show 1 ≤ (g.bounds.b.rect.y_max_boundary - g.bounds.b.rect.y_min_boundary
      + 1).toNat
    omega
  obtain ⟨hd1, hd2, _, _⟩ := origin_centered_derived_facts g.x_count hxc
  obtain ⟨he1, he2, _, _⟩ := origin_centered_derived_facts_y g.y_count hyc
  refine ⟨hd1, he1, ?_, ?_, hxc, hyc⟩
  · show (origin_centered_x_max g.x_count - origin_centered_x_min g.x_count).natAbs
      + 1 = g.x_count
    omega
  · show (origin_centered_y_max g.y_count - origin_centered_y_min g.y_count).natAbs
      + 1 = g.y_count
    omega

/-- `element_unchecked` through the flat index. -/
theorem element_unchecked_eq {α : Type} (g : Grid α) (c : Coordinate) (i : Nat)
    (hi : g.rect.coordinate_to_index c = .ok i) :
    g.element_unchecked c =
      (match g.grid_data[i]? with
        | some (.Object v) => some v
        | _ => none) := by
  unfold Grid.element_unchecked
  rw [hi]

/-- `store_element` through the flat index (in storage range). -/
theorem store_element_spec {α : Type} (g : Grid α) (c : Coordinate) (v : α) (i : Nat)
    (hi : g.rect.coordinate_to_index c = .ok i) (hlt : i < g.grid_data.length) :
    ∃ cell, g.grid_data[i]? = some cell ∧
      g.store_element c v =
        (.ok cell.value_opt, ⟨g.grid_data.set i (.Object v), g.bounds⟩) := by
  refine ⟨g.grid_data[i], List.getElem?_eq_getElem hlt, ?_⟩
  simp only [Grid.store_element, hi, List.getElem?_eq_getElem hlt]
  cases g.grid_data[i] <;> rfl

/-- `remove_element` through the flat index (in storage range): the cell is
overwritten with an `Empty` placeholder either way, and the previous occupant
(or an `Unoccupied` error) is returned. -/
theorem remove_element_spec {α : Type} (g : Grid α) (c : Coordinate) (i : Nat)
    (hi : g.rect.coordinate_to_index c = .ok i) (hlt : i < g.grid_data.length) :
    ∃ cell, g.grid_data[i]? = some cell ∧
      g.remove_element c =
        (match cell with
          | .Object v => (.ok v, ⟨g.grid_data.set i (.Empty c), g.bounds⟩)
          | .Empty _ =>
            (.error (.UnoccupiedError c), ⟨g.grid_data.set i (.Empty c), g.bounds⟩)) := by
  refine ⟨g.grid_data[i], List.getElem?_eq_getElem hlt, ?_⟩
  simp only [Grid.remove_element, hi, List.getElem?_eq_getElem hlt]
  cases g.grid_data[i] <;> rfl


/-- The clamped destination always lies within a non-degenerate rectangle. -/
theorem clamped_move_within (r : Rect) (hx : r.x_min_boundary ≤ r.x_max_boundary)
    (hy : r.y_min_boundary ≤ r.y_max_boundary) (pos : Coordinate)
    (d : AbsoluteDirection) (mag : Nat) :
    r.is_within_bounds (r.clamped_move pos d mag).1 = true := by
  rw [Rect.is_within_bounds_iff]
  unfold Rect.clamped_move
  dsimp only
  refine ⟨by omega, by omega, by omega, by omega⟩

/-- `coordinate_to_index` is injective on in-bounds coordinates. -/
theorem coordinate_to_index_inj (r : Rect) (c c' : Coordinate)
    (hc : r.is_within_bounds c = true) (hc' : r.is_within_bounds c' = true)
    (h : r.coordinate_to_index c = r.coordinate_to_index c') : c = c' := by
  obtain ⟨i, hok, _, hback⟩ := r.round_trip_coordinate c hc
  obtain ⟨i', hok', _, hback'⟩ := r.round_trip_coordinate c' hc'
  rw [hok, hok'] at h
  cases h
  rw [hback] at hback'
  cases hback'
  rfl

/-- Writing back the value already present leaves a list unchanged. -/
theorem list_set_getElem?_same {β : Type} (l : List β) (i : Nat) (a : β)
    (h : l[i]? = some a) : l.set i a = l := by
  apply List.ext_getElem?
  intro n
  by_cases hn : n = i
  · subst hn
    rw [List.getElem?_set_self (by rw [List.getElem?_eq_some] at h; exact h.1)]
    exact h.symm
  · rw [List.getElem?_set_ne fun hi => hn hi.symm]

/-- The storage invariant unfolded to a proposition. -/
theorem well_formed_iff {α : Type} (g : Grid α) :
    g.well_formed = true ↔
      (g.grid_data.length = g.bounds.x_count * g.bounds.y_count ∧
        ∀ i c, g.grid_data[i]? = some (.Empty c) →
          g.rect.index_to_coordinate i = .ok c) := by
  unfold Grid.well_formed
  rw [Bool.and_eq_true, beq_iff_eq, List.all_eq_true]
  constructor
  · rintro ⟨h1, h2⟩
    refine ⟨h1, fun i c hic => ?_⟩
    have hmem : ((i, GridCoordinate.Empty c) : Nat × GridCoordinate α) ∈
        g.grid_data.enum := by
      apply List.getElem?_mem (n := i)
      rw [List.getElem?_enum, hic]
      rfl
    have := h2 _ hmem
    revert this
    dsimp only
    cases hidx : g.rect.index_to_coordinate i with
    | ok c2 =>
      intro hbeq
      rw [beq_iff_eq] at hbeq
      rw [hbeq]
    | error _ =>
      intro hfalse
      cases hfalse
  · rintro ⟨h1, h2⟩
    refine ⟨h1, fun p hp => ?_⟩
    rw [List.mem_iff_getElem?] at hp
    obtain ⟨k, hk⟩ := hp
    rw [List.getElem?_enum] at hk
    cases hl : g.grid_data[k]? with
    | none => rw [hl] at hk; cases hk
    | some cell =>
      rw [hl] at hk
      simp only [Option.map_some', Option.some.injEq] at hk
      rw [← hk]
      dsimp only
      cases cell with
      | Object v => rfl
      | Empty c =>
        rw [h2 k c (by rw [hl])]
        exact beq_self_eq_true c

/-- Full characterisation of a successful `move_element_in_direction`: the
source held a value, the clamped one-step destination was a distinct empty
cell, and the result grid differs from the input exactly at those two flat
indices. -/
theorem move_element_success_spec {α : Type} (g : Grid α) (c : Coordinate)
    (d : AbsoluteDirection) (dest : Coordinate) (g' : Grid α)
    (hb : g.bounds.origin_centered = true)
    (hlen : g.grid_data.length = g.x_count * g.y_count)
    (h : g.move_element_in_direction c d = (.ok dest, g')) :
    ∃ i j v ec,
      g.rect.coordinate_to_index c = .ok i ∧
      g.rect.coordinate_to_index dest = .ok j ∧
      i ≠ j ∧ i < g.grid_data.length ∧ j < g.grid_data.length ∧
      dest = (g.rect.clamped_move c d 1).1 ∧ dest ≠ c ∧
      g.rect.is_within_bounds c = true ∧
      g.rect.is_within_bounds dest = true ∧
      g.grid_data[i]? = some (.Object v) ∧
      g.grid_data[j]? = some (.Empty ec) ∧
      g' = ⟨(g.grid_data.set i (.Empty c)).set j (.Object v), g.bounds⟩ := by
  obtain ⟨hxle, hyle, hrxc, hryc, _, _⟩ := grid_rect_facts g hb
  have hlen' : g.grid_data.length = g.rect.x_count * g.rect.y_count := by
    rw [hrxc, hryc]; exact hlen
  simp only [Grid.move_element_in_direction] at h
  split at h
  · exact absurd (congrArg Prod.fst h) (by simp)
  · rename_i hw'
    rw [Bool.not_eq_true', Bool.not_eq_false] at hw'
    split at h
    · rename_i hmoved
      split at h
      · exact absurd (congrArg Prod.fst h) (by simp)
      · rename_i hnocc
        -- the source index
        obtain ⟨hoki, hilt'⟩ := g.rect.coordinate_to_index_ok c hw'
        set i := (g.rect.y_max_boundary - c.y).toNat * g.rect.x_count +
          (c.x - g.rect.x_min_boundary).toNat with hidef
        have hilt : i < g.grid_data.length := by rw [hlen']; exact hilt'
        -- the destination coordinate and index
        have hdw : g.rect.is_within_bounds (g.rect.clamped_move c d 1).1 = true :=
          clamped_move_within g.rect hxle hyle c d 1
        obtain ⟨hokj, hjlt'⟩ := g.rect.coordinate_to_index_ok _ hdw
        set j := (g.rect.y_max_boundary - (g.rect.clamped_move c d 1).1.y).toNat *
          g.rect.x_count +
            ((g.rect.clamped_move c d 1).1.x - g.rect.x_min_boundary).toNat with hjdef
        have hjlt : j < g.grid_data.length := by rw [hlen']; exact hjlt'
        -- the destination cell is empty
        have hjcell : ∃ ec, g.grid_data[j]? = some (.Empty ec) := by
          have heu := element_unchecked_eq g _ j hokj
          have hjsome : g.grid_data[j]? = some (g.grid_data[j]) :=
            List.getElem?_eq_getElem hjlt
          cases hcell2 : g.grid_data[j] with
          | Object v =>
            exfalso
            rw [heu, hjsome, hcell2] at hnocc
            simp at hnocc
          | Empty ec => exact ⟨ec, by rw [hjsome, hcell2]⟩
        obtain ⟨ec, hjcell⟩ := hjcell
        -- the source and destination differ
        have hne : (g.rect.clamped_move c d 1).1 ≠ c := by
          intro heq
          have hinterp : (g.rect.clamped_move c d 1).2 =
              decide (c ≠ (g.rect.clamped_move c d 1).1) := rfl
          rw [hinterp, decide_eq_true_eq] at hmoved
          exact hmoved heq.symm
        have hij : i ≠ j := by
          intro heq
          apply hne
          apply coordinate_to_index_inj g.rect _ _ hdw hw'
          rw [hoki, hokj, heq]
        -- unfold the remove
        obtain ⟨cell, hicell, hrm⟩ := remove_element_spec g c i hoki hilt
        rw [hrm] at h
        cases cell with
        | Empty _ =>
          dsimp only at h
          exact absurd (congrArg Prod.fst h) (by simp)
        | Object v =>
          dsimp only at h
          -- unfold the store on the intermediate grid
          have hg1rect : (Grid.mk (g.grid_data.set i (.Empty c)) g.bounds : Grid α).rect
              = g.rect := rfl
          have hokj1 : (Grid.mk (g.grid_data.set i (.Empty c)) g.bounds :
              Grid α).rect.coordinate_to_index (g.rect.clamped_move c d 1).1 = .ok j := by
            rw [hg1rect]; exact hokj
          obtain ⟨cell2, hjcell1, hst⟩ := store_element_spec
            (Grid.mk (g.grid_data.set i (.Empty c)) g.bounds) _ v j hokj1
            (by simpa using hjlt)
          rw [hst] at h
          dsimp only at h
          obtain ⟨h1, h2⟩ := Prod.mk.injEq _ _ _ _ ▸ h
          injection h1 with hdest
          subst hdest
          exact ⟨i, j, v, ec, hoki, hokj, hij, hilt, hjlt, rfl, hne, hw', hdw,
            hicell, hjcell, h2.symm⟩
    · exact absurd (congrArg Prod.fst h) (by simp)

/-- Frame property of `move_element_in_direction` on every error path: with
the storage invariant (the `Unoccupied` path rewrites the source cell with an
`Empty` placeholder carrying the very coordinate the invariant says it already
holds), the grid is returned exactly as it was. -/
theorem move_element_error_spec {α : Type} (g : Grid α) (c : Coordinate)
    (d : AbsoluteDirection) (e : GridError) (g' : Grid α)
    (hb : g.bounds.origin_centered = true)
    (hlen : g.grid_data.length = g.x_count * g.y_count)
    (hwf : ∀ i c0, g.grid_data[i]? = some (.Empty c0) →
      g.rect.index_to_coordinate i = .ok c0)
    (h : g.move_element_in_direction c d = (.error e, g')) :
    g' = g := by
  obtain ⟨hxle, hyle, hrxc, hryc, _, _⟩ := grid_rect_facts g hb
  have hlen' : g.grid_data.length = g.rect.x_count * g.rect.y_count := by
    rw [hrxc, hryc]; exact hlen
  simp only [Grid.move_element_in_direction] at h
  split at h
  · exact (congrArg Prod.snd h).symm
  · rename_i hw'
    rw [Bool.not_eq_true', Bool.not_eq_false] at hw'
    split at h
    · split at h
      · exact (congrArg Prod.snd h).symm
      · obtain ⟨hoki, hilt'⟩ := g.rect.coordinate_to_index_ok c hw'
        set i := (g.rect.y_max_boundary - c.y).toNat * g.rect.x_count +
          (c.x - g.rect.x_min_boundary).toNat with hidef
        have hilt : i < g.grid_data.length := by rw [hlen']; exact hilt'
        obtain ⟨cell, hicell, hrm⟩ := remove_element_spec g c i hoki hilt
        rw [hrm] at h
        cases cell with
        | Object v =>
          dsimp only at h
          have hg1rect : (Grid.mk (g.grid_data.set i (.Empty c)) g.bounds :
              Grid α).rect = g.rect := rfl
          have hdw : g.rect.is_within_bounds (g.rect.clamped_move c d 1).1 = true :=
            clamped_move_within g.rect hxle hyle c d 1
          obtain ⟨hokj, hjlt'⟩ := g.rect.coordinate_to_index_ok _ hdw
          set j := (g.rect.y_max_boundary - (g.rect.clamped_move c d 1).1.y).toNat *
            g.rect.x_count +
              ((g.rect.clamped_move c d 1).1.x - g.rect.x_min_boundary).toNat
            with hjdef
          have hokj1 : (Grid.mk (g.grid_data.set i (.Empty c)) g.bounds :
              Grid α).rect.coordinate_to_index (g.rect.clamped_move c d 1).1 =
              .ok j := by
            rw [hg1rect]; exact hokj
          obtain ⟨cell2, hjcell1, hst⟩ := store_element_spec
            (Grid.mk (g.grid_data.set i (.Empty c)) g.bounds) _ v j hokj1
            (by simp only [List.length_set]; rw [hlen']; exact hjlt')
          rw [hst] at h
          dsimp only at h
          exact absurd (congrArg Prod.fst h) (by simp)
        | Empty ec =>
          dsimp only at h
          have hec : ec = c := by
            have h1 := hwf i ec hicell
            obtain ⟨i2, hok2, _, hback2⟩ := g.rect.round_trip_coordinate c hw'
            rw [hoki] at hok2
            cases hok2
            rw [h1] at hback2
            cases hback2
            rfl
          subst hec
          have hsame : g.grid_data.set i (.Empty ec) = g.grid_data :=
            list_set_getElem?_same _ _ _ hicell
          obtain ⟨-, h2⟩ := Prod.mk.injEq _ _ _ _ ▸ h
          rw [← h2, hsame]
    · exact (congrArg Prod.snd h).symm

/-- **C9.** When `move_element_in_direction` succeeds, the moved element is
removed from the source cell (which becomes an `Empty` placeholder) and stored
at the clamped one-step destination, and only those two cells change; in
particular, in a 5×5 grid with an element stored at the origin, moving it
North one step leaves `(0,0)` empty and places the element at `(0,1)`,
returning the destination coordinate. -/
theorem claim_c9_move_element_success (α : Type) (g0 : Grid α)
    (cc dst : Coordinate) (dd : AbsoluteDirection) (g1 : Grid α)
    (hb : g0.bounds.origin_centered = true)
    (hlen : g0.grid_data.length = g0.x_count * g0.y_count)
    (h : g0.move_element_in_direction cc dd = (.ok dst, g1)) :
    dst = (g0.rect.clamped_move cc dd 1).1 ∧ g1.bounds = g0.bounds ∧
    (∃ i j v, g0.rect.coordinate_to_index cc = .ok i ∧
      g0.rect.coordinate_to_index dst = .ok j ∧ i ≠ j ∧
      g0.grid_data[i]? = some (.Object v) ∧
      g1.grid_data[i]? = some (.Empty cc) ∧
      g1.grid_data[j]? = some (.Object v) ∧
      ∀ k, k ≠ i → k ≠ j → g1.grid_data[k]? = g0.grid_data[k]?) ∧
    ((((Grid.new 5 5 : Grid Nat).store_element ⟨0, 0⟩ 7).2.move_element_in_direction
        ⟨0, 0⟩ .North).1 = .ok ⟨0, 1⟩ ∧
      (((Grid.new 5 5 : Grid Nat).store_element ⟨0, 0⟩ 7).2.move_element_in_direction
        ⟨0, 0⟩ .North).2.element_unchecked ⟨0, 0⟩ = none ∧
      (((Grid.new 5 5 : Grid Nat).store_element ⟨0, 0⟩ 7).2.move_element_in_direction
        ⟨0, 0⟩ .North).2.element_unchecked ⟨0, 1⟩ = some 7) := by
  obtain ⟨i, j, v, ec, hoki, hokj, hij, hilt, hjlt, hdest, hdc, hwc, hwd, hicell,
    hjcell, hg'⟩ := move_element_success_spec g0 cc dd dst g1 hb hlen h
  refine ⟨hdest, by rw [hg'], ⟨i, j, v, hoki, hokj, hij, hicell, ?_, ?_, ?_⟩,
    rfl, rfl, rfl⟩
  · rw [hg']
    show ((g0.grid_data.set i (.Empty cc)).set j (.Object v))[i]? = _
    rw [List.getElem?_set_ne fun hji => hij hji.symm,
      List.getElem?_set_self (by simpa using hilt)]
  · rw [hg']
    show ((g0.grid_data.set i (.Empty cc)).set j (.Object v))[j]? = _
    rw [List.getElem?_set_self (by simpa using hjlt)]
  · intro k hki hkj
    rw [hg']
    show ((g0.grid_data.set i (.Empty cc)).set j (.Object v))[k]? = _
    rw [List.getElem?_set_ne fun hjk => hkj hjk.symm,
      List.getElem?_set_ne fun hik => hki hik.symm]

/-- Witness for C9: the 5×5 scenario grid itself. -/
theorem claim_c9_witness :
    (((Grid.new 5 5 : Grid Nat).store_element ⟨0, 0⟩ 7).2.bounds.origin_centered
        = true) ∧
    (((Grid.new 5 5 : Grid Nat).store_element ⟨0, 0⟩ 7).2.grid_data.length =
      ((Grid.new 5 5 : Grid Nat).store_element ⟨0, 0⟩ 7).2.x_count *
        ((Grid.new 5 5 : Grid Nat).store_element ⟨0, 0⟩ 7).2.y_count) ∧
    (((Grid.new 5 5 : Grid Nat).store_element ⟨0, 0⟩ 7).2.move_element_in_direction
        ⟨0, 0⟩ .North =
      (.ok ⟨0, 1⟩,
        (((Grid.new 5 5 : Grid Nat).store_element ⟨0, 0⟩ 7).2.move_element_in_direction
          ⟨0, 0⟩ .North).2)) ∧
    ((⟨0, 1⟩ : Coordinate) =
        (((Grid.new 5 5 : Grid Nat).store_element ⟨0, 0⟩ 7).2.rect.clamped_move
          ⟨0, 0⟩ .North 1).1 ∧
      (((Grid.new 5 5 : Grid Nat).store_element ⟨0, 0⟩ 7).2.move_element_in_direction
          ⟨0, 0⟩ .North).2.bounds =
        ((Grid.new 5 5 : Grid Nat).store_element ⟨0, 0⟩ 7).2.bounds ∧
      (∃ i j v,
        ((Grid.new 5 5 : Grid Nat).store_element ⟨0, 0⟩
            7).2.rect.coordinate_to_index ⟨0, 0⟩ = .ok i ∧
        ((Grid.new 5 5 : Grid Nat).store_element ⟨0, 0⟩
            7).2.rect.coordinate_to_index ⟨0, 1⟩ = .ok j ∧ i ≠ j ∧
        ((Grid.new 5 5 : Grid Nat).store_element ⟨0, 0⟩ 7).2.grid_data[i]? =
          some (.Object v) ∧
        (((Grid.new 5 5 : Grid Nat).store_element ⟨0, 0⟩
            7).2.move_element_in_direction ⟨0, 0⟩ .North).2.grid_data[i]? =
          some (.Empty ⟨0, 0⟩) ∧
        (((Grid.new 5 5 : Grid Nat).store_element ⟨0, 0⟩
            7).2.move_element_in_direction ⟨0, 0⟩ .North).2.grid_data[j]? =
          some (.Object v) ∧
        ∀ k, k ≠ i → k ≠ j →
          (((Grid.new 5 5 : Grid Nat).store_element ⟨0, 0⟩
              7).2.move_element_in_direction ⟨0, 0⟩ .North).2.grid_data[k]? =
            ((Grid.new 5 5 : Grid Nat).store_element ⟨0, 0⟩ 7).2.grid_data[k]?) ∧
      ((((Grid.new 5 5 : Grid Nat).store_element ⟨0, 0⟩ 7).2.move_element_in_direction
          ⟨0, 0⟩ .North).1 = .ok ⟨0, 1⟩ ∧
        (((Grid.new 5 5 : Grid Nat).store_element ⟨0, 0⟩ 7).2.move_element_in_direction
          ⟨0, 0⟩ .North).2.element_unchecked ⟨0, 0⟩ = none ∧
        (((Grid.new 5 5 : Grid Nat).store_element ⟨0, 0⟩ 7).2.move_element_in_direction
          ⟨0, 0⟩ .North).2.element_unchecked ⟨0, 1⟩ = some 7)) :=
  ⟨by decide, by decide, rfl,
    claim_c9_move_element_success Nat
      ((Grid.new 5 5 : Grid Nat).store_element ⟨0, 0⟩ 7).2 ⟨0, 0⟩ ⟨0, 1⟩ .North
      (((Grid.new 5 5 : Grid Nat).store_element ⟨0, 0⟩ 7).2.move_element_in_direction
        ⟨0, 0⟩ .North).2
      (by decide) (by decide) rfl⟩

/-- Count preservation for a successful move, at the storage level. -/
theorem count_objects_move_success {α : Type} (g0 : Grid α) (cc dst : Coordinate)
    (dd : AbsoluteDirection) (g1 : Grid α)
    (hb : g0.bounds.origin_centered = true)
    (hlen : g0.grid_data.length = g0.x_count * g0.y_count)
    (h : g0.move_element_in_direction cc dd = (.ok dst, g1)) :
    g1.count_objects = g0.count_objects := by
  obtain ⟨i, j, v, ec, _, _, hij, hilt, hjlt, _, _, _, _, hicell, hjcell, hg'⟩ :=
    move_element_success_spec g0 cc dd dst g1 hb hlen h
  set p : GridCoordinate α → Bool := fun cell =>
    match cell with
    | .Object _ => true
    | .Empty _ => false
    with hp
  have h1 := filter_length_set p g0.grid_data i (.Object v) (.Empty cc) hicell
  have hjcell1 : (g0.grid_data.set i (.Empty cc))[j]? = some (.Empty ec) := by
    rw [List.getElem?_set_ne hij]
    exact hjcell
  have h2 := filter_length_set p (g0.grid_data.set i (.Empty cc)) j (.Empty ec)
    (.Object v) hjcell1
  show ((g1.grid_data.filter p).length = (g0.grid_data.filter p).length)
  rw [hg']
  simp only [hp] at h1 h2
  simp only [hp]
  omega

/-- **C3.** For every (well-formed) grid, coordinate and direction,
`move_element_in_direction` never changes the total number of occupied cells,
and whenever it returns an error (`OutOfBounds`, `Collision` or `Unoccupied`)
the grid is exactly as it was before the call; in particular, on a 1×1 grid
holding one element at the origin, moving that element South fails with
`OutOfBounds` naming the would-be destination `(0,-1)`, not with `Collision`. -/
theorem claim_c3_move_preserves_count_and_errors_frame (α : Type) (g0 : Grid α)
    (cc : Coordinate) (dd : AbsoluteDirection)
    (hb : g0.bounds.origin_centered = true)
    (hwf : g0.well_formed = true) :
    (g0.move_element_in_direction cc dd).2.count_objects = g0.count_objects ∧
    (∀ e, (g0.move_element_in_direction cc dd).1 = .error e →
      (g0.move_element_in_direction cc dd).2 = g0) ∧
    ((((Grid.new 1 1 : Grid Nat).store_element ⟨0, 0⟩ 7).2.move_element_in_direction
        ⟨0, 0⟩ .South).1 = .error (.OutOfBoundsError ⟨0, -1⟩) ∧
      (((Grid.new 1 1 : Grid Nat).store_element ⟨0, 0⟩ 7).2.move_element_in_direction
        ⟨0, 0⟩ .South).2 =
        ((Grid.new 1 1 : Grid Nat).store_element ⟨0, 0⟩ 7).2) := by
  obtain ⟨hlen0, hwfe⟩ := (well_formed_iff g0).mp hwf
  have hlen : g0.grid_data.length = g0.x_count * g0.y_count := hlen0
  have hframe : ∀ e, (g0.move_element_in_direction cc dd).1 = .error e →
      (g0.move_element_in_direction cc dd).2 = g0 := by
    intro e he
    apply move_element_error_spec g0 cc dd e _ hb hlen hwfe
    rw [← he]
  refine ⟨?_, hframe, rfl, rfl⟩
  cases hres : (g0.move_element_in_direction cc dd).1 with
  | error e =>
    rw [hframe e hres]
  | ok dst =>
    apply count_objects_move_success g0 cc dst dd _ hb hlen
    rw [← hres]

/-- Witness for C3: the 3×3 grid with one element at the origin, moved East. -/
theorem claim_c3_witness :
    (((Grid.new 3 3 : Grid Nat).store_element ⟨0, 0⟩ 7).2.bounds.origin_centered
        = true) ∧
    (((Grid.new 3 3 : Grid Nat).store_element ⟨0, 0⟩ 7).2.well_formed = true) ∧
    (((((Grid.new 3 3 : Grid Nat).store_element ⟨0, 0⟩ 7).2.move_element_in_direction
          ⟨0, 0⟩ .East).2.count_objects =
        ((Grid.new 3 3 : Grid Nat).store_element ⟨0, 0⟩ 7).2.count_objects) ∧
      (∀ e, ((((Grid.new 3 3 : Grid Nat).store_element ⟨0, 0⟩
            7).2.move_element_in_direction ⟨0, 0⟩ .East).1 = .error e) →
        ((((Grid.new 3 3 : Grid Nat).store_element ⟨0, 0⟩
            7).2.move_element_in_direction ⟨0, 0⟩ .East).2 =
          ((Grid.new 3 3 : Grid Nat).store_element ⟨0, 0⟩ 7).2)) ∧
      ((((Grid.new 1 1 : Grid Nat).store_element ⟨0, 0⟩ 7).2.move_element_in_direction
          ⟨0, 0⟩ .South).1 = .error (.OutOfBoundsError ⟨0, -1⟩) ∧
        (((Grid.new 1 1 : Grid Nat).store_element ⟨0, 0⟩ 7).2.move_element_in_direction
          ⟨0, 0⟩ .South).2 =
          ((Grid.new 1 1 : Grid Nat).store_element ⟨0, 0⟩ 7).2)) :=
  ⟨by decide, by decide,
    claim_c3_move_preserves_count_and_errors_frame Nat
      ((Grid.new 3 3 : Grid Nat).store_element ⟨0, 0⟩ 7).2 ⟨0, 0⟩ .East
      (by decide) (by decide)⟩

/-- Elements of a reversed `int_range`: counted from the top. -/
theorem int_range_reverse_getElem? (lo hi : Int) (k : Nat)
    (hk : k < (hi - lo + 1).toNat) :
    (int_range lo hi).reverse[k]? = some (hi - (k : Int)) := by
  have hlen := int_range_length lo hi
  have hj : k + ((hi - lo + 1).toNat - 1 - k) + 1 = (int_range lo hi).length := by
    rw [hlen]; omega
  rw [List.getElem?_reverse' k _ hj,
    int_range_getElem? lo hi _ (by omega)]
  congr 1
  omega

/-- `Grid::new` always yields valid bounds and well-formed storage. -/
theorem grid_new_wf (α : Type) (m n : Nat) :
    (Grid.new m n : Grid α).bounds.origin_centered = true ∧
      (Grid.new m n : Grid α).well_formed = true := by
  have hbeq : (Grid.new m n : Grid α).bounds = OriginCenteredBounds.new m n := rfl
  have hb : (Grid.new m n : Grid α).bounds.origin_centered = true := by
    rw [hbeq]; exact ocb_new_origin_centered m n
  refine ⟨hb, ?_⟩
  obtain ⟨hcx, hcy⟩ := ocb_new_counts m n
  obtain ⟨hxle, hyle, hrxc, hryc, hx1, hy1⟩ := grid_rect_facts _ hb
  set g : Grid α := Grid.new m n with hg
  set r := g.rect with hr
  set w := (int_range r.x_min_boundary r.x_max_boundary).length with hw
  have hwx : w = r.x_count := by
    rw [hw, int_range_length]
    show _ = (r.x_max_boundary - r.x_min_boundary).natAbs + 1
    omega
  set rows := (int_range r.y_min_boundary r.y_max_boundary).reverse with hrows
  have hrowslen : rows.length = r.y_count := by
    rw [hrows, List.length_reverse, int_range_length]
    show _ = (r.y_max_boundary - r.y_min_boundary).natAbs + 1
    omega
  have hdata : g.grid_data = rows.flatMap fun y =>
      (int_range r.x_min_boundary r.x_max_boundary).map fun x =>
        GridCoordinate.Empty ⟨x, y⟩ := rfl
  have hinner : ∀ y ∈ rows,
      ((int_range r.x_min_boundary r.x_max_boundary).map fun x =>
        (GridCoordinate.Empty ⟨x, y⟩ : GridCoordinate α)).length = w := by
    intro y _
    rw [List.length_map, hw]
  have hlen : g.grid_data.length = g.bounds.x_count * g.bounds.y_count := by
    rw [hdata, flatMap_uniform_length _ _ w hinner, hrowslen, hwx, hrxc, hryc]
    show g.y_count * g.x_count = _
    rw [Nat.mul_comm]
    rfl
  rw [well_formed_iff]
  refine ⟨hlen, fun i c hic => ?_⟩
  have hilt : i < g.grid_data.length := by
    rw [List.getElem?_eq_some] at hic
    exact hic.1
  have hw0 : 0 < w := by rw [hwx]; show 0 < _ + 1; omega
  obtain ⟨x, y, hxlt, hylt, rfl⟩ :
      ∃ x y : Nat, x < w ∧ y < r.y_count ∧ i = y * w + x := by
    refine ⟨i % w, i / w, Nat.mod_lt i hw0, ?_, ?_⟩
    · apply Nat.div_lt_of_lt_mul
      have hgoal : i < r.x_count * r.y_count := by
        rw [hrxc, hryc]
        rw [hlen] at hilt
        exact hilt
      rw [hwx]
      exact hgoal
    · rw [Nat.mul_comm]
      exact (Nat.div_add_mod i w).symm
  have hxlt' : x < r.x_count := lt_of_lt_of_eq hxlt hwx
  have hcval : g.grid_data[y * w + x]? =
      some (.Empty ⟨r.x_min_boundary + (x : Int), r.y_max_boundary - (y : Int)⟩) := by
    rw [hdata, flatMap_uniform_getElem? rows _ w hinner y x hxlt]
    have hrow : rows[y]? = some (r.y_max_boundary - (y : Int)) := by
      rw [hrows]
      apply int_range_reverse_getElem?
      have hy3 : y < (r.y_max_boundary - r.y_min_boundary).natAbs + 1 := hylt
      omega
    rw [hrow]
    dsimp only
    have hside : x < (r.x_max_boundary - r.x_min_boundary + 1).toNat := by
      have hx3 : x < (r.x_max_boundary - r.x_min_boundary).natAbs + 1 := hxlt'
      omega
    rw [List.getElem?_map, int_range_getElem? _ _ _ hside]
    rfl
  rw [hic] at hcval
  injection hcval with hcval
  injection hcval with hcval
  rw [hcval, hwx]
  rw [r.index_to_coordinate_of_split x y hxlt']
  have hwithin : r.is_within_bounds
      ⟨r.x_min_boundary + (x : Int), r.y_max_boundary - (y : Int)⟩ = true := by
    rw [Rect.is_within_bounds_iff]
    dsimp only
    have h1 : (x : Int) < r.x_max_boundary - r.x_min_boundary + 1 := by
      have hx4 : ((x : Nat) : Int) < (r.x_count : Int) := by exact_mod_cast hxlt'
      rw [r.x_count_cast hxle] at hx4
      exact hx4
    have h2 : (y : Int) < r.y_max_boundary - r.y_min_boundary + 1 := by
      have hy4 : ((y : Nat) : Int) < (r.y_count : Int) := by exact_mod_cast hylt
      rw [r.y_count_cast hyle] at hy4
      exact hy4
    refine ⟨by omega, by omega, by omega, by omega⟩
  unfold Rect.to_grid_like
  dsimp only
  rw [if_pos hwithin]

/-- Row-based construction yields valid bounds and well-formed storage
whenever the rows are non-empty. -/
theorem try_from_rows_wf (α : Type) (value : List (List (Option α))) (g : Grid α)
    (fr : List (Option α)) (hfr : value.head? = some fr) (hw1 : 1 ≤ fr.length)
    (h : Grid.try_from_rows value = .ok g) :
    g.bounds.origin_centered = true ∧ g.well_formed = true := by
  simp only [Grid.try_from_rows, hfr] at h
  split at h
  · cases h
  · rename_i hall
    rw [Bool.not_eq_true', Bool.not_eq_false, List.all_eq_true] at hall
    injection h with h
    subst h
    have hy1 : 1 ≤ value.length := by
      cases value with
      | nil => cases hfr
      | cons a l => simp
    have hfr' : fr.length = (Grid.new fr.length value.length : Grid α).x_count := by
      obtain ⟨hcx, _⟩ := ocb_new_counts fr.length value.length
      show _ = (OriginCenteredBounds.new fr.length value.length).x_count
      rw [hcx]
      omega
    set base : Grid α := Grid.new fr.length value.length with hbase
    have hb : base.bounds.origin_centered = true := (grid_new_wf α _ _).1
    obtain ⟨hxle, hyle, hrxc, hryc, hx1g, hy1g⟩ := grid_rect_facts base hb
    obtain ⟨hcx, hcy⟩ := ocb_new_counts fr.length value.length
    have hxcv : base.x_count = fr.length := by
      show (OriginCenteredBounds.new fr.length value.length).x_count = _
      rw [hcx]; omega
    have hycv : base.y_count = value.length := by
      show (OriginCenteredBounds.new fr.length value.length).y_count = _
      rw [hcy]; omega
    set r := base.rect with hr
    set w := fr.length with hwdef
    have hwx : w = r.x_count := by rw [hrxc, hxcv]
    have hinner : ∀ p ∈ value.enum,
        ((p.2.enum.map fun xe =>
          match xe.2 with
          | some val => GridCoordinate.Object val
          | none =>
            match r.to_grid_like (xe.1, p.1) with
            | .ok coordinate => GridCoordinate.Empty coordinate
            | .error coordinate => GridCoordinate.Empty coordinate) :
            List (GridCoordinate α)).length = w := by
      intro p hp
      rw [List.mem_iff_getElem?] at hp
      obtain ⟨k, hk⟩ := hp
      rw [List.getElem?_enum] at hk
      cases hl : value[k]? with
      | none => rw [hl] at hk; cases hk
      | some row =>
        rw [hl] at hk
        simp only [Option.map_some', Option.some.injEq] at hk
        rw [List.length_map, List.enum_length]
        rw [← hk]
        exact of_decide_eq_true (hall row (List.getElem?_mem hl))
    refine ⟨hb, ?_⟩
    rw [well_formed_iff]
    have hlen : (value.enum.flatMap fun yline =>
        yline.2.enum.map fun xelement =>
          match xelement.2 with
          | some val => GridCoordinate.Object val
          | none =>
            match r.to_grid_like (xelement.1, yline.1) with
            | .ok coordinate => GridCoordinate.Empty coordinate
            | .error coordinate => (GridCoordinate.Empty coordinate : GridCoordinate α)).length
        = base.bounds.x_count * base.bounds.y_count := by
      rw [flatMap_uniform_length _ _ w hinner, List.enum_length]
      show value.length * w = base.x_count * base.y_count
      rw [hxcv, hycv, Nat.mul_comm]
    refine ⟨hlen, fun i c hic => ?_⟩
    have hilt : i < (value.enum.flatMap fun yline =>
        yline.2.enum.map fun xelement =>
          match xelement.2 with
          | some val => GridCoordinate.Object val
          | none =>
            match r.to_grid_like (xelement.1, yline.1) with
            | .ok coordinate => GridCoordinate.Empty coordinate
            | .error coordinate => (GridCoordinate.Empty coordinate :
                GridCoordinate α)).length := by
      rw [List.getElem?_eq_some] at hic
      exact hic.1
    have hw0 : 0 < w := hw1
    obtain ⟨x, y, hxlt, hylt, rfl⟩ :
        ∃ x y : Nat, x < w ∧ y < value.length ∧ i = y * w + x := by
      refine ⟨i % w, i / w, Nat.mod_lt i hw0, ?_, ?_⟩
      · apply Nat.div_lt_of_lt_mul
        rw [hlen] at hilt
        show i < w * value.length
        calc i < base.bounds.x_count * base.bounds.y_count := hilt
          _ = w * value.length := by
            show base.x_count * base.y_count = _
            rw [hxcv, hycv]
      · rw [Nat.mul_comm]
        exact (Nat.div_add_mod i w).symm
    rw [flatMap_uniform_getElem? _ _ w hinner y x hxlt] at hic
    have henum : value.enum[y]? = value[y]?.map fun a => (y, a) :=
      List.getElem?_enum value y
    cases hrowq : value[y]? with
    | none =>
      rw [List.getElem?_eq_none_iff] at hrowq
      omega
    | some row =>
      rw [henum, hrowq] at hic
      simp only [Option.map_some'] at hic
      have hrowlen : row.length = w :=
        of_decide_eq_true (hall row (List.getElem?_mem hrowq))
      have hxrow : x < row.length := by omega
      rw [List.getElem?_map, List.getElem?_enum] at hic
      rw [List.getElem?_eq_getElem hxrow] at hic
      simp only [Option.map_some'] at hic
      -- the cell must be an Empty placeholder from to_grid_like
      have hwithin : r.is_within_bounds
          ⟨r.x_min_boundary + (x : Int), r.y_max_boundary - (y : Int)⟩ = true := by
        rw [Rect.is_within_bounds_iff]
        dsimp only
        have hxlt' : x < r.x_count := lt_of_lt_of_eq hxlt hwx
        have h1 : (x : Int) < r.x_max_boundary - r.x_min_boundary + 1 := by
          have hx4 : ((x : Nat) : Int) < (r.x_count : Int) := by exact_mod_cast hxlt'
          rw [r.x_count_cast hxle] at hx4
          exact hx4
        have h2 : (y : Int) < r.y_max_boundary - r.y_min_boundary + 1 := by
          have hy4 : ((y : Nat) : Int) < (r.y_count : Int) := by
            have : y < r.y_count := by rw [hryc, hycv]; exact hylt
            exact_mod_cast this
          rw [r.y_count_cast hyle] at hy4
          exact hy4
        refine ⟨by omega, by omega, by omega, by omega⟩
      have hgl : r.to_grid_like (x, y) =
          .ok ⟨r.x_min_boundary + (x : Int), r.y_max_boundary - (y : Int)⟩ := by
        unfold Rect.to_grid_like
        dsimp only
        rw [if_pos hwithin]
      cases hel : row[x] with
      | some val => rw [hel] at hic; cases hic
      | none =>
        rw [hel, hgl] at hic
        injection hic with hic
        injection hic with hic
        rw [← hic]
        have hof := r.index_to_coordinate_of_split x y (lt_of_lt_of_eq hxlt hwx)
        show r.index_to_coordinate (y * w + x) = _
        rw [hwx, hof, hgl]

/-- A fold preserves any property its step preserves. -/
theorem foldl_preserves {σ β : Type} (f : σ → β → σ) (P : σ → Prop)
    (hf : ∀ s b, P s → P (f s b)) :
    ∀ (l : List β) (s : σ), P s → P (l.foldl f s) := by
  intro l
  induction l with
  | nil => intro s hs; exact hs
  | cons b rest ih => intro s hs; exact ih (f s b) (hf s b hs)

/-- `getElem?` through `List.set`, all cases in one equation. -/
theorem getElem?_set_cases {β : Type} (l : List β) (i j : Nat) (a : β) :
    (l.set i a)[j]? = if i = j ∧ i < l.length then some a else l[j]? := by
  by_cases hij : i = j
  · subst hij
    by_cases hlt : i < l.length
    · rw [List.getElem?_set_self hlt, if_pos ⟨rfl, hlt⟩]
    · rw [List.set_eq_of_length_le (by omega), if_neg (by tauto)]
  · rw [List.getElem?_set_ne hij, if_neg (by tauto)]

/-- Overwriting a cell with an `Object` preserves the storage invariant. -/
theorem wf_set_object {α : Type} (g : Grid α) (i : Nat) (v : α)
    (h : g.well_formed = true) :
    (Grid.mk (g.grid_data.set i (.Object v)) g.bounds : Grid α).well_formed
      = true := by
  rw [well_formed_iff] at h ⊢
  obtain ⟨h1, h2⟩ := h
  refine ⟨by simpa using h1, fun j c hj => ?_⟩
  show g.rect.index_to_coordinate j = .ok c
  apply h2
  dsimp only at hj
  rw [getElem?_set_cases] at hj
  split at hj
  · injection hj with hj
    cases hj
  · exact hj

/-- Overwriting a cell with the `Empty` placeholder its index maps back to
preserves the storage invariant. -/
theorem wf_set_empty {α : Type} (g : Grid α) (i : Nat) (c0 : Coordinate)
    (hc0 : g.rect.index_to_coordinate i = .ok c0)
    (h : g.well_formed = true) :
    (Grid.mk (g.grid_data.set i (.Empty c0)) g.bounds : Grid α).well_formed
      = true := by
  rw [well_formed_iff] at h ⊢
  obtain ⟨h1, h2⟩ := h
  refine ⟨by simpa using h1, fun j c hj => ?_⟩
  show g.rect.index_to_coordinate j = .ok c
  dsimp only at hj
  rw [getElem?_set_cases] at hj
  split at hj
  · rename_i hcond
    injection hj with hj
    injection hj with hj
    rw [← hj, ← hcond.1]
    exact hc0
  · exact h2 j c hj

/-- A successful `coordinate_to_index` is inverted by `index_to_coordinate`. -/
theorem coordinate_to_index_back (r : Rect) (c : Coordinate) (i : Nat)
    (h : r.coordinate_to_index c = .ok i) :
    r.is_within_bounds c = true ∧ r.index_to_coordinate i = .ok c := by
  have hw : r.is_within_bounds c = true := by
    by_contra hw
    rw [Bool.not_eq_true] at hw
    unfold Rect.coordinate_to_index at h
    rw [hw] at h
    simp at h
  obtain ⟨j, hok, hlt, hback⟩ := r.round_trip_coordinate c hw
  rw [h] at hok
  injection hok with hok
  rw [hok]
  exact ⟨hw, hback⟩

/-- `store_element` preserves bounds and the storage invariant. -/
theorem store_element_wf {α : Type} (g : Grid α) (c : Coordinate) (v : α)
    (h : g.well_formed = true) :
    (g.store_element c v).2.bounds = g.bounds ∧
      (g.store_element c v).2.well_formed = true := by
  cases hok : g.rect.coordinate_to_index c with
  | error e =>
    simp only [Grid.store_element, hok]
    exact ⟨by trivial, h⟩
  | ok i =>
    cases hcell : g.grid_data[i]? with
    | none =>
      simp only [Grid.store_element, hok, hcell]
      exact ⟨by trivial, h⟩
    | some cell =>
      cases cell with
      | Object w =>
        simp only [Grid.store_element, hok, hcell]
        exact ⟨by trivial, wf_set_object g i v h⟩
      | Empty c0 =>
        simp only [Grid.store_element, hok, hcell]
        exact ⟨by trivial, wf_set_object g i v h⟩

/-- `remove_element` preserves bounds and the storage invariant (the `Empty`
placeholder it writes carries exactly the coordinate of that cell). -/
theorem remove_element_wf {α : Type} (g : Grid α) (c : Coordinate)
    (h : g.well_formed = true) :
    (g.remove_element c).2.bounds = g.bounds ∧
      (g.remove_element c).2.well_formed = true := by
  cases hok : g.rect.coordinate_to_index c with
  | error e =>
    simp only [Grid.remove_element, hok]
    exact ⟨by trivial, h⟩
  | ok i =>
    obtain ⟨hw, hback⟩ := coordinate_to_index_back g.rect c i hok
    cases hcell : g.grid_data[i]? with
    | none =>
      simp only [Grid.remove_element, hok, hcell]
      exact ⟨by trivial, h⟩
    | some cell =>
      cases cell with
      | Object w =>
        simp only [Grid.remove_element, hok, hcell]
        exact ⟨by trivial, wf_set_empty g i c hback h⟩
      | Empty c0 =>
        simp only [Grid.remove_element, hok, hcell]
        exact ⟨by trivial, wf_set_empty g i c hback h⟩

/-- `move_element_in_direction` preserves bounds and the storage invariant. -/
theorem move_element_wf {α : Type} (g : Grid α) (c : Coordinate)
    (d : AbsoluteDirection) (hb : g.bounds.origin_centered = true)
    (h : g.well_formed = true) :
    (g.move_element_in_direction c d).2.bounds = g.bounds ∧
      (g.move_element_in_direction c d).2.well_formed = true := by
  obtain ⟨hlen, hpt⟩ := (well_formed_iff g).mp h
  cases hmv : g.move_element_in_direction c d with
  | mk res g' =>
    dsimp only
    cases res with
    | error e =>
      have hgg := move_element_error_spec g c d e g' hb hlen hpt hmv
      rw [hgg]
      exact ⟨rfl, h⟩
    | ok dest =>
      obtain ⟨i, j, v, ec, hoki, hokj, hij, hilt, hjlt, _, _, _, _, hicell,
        hjcell, hg'⟩ := move_element_success_spec g c d dest g' hb hlen hmv
      subst hg'
      have hback : g.rect.index_to_coordinate i = .ok c :=
        (coordinate_to_index_back g.rect c i hoki).2
      have h1 := wf_set_empty g i c hback h
      have h2 := wf_set_object
        (Grid.mk (g.grid_data.set i (.Empty c)) g.bounds) j v h1
      exact ⟨rfl, h2⟩

/-- How the derived vertical boundaries move when the row count grows by one:
an even count extends the South edge, an odd count the North edge. -/
theorem origin_centered_y_shift (n : Nat) (hn : 1 ≤ n) :
    (n % 2 = 0 →
      origin_centered_y_min (n + 1) = origin_centered_y_min n - 1 ∧
        origin_centered_y_max (n + 1) = origin_centered_y_max n) ∧
    (n % 2 = 1 →
      origin_centered_y_min (n + 1) = origin_centered_y_min n ∧
        origin_centered_y_max (n + 1) = origin_centered_y_max n + 1) := by
  have h0 : ¬(n = 0) := by omega
  have h1 : ¬(n + 1 = 0) := by omega
  simp only [origin_centered_y_min, origin_centered_y_max, h0, h1, if_false]
  by_cases hp : n % 2 = 0
  · have hp1 : ¬((n + 1) % 2 = 0) := by omega
    simp only [hp, hp1, if_true, if_false]
    exact ⟨fun _ => ⟨by omega, by omega⟩, fun h => absurd h (by omega)⟩
  · have hp1 : (n + 1) % 2 = 0 := by omega
    simp only [hp, hp1, if_true, if_false]
    exact ⟨fun h => h.elim, fun _ => ⟨by omega, by omega⟩⟩

/-- `add_bottom_row` (taken on an even row count, as `add_row` does) keeps the
bounds origin-centered, preserves the storage invariant, keeps the column
count and grows the row count by one. -/
theorem add_bottom_row_wf {α : Type} (g : Grid α)
    (hb : g.bounds.origin_centered = true) (hwf : g.well_formed = true)
    (hpar : g.y_count % 2 = 0) :
    (g.add_bottom_row).bounds.origin_centered = true ∧
      (g.add_bottom_row).well_formed = true ∧
      (g.add_bottom_row).x_count = g.x_count ∧
      (g.add_bottom_row).y_count = g.y_count + 1 := by
  obtain ⟨hxle, hyle, hrxc, hryc, hx1, hy1⟩ := grid_rect_facts g hb
  obtain ⟨hy', hx', hoc', hev, hodd⟩ := ocb_expand_vertical_spec g.bounds hb
  obtain ⟨hlen, hpt⟩ := (well_formed_iff g).mp hwf
  set w := g.rect.x_count with hwdef
  have hxcnt : (g.add_bottom_row).x_count = g.x_count := hx'
  have hycnt : (g.add_bottom_row).y_count = g.y_count + 1 := hy'
  have hrect : (g.add_bottom_row).rect =
      ⟨g.rect.x_min_boundary, g.rect.x_max_boundary,
        g.rect.y_min_boundary - 1, g.rect.y_max_boundary⟩ := by
    show (⟨origin_centered_x_min (g.add_bottom_row).x_count,
      origin_centered_x_max (g.add_bottom_row).x_count,
      origin_centered_y_min (g.add_bottom_row).y_count,
      origin_centered_y_max (g.add_bottom_row).y_count⟩ : Rect) = _
    rw [hxcnt, hycnt]
    obtain ⟨hshmin, hshmax⟩ := (origin_centered_y_shift g.y_count hy1).1 hpar
    rw [hshmin, hshmax]
    rfl
  set row : List (GridCoordinate α) :=
    (int_range g.rect.x_min_boundary g.rect.x_max_boundary).map
      fun x => GridCoordinate.Empty ⟨x, g.rect.y_min_boundary - 1⟩ with hrow
  have hdata : (g.add_bottom_row).grid_data = g.grid_data ++ row := rfl
  have hrowlen : row.length = w := by
    rw [hrow, List.length_map, int_range_length]
    show _ = g.rect.x_count
    simp only [Rect.x_count]
    omega
  have hlen2 : g.grid_data.length = g.y_count * w := by
    rw [hlen]
    show g.x_count * g.y_count = g.y_count * w
    rw [hrxc, Nat.mul_comm]
  refine ⟨hoc', ?_, hxcnt, hycnt⟩
  rw [well_formed_iff]
  constructor
  · show (g.grid_data ++ row).length =
      (g.add_bottom_row).bounds.x_count * (g.add_bottom_row).bounds.y_count
    rw [List.length_append, hrowlen, hlen2]
    have hx2 : (g.add_bottom_row).bounds.x_count = g.x_count := hx'
    have hy2 : (g.add_bottom_row).bounds.y_count = g.y_count + 1 := hy'
    rw [hx2, hy2, ← hrxc]
    ring
  · intro i c hic
    rw [hdata] at hic
    have hilt : i < g.grid_data.length + w := by
      rw [List.getElem?_eq_some] at hic
      have := hic.1
      rw [List.length_append, hrowlen] at this
      exact this
    have hw0 : 0 < w := by
      show 0 < g.rect.x_count
      simp only [Rect.x_count]
      omega
    rw [hrect]
    by_cases hiold : i < g.grid_data.length
    · -- a cell kept from the old storage
      rw [List.getElem?_append_left hiold] at hic
      have hold := hpt i c hic
      obtain ⟨x, y, hxlt, hylt, rfl⟩ :
          ∃ x y : Nat, x < w ∧ y < g.y_count ∧ i = y * w + x := by
        refine ⟨i % w, i / w, Nat.mod_lt i hw0, ?_, ?_⟩
        · apply Nat.div_lt_of_lt_mul
          rw [Nat.mul_comm]
          rw [hlen2] at hiold
          exact hiold
        · rw [Nat.mul_comm]
          exact (Nat.div_add_mod i w).symm
      rw [g.rect.index_to_coordinate_of_split x y hxlt] at hold
      unfold Rect.to_grid_like at hold
      dsimp only at hold
      split at hold
      · rename_i hwin
        injection hold with hold
        rw [Rect.is_within_bounds_iff] at hwin
        dsimp only at hwin
        set r' : Rect := ⟨g.rect.x_min_boundary, g.rect.x_max_boundary,
          g.rect.y_min_boundary - 1, g.rect.y_max_boundary⟩ with hr'
        have hwx' : r'.x_count = w := by
          show (g.rect.x_max_boundary - g.rect.x_min_boundary).natAbs + 1 =
            g.rect.x_count
          rfl
        have hxlt' : x < r'.x_count := by rw [hwx']; exact hxlt
        have hidx : y * w + x = y * r'.x_count + x := by rw [hwx']
        rw [hidx, r'.index_to_coordinate_of_split x y hxlt']
        unfold Rect.to_grid_like
        dsimp only
        have hwin' : r'.is_within_bounds
            ⟨r'.x_min_boundary + (x : Int), r'.y_max_boundary - (y : Int)⟩
              = true := by
          rw [Rect.is_within_bounds_iff]
          dsimp only
          refine ⟨hwin.1, hwin.2.1, by omega, hwin.2.2.2⟩
        rw [if_pos hwin']
        rw [← hold]
      · cases hold
    · -- a cell of the freshly appended bottom row
      rw [List.getElem?_append_right (by omega)] at hic
      obtain ⟨k, hk, rfl⟩ : ∃ k, k < w ∧ i = g.grid_data.length + k :=
        ⟨i - g.grid_data.length, by omega, by omega⟩
      have hks : g.grid_data.length + k - g.grid_data.length = k := by omega
      rw [hks] at hic
      rw [hrow, List.getElem?_map, int_range_getElem? _ _ k (by
        have : (g.rect.x_max_boundary - g.rect.x_min_boundary + 1).toNat = w := by
          show _ = g.rect.x_count
          simp only [Rect.x_count]
          omega
        omega)] at hic
      simp only [Option.map_some', Option.some.injEq] at hic
      set r' : Rect := ⟨g.rect.x_min_boundary, g.rect.x_max_boundary,
        g.rect.y_min_boundary - 1, g.rect.y_max_boundary⟩ with hr'
      have hwx' : r'.x_count = w := by
        show (g.rect.x_max_boundary - g.rect.x_min_boundary).natAbs + 1 =
          g.rect.x_count
        rfl
      have hidx : g.grid_data.length + k = g.y_count * r'.x_count + k := by
        rw [hwx', hlen2]
      rw [hidx, r'.index_to_coordinate_of_split k g.y_count (by omega)]
      unfold Rect.to_grid_like
      dsimp only
      have hycast : (g.y_count : Int) =
          g.rect.y_max_boundary - g.rect.y_min_boundary + 1 := by
        rw [← hryc]
        exact g.rect.y_count_cast hyle
      have hwin' : r'.is_within_bounds
          ⟨r'.x_min_boundary + (k : Int), r'.y_max_boundary - (g.y_count : Int)⟩
            = true := by
        rw [Rect.is_within_bounds_iff]
        dsimp only
        have hwcast : (w : Int) =
            g.rect.x_max_boundary - g.rect.x_min_boundary + 1 := by
          rw [hwdef]
          exact g.rect.x_count_cast hxle
        refine ⟨by omega, ?_, by omega, by omega⟩
        have : (k : Int) < (w : Int) := by exact_mod_cast hk
        omega
      rw [if_pos hwin']
      injection hic with hic
      rw [← hic]
      have hyeq : r'.y_max_boundary - (g.y_count : Int) =
          g.rect.y_min_boundary - 1 := by
        show g.rect.y_max_boundary - (g.y_count : Int) = _
        omega
      rw [hyeq]

/-- `add_top_row` (taken on an odd row count, as `add_row` does) keeps the
bounds origin-centered, preserves the storage invariant, keeps the column
count and grows the row count by one. -/
theorem add_top_row_wf {α : Type} (g : Grid α)
    (hb : g.bounds.origin_centered = true) (hwf : g.well_formed = true)
    (hpar : g.y_count % 2 = 1) :
    (g.add_top_row).bounds.origin_centered = true ∧
      (g.add_top_row).well_formed = true ∧
      (g.add_top_row).x_count = g.x_count ∧
      (g.add_top_row).y_count = g.y_count + 1 := by
  obtain ⟨hxle, hyle, hrxc, hryc, hx1, hy1⟩ := grid_rect_facts g hb
  obtain ⟨hy', hx', hoc', hev, hodd⟩ := ocb_expand_vertical_spec g.bounds hb
  obtain ⟨hlen, hpt⟩ := (well_formed_iff g).mp hwf
  set w := g.rect.x_count with hwdef
  have hxcnt : (g.add_top_row).x_count = g.x_count := hx'
  have hycnt : (g.add_top_row).y_count = g.y_count + 1 := hy'
  have hrect : (g.add_top_row).rect =
      ⟨g.rect.x_min_boundary, g.rect.x_max_boundary,
        g.rect.y_min_boundary, g.rect.y_max_boundary + 1⟩ := by
    show (⟨origin_centered_x_min (g.add_top_row).x_count,
      origin_centered_x_max (g.add_top_row).x_count,
      origin_centered_y_min (g.add_top_row).y_count,
      origin_centered_y_max (g.add_top_row).y_count⟩ : Rect) = _
    rw [hxcnt, hycnt]
    obtain ⟨hshmin, hshmax⟩ := (origin_centered_y_shift g.y_count hy1).2 hpar
    rw [hshmin, hshmax]
    rfl
  set row : List (GridCoordinate α) :=
    (int_range g.rect.x_min_boundary g.rect.x_max_boundary).map
      fun x => GridCoordinate.Empty ⟨x, g.rect.y_max_boundary + 1⟩ with hrow
  have hdata : (g.add_top_row).grid_data = row ++ g.grid_data := rfl
  have hrowlen : row.length = w := by
    rw [hrow, List.length_map, int_range_length]
    show _ = g.rect.x_count
    simp only [Rect.x_count]
    omega
  have hlen2 : g.grid_data.length = g.y_count * w := by
    rw [hlen]
    show g.x_count * g.y_count = g.y_count * w
    rw [hrxc, Nat.mul_comm]
  have hw0 : 0 < w := by
    show 0 < g.rect.x_count
    simp only [Rect.x_count]
    omega
  refine ⟨hoc', ?_, hxcnt, hycnt⟩
  rw [well_formed_iff]
  constructor
  · show (row ++ g.grid_data).length =
      (g.add_top_row).bounds.x_count * (g.add_top_row).bounds.y_count
    rw [List.length_append, hrowlen, hlen2]
    have hx2 : (g.add_top_row).bounds.x_count = g.x_count := hx'
    have hy2 : (g.add_top_row).bounds.y_count = g.y_count + 1 := hy'
    rw [hx2, hy2, ← hrxc]
    ring
  · intro i c hic
    rw [hdata] at hic
    rw [hrect]
    set r' : Rect := ⟨g.rect.x_min_boundary, g.rect.x_max_boundary,
      g.rect.y_min_boundary, g.rect.y_max_boundary + 1⟩ with hr'
    have hwx' : r'.x_count = w := by
      show (g.rect.x_max_boundary - g.rect.x_min_boundary).natAbs + 1 =
        g.rect.x_count
      rfl
    by_cases hinew : i < w
    · -- a cell of the freshly inserted top row
      rw [List.getElem?_append_left (by rw [hrowlen]; exact hinew)] at hic
      rw [hrow, List.getElem?_map, int_range_getElem? _ _ i (by
        have hto : (g.rect.x_max_boundary - g.rect.x_min_boundary + 1).toNat
            = w := by
          show _ = g.rect.x_count
          simp only [Rect.x_count]
          omega
        omega)] at hic
      simp only [Option.map_some', Option.some.injEq] at hic
      have hidx : i = 0 * r'.x_count + i := by omega
      rw [hidx, r'.index_to_coordinate_of_split i 0 (by rw [hwx']; exact hinew)]
      unfold Rect.to_grid_like
      dsimp only
      have hwcast : (w : Int) =
          g.rect.x_max_boundary - g.rect.x_min_boundary + 1 := by
        rw [hwdef]
        exact g.rect.x_count_cast hxle
      have hwin' : r'.is_within_bounds
          ⟨r'.x_min_boundary + (i : Int), r'.y_max_boundary - ((0 : Nat) : Int)⟩
            = true := by
        rw [Rect.is_within_bounds_iff]
        dsimp only
        have : (i : Int) < (w : Int) := by exact_mod_cast hinew
        refine ⟨by omega, by omega, by omega, by omega⟩
      rw [if_pos hwin']
      injection hic with hic
      rw [← hic]
      have hyeq : r'.y_max_boundary - ((0 : Nat) : Int) =
          g.rect.y_max_boundary + 1 := by
        show g.rect.y_max_boundary + 1 - ((0 : Nat) : Int) = _
        omega
      rw [hyeq]
    · -- a cell carried over from the old storage, shifted one row down
      rw [List.getElem?_append_right (by omega)] at hic
      rw [hrowlen] at hic
      have hilt : i - w < g.grid_data.length := by
        rw [List.getElem?_eq_some] at hic
        exact hic.1
      obtain ⟨j, hjlt, rfl⟩ : ∃ j, j < g.grid_data.length ∧ i = w + j :=
        ⟨i - w, hilt, by omega⟩
      have hjs : w + j - w = j := by omega
      rw [hjs] at hic
      have hold := hpt j c hic
      obtain ⟨x, y, hxlt, hylt, rfl⟩ :
          ∃ x y : Nat, x < w ∧ y < g.y_count ∧ j = y * w + x := by
        refine ⟨j % w, j / w, Nat.mod_lt j hw0, ?_, ?_⟩
        · apply Nat.div_lt_of_lt_mul
          rw [Nat.mul_comm]
          rw [hlen2] at hjlt
          exact hjlt
        · rw [Nat.mul_comm]
          exact (Nat.div_add_mod j w).symm
      rw [g.rect.index_to_coordinate_of_split x y hxlt] at hold
      unfold Rect.to_grid_like at hold
      dsimp only at hold
      split at hold
      · rename_i hwin
        injection hold with hold
        rw [Rect.is_within_bounds_iff] at hwin
        dsimp only at hwin
        have hidx : w + (y * w + x) = (y + 1) * r'.x_count + x := by
          rw [hwx', Nat.succ_mul]
          omega
        rw [hidx, r'.index_to_coordinate_of_split x (y + 1)
          (by rw [hwx']; exact hxlt)]
        unfold Rect.to_grid_like
        dsimp only
        have hwin' : r'.is_within_bounds
            ⟨r'.x_min_boundary + (x : Int),
              r'.y_max_boundary - ((y + 1 : Nat) : Int)⟩ = true := by
          rw [Rect.is_within_bounds_iff]
          dsimp only
          push_cast
          refine ⟨hwin.1, hwin.2.1, ?_, ?_⟩
          · have := hwin.2.2.1
            omega
          · have := hwin.2.2.2
            omega
        rw [if_pos hwin']
        rw [← hold]
        have hyeq : r'.y_max_boundary - ((y + 1 : Nat) : Int) =
            g.rect.y_max_boundary - (y : Int) := by
          show g.rect.y_max_boundary + 1 - ((y + 1 : Nat) : Int) = _
          push_cast
          omega
        rw [hyeq]
      · cases hold

/-- `add_row` keeps the bounds origin-centered, preserves the storage
invariant, keeps the column count and grows the row count by one. -/
theorem add_row_wf {α : Type} (g : Grid α)
    (hb : g.bounds.origin_centered = true) (hwf : g.well_formed = true) :
    (g.add_row).2.bounds.origin_centered = true ∧
      (g.add_row).2.well_formed = true ∧
      (g.add_row).2.x_count = g.x_count ∧
      (g.add_row).2.y_count = g.y_count + 1 := by
  unfold Grid.add_row
  by_cases hpar : g.y_count % 2 = 0
  · rw [if_pos hpar]
    exact add_bottom_row_wf g hb hwf hpar
  · rw [if_neg hpar]
    exact add_top_row_wf g hb hwf (by omega)

/-- The sequential-move loop preserves bounds and the storage invariant. -/
theorem move_elements_list_wf {α : Type} (d : AbsoluteDirection) :
    ∀ (cs : List Coordinate) (g : Grid α),
      g.bounds.origin_centered = true → g.well_formed = true →
      (Grid.move_elements_list d g cs).2.bounds = g.bounds ∧
        (Grid.move_elements_list d g cs).2.well_formed = true := by
  intro cs
  induction cs with
  | nil => exact fun g hb hwf => ⟨rfl, hwf⟩
  | cons c rest ih =>
    intro g hb hwf
    have hw1 := move_element_wf g c d hb hwf
    cases hmv : g.move_element_in_direction c d with
    | mk res g1 =>
      rw [hmv] at hw1
      dsimp only at hw1
      cases res with
      | error e =>
        simp only [Grid.move_elements_list, hmv]
        exact ⟨hw1.1, hw1.2⟩
      | ok x =>
        have hb1 : g1.bounds.origin_centered = true := by
          rw [hw1.1]
          exact hb
        have hrest := ih g1 hb1 hw1.2
        simp only [Grid.move_elements_list, hmv]
        exact ⟨by rw [hrest.1, hw1.1], hrest.2⟩

/-- The row-filtered bulk move preserves bounds and the storage invariant. -/
theorem row_filter_move_wf {α : Type} (g : Grid α)
    (filter : Coordinate → Int → Bool) (row : Int) (d : AbsoluteDirection)
    (hb : g.bounds.origin_centered = true) (hwf : g.well_formed = true) :
    (g.row_filter_move_elements_in_direction filter row d).2.bounds = g.bounds ∧
      (g.row_filter_move_elements_in_direction filter row d).2.well_formed
        = true := by
  unfold Grid.row_filter_move_elements_in_direction
  split
  · exact move_elements_list_wf d _ g hb hwf
  · exact move_elements_list_wf d _ g hb hwf

/-- `expand_at_row` keeps the bounds origin-centered, preserves the storage
invariant, keeps the column count and grows the row count by one. -/
theorem expand_at_row_wf {α : Type} (g : Grid α) (y : Int)
    (hb : g.bounds.origin_centered = true) (hwf : g.well_formed = true) :
    (g.expand_at_row y).2.1.bounds.origin_centered = true ∧
      (g.expand_at_row y).2.1.well_formed = true ∧
      (g.expand_at_row y).2.1.x_count = g.x_count ∧
      (g.expand_at_row y).2.1.y_count = g.y_count + 1 := by
  obtain ⟨hb1, hwf1, hx1, hy1⟩ := add_row_wf g hb hwf
  unfold Grid.expand_at_row
  dsimp only
  split
  · rename_i htop
    have hmove := row_filter_move_wf (g.add_row).2 Coordinate.is_above_row y
      .North hb1 hwf1
    dsimp only
    refine ⟨?_, hmove.2, ?_, ?_⟩
    · show ((g.add_row).2.move_elements_above_row_in_direction y
        .North).2.bounds.origin_centered = true
      rw [show ((g.add_row).2.move_elements_above_row_in_direction y
        .North).2.bounds = (g.add_row).2.bounds from hmove.1]
      exact hb1
    · show ((g.add_row).2.move_elements_above_row_in_direction y
        .North).2.bounds.x_count = g.x_count
      rw [show ((g.add_row).2.move_elements_above_row_in_direction y
        .North).2.bounds = (g.add_row).2.bounds from hmove.1]
      exact hx1
    · show ((g.add_row).2.move_elements_above_row_in_direction y
        .North).2.bounds.y_count = g.y_count + 1
      rw [show ((g.add_row).2.move_elements_above_row_in_direction y
        .North).2.bounds = (g.add_row).2.bounds from hmove.1]
      exact hy1
  · rename_i htop
    have hmove := row_filter_move_wf (g.add_row).2 Coordinate.is_below_row y
      .South hb1 hwf1
    dsimp only
    refine ⟨?_, hmove.2, ?_, ?_⟩
    · show ((g.add_row).2.move_elements_below_row_in_direction y
        .South).2.bounds.origin_centered = true
      rw [show ((g.add_row).2.move_elements_below_row_in_direction y
        .South).2.bounds = (g.add_row).2.bounds from hmove.1]
      exact hb1
    · show ((g.add_row).2.move_elements_below_row_in_direction y
        .South).2.bounds.x_count = g.x_count
      rw [show ((g.add_row).2.move_elements_below_row_in_direction y
        .South).2.bounds = (g.add_row).2.bounds from hmove.1]
      exact hx1
    · show ((g.add_row).2.move_elements_below_row_in_direction y
        .South).2.bounds.y_count = g.y_count + 1
      rw [show ((g.add_row).2.move_elements_below_row_in_direction y
        .South).2.bounds = (g.add_row).2.bounds from hmove.1]
      exact hy1

/-- `transpose_new` produces a grid with the freshly derived (swapped-count)
bounds, and its storage satisfies the invariant. -/
theorem transpose_new_wf {α : Type} (g : Grid α) :
    (g.transpose_new).bounds = (Grid.new g.y_count g.x_count : Grid α).bounds ∧
      (g.transpose_new).well_formed = true := by
  unfold Grid.transpose_new
  refine foldl_preserves _
    (fun (acc : Grid α) =>
      acc.bounds = (Grid.new g.y_count g.x_count : Grid α).bounds ∧
        acc.well_formed = true) ?_ _ _
    ⟨rfl, (grid_new_wf α g.y_count g.x_count).2⟩
  intro s pair hs
  obtain ⟨hs1, hs2⟩ := hs
  dsimp only
  split
  · rename_i nc hnc
    cases hp : pair.2 with
    | none => exact ⟨hs1, hs2⟩
    | some e =>
      have hst := store_element_wf s nc e hs2
      exact ⟨by rw [hst.1, hs1], hst.2⟩
  · exact ⟨hs1, hs2⟩

/-- **C10 (amended).** The unstated storage invariant — a backing sequence of
length exactly `x_count * y_count`, with every `Empty` cell at flat index `i`
carrying exactly `index_to_coordinate(i)` — holds for `Grid::new`, is
established by `try_from` whenever the given rows are non-empty, and is
preserved (together with origin-centered bounds) by `store_element`,
`remove_element`, `move_element_in_direction`, `add_row`, `expand_at_row` and
`transpose_new`. (As literally stated the claim fails: `try_from` of a
non-empty vector of empty rows returns `Ok` with empty storage but `1 × 1`
bounds — see the counterexample theorem.) -/
theorem claim_c10_storage_invariant (α : Type) :
    (∀ m n : Nat, (Grid.new m n : Grid α).bounds.origin_centered = true ∧
      (Grid.new m n : Grid α).well_formed = true) ∧
    (∀ (value : List (List (Option α))) (g : Grid α) (fr : List (Option α)),
      value.head? = some fr → 1 ≤ fr.length →
      Grid.try_from_rows value = .ok g →
      g.bounds.origin_centered = true ∧ g.well_formed = true) ∧
    (∀ (g : Grid α) (c : Coordinate) (v : α),
      g.bounds.origin_centered = true → g.well_formed = true →
      (g.store_element c v).2.bounds = g.bounds ∧
        (g.store_element c v).2.well_formed = true) ∧
    (∀ (g : Grid α) (c : Coordinate),
      g.bounds.origin_centered = true → g.well_formed = true →
      (g.remove_element c).2.bounds = g.bounds ∧
        (g.remove_element c).2.well_formed = true) ∧
    (∀ (g : Grid α) (c : Coordinate) (d : AbsoluteDirection),
      g.bounds.origin_centered = true → g.well_formed = true →
      (g.move_element_in_direction c d).2.bounds = g.bounds ∧
        (g.move_element_in_direction c d).2.well_formed = true) ∧
    (∀ (g : Grid α),
      g.bounds.origin_centered = true → g.well_formed = true →
      (g.add_row).2.bounds.origin_centered = true ∧
        (g.add_row).2.well_formed = true) ∧
    (∀ (g : Grid α) (y : Int),
      g.bounds.origin_centered = true → g.well_formed = true →
      (g.expand_at_row y).2.1.bounds.origin_centered = true ∧
        (g.expand_at_row y).2.1.well_formed = true) ∧
    (∀ (g : Grid α),
      (g.transpose_new).bounds.origin_centered = true ∧
        (g.transpose_new).well_formed = true) := by
  refine ⟨grid_new_wf α, ?_, ?_, ?_, ?_, ?_, ?_, ?_⟩
  · exact fun value g fr hfr hw1 h => try_from_rows_wf α value g fr hfr hw1 h
  · exact fun g c v _ hwf => store_element_wf g c v hwf
  · exact fun g c _ hwf => remove_element_wf g c hwf
  · exact fun g c d hb hwf => move_element_wf g c d hb hwf
  · exact fun g hb hwf =>
      ⟨(add_row_wf g hb hwf).1, (add_row_wf g hb hwf).2.1⟩
  · exact fun g y hb hwf =>
      ⟨(expand_at_row_wf g y hb hwf).1, (expand_at_row_wf g y hb hwf).2.1⟩
  · intro g
    have ht := transpose_new_wf g
    refine ⟨?_, ht.2⟩
    rw [ht.1]
    exact (grid_new_wf α g.y_count g.x_count).1

/-- Concrete witness for the amended storage-invariant claim: a `2 × 2` grid
storing a value at `(0, 1)` keeps its bounds and stays well-formed. -/
theorem claim_c10_storage_invariant_witness :
    ((Grid.new 2 2 : Grid Unit).store_element ⟨0, 1⟩ ()).2.bounds
        = (Grid.new 2 2 : Grid Unit).bounds ∧
      ((Grid.new 2 2 : Grid Unit).store_element ⟨0, 1⟩ ()).2.well_formed
        = true :=
  (claim_c10_storage_invariant Unit).2.2.1 (Grid.new 2 2) ⟨0, 1⟩ ()
    (by rfl) (by rfl)

/-- Rebuilding a rectangle from its west/south edges and geometric lengths
(as `IntoIterator for Grid` and `transpose_new` do) recovers the rectangle. -/
theorem bounds_new_geometric_rect {α : Type} (g : Grid α)
    (hxle : g.rect.x_min_boundary ≤ g.rect.x_max_boundary)
    (hyle : g.rect.y_min_boundary ≤ g.rect.y_max_boundary) :
    (Bounds.new g.rect.x_min_boundary g.rect.x_geometric_len
      g.rect.y_min_boundary g.rect.y_geometric_len).rect = g.rect := by
  show (⟨g.rect.x_min_boundary,
    g.rect.x_min_boundary + (g.rect.x_geometric_len : Int),
    g.rect.y_min_boundary,
    g.rect.y_min_boundary + (g.rect.y_geometric_len : Int)⟩ : Rect) = g.rect
  have hx : g.rect.x_min_boundary + (g.rect.x_geometric_len : Int) =
      g.rect.x_max_boundary := by
    simp only [Rect.x_geometric_len]
    omega
  have hy : g.rect.y_min_boundary + (g.rect.y_geometric_len : Int) =
      g.rect.y_max_boundary := by
    simp only [Rect.y_geometric_len]
    omega
  rw [hx, hy]

/-- The counts of `Grid::new` for positive requested counts. -/
theorem grid_new_counts (α : Type) (m n : Nat) (hm : 1 ≤ m) (hn : 1 ≤ n) :
    (Grid.new m n : Grid α).x_count = m ∧ (Grid.new m n : Grid α).y_count = n := by
  obtain ⟨hcx, hcy⟩ := ocb_new_counts m n
  constructor
  · show (OriginCenteredBounds.new m n).x_count = m
    rw [hcx]
    omega
  · show (OriginCenteredBounds.new m n).y_count = n
    rw [hcy]
    omega

/-- Every storage cell of a fresh grid is an `Empty` placeholder. -/
theorem fresh_no_object {α : Type} (m n j : Nat) (v : α) :
    ¬((Grid.new m n : Grid α).grid_data[j]? = some (.Object v)) := by
  intro h
  have hmem : (GridCoordinate.Object v : GridCoordinate α) ∈
      (Grid.new m n : Grid α).grid_data := List.getElem?_mem h
  have hform : ∀ cell ∈ (Grid.new m n : Grid α).grid_data,
      ∃ c, cell = GridCoordinate.Empty c := by
    intro cell hc
    have hc' : cell ∈ ((int_range (Grid.mk [] (OriginCenteredBounds.new m n) :
        Grid α).rect.y_min_boundary (Grid.mk [] (OriginCenteredBounds.new m n) :
        Grid α).rect.y_max_boundary).reverse.flatMap fun y =>
          (int_range (Grid.mk [] (OriginCenteredBounds.new m n) :
            Grid α).rect.x_min_boundary (Grid.mk [] (OriginCenteredBounds.new m n) :
            Grid α).rect.x_max_boundary).map fun x =>
              GridCoordinate.Empty ⟨x, y⟩) := hc
    rw [List.mem_flatMap] at hc'
    obtain ⟨y, _, hcm⟩ := hc'
    rw [List.mem_map] at hcm
    obtain ⟨x, _, hcx⟩ := hcm
    exact ⟨⟨x, y⟩, hcx.symm⟩
  obtain ⟨c, hc⟩ := hform _ hmem
  cases hc

/-- The matrix-like distances `transpose_new` computes for a grid-like
coordinate of the source grid. -/
theorem transpose_matrix_like {α : Type} (g : Grid α)
    (hxle : g.rect.x_min_boundary ≤ g.rect.x_max_boundary)
    (hyle : g.rect.y_min_boundary ≤ g.rect.y_max_boundary)
    (xm ym : Nat) :
    (Bounds.new g.rect.x_min_boundary g.rect.x_geometric_len
      g.rect.y_min_boundary g.rect.y_geometric_len).rect.to_matrix_like
        ⟨g.rect.x_min_boundary + (xm : Int),
          g.rect.y_max_boundary - (ym : Int)⟩ = (xm, ym) := by
  rw [bounds_new_geometric_rect g hxle hyle]
  unfold Rect.to_matrix_like
  dsimp only
  rw [show ((g.rect.x_min_boundary + (xm : Int)) -
      g.rect.x_min_boundary).natAbs = xm from by omega,
    show (g.rect.y_max_boundary -
      (g.rect.y_max_boundary - (ym : Int))).natAbs = ym from by omega]

/-- The target of a `transpose_new` store: the matrix-transposed distance pair
resolves to a grid-like coordinate of the fresh grid, whose flat index is the
matrix-transposed row-major index. -/
theorem transpose_target_spec {α : Type} (g acc : Grid α)
    (hb : g.bounds.origin_centered = true)
    (hacc : acc.bounds = (Grid.new g.y_count g.x_count : Grid α).bounds)
    (xm ym : Nat) (hxm : xm < g.x_count) (hym : ym < g.y_count) :
    acc.rect.to_grid_like (ym, xm) =
      .ok ⟨acc.rect.x_min_boundary + (ym : Int),
        acc.rect.y_max_boundary - (xm : Int)⟩ ∧
    acc.rect.coordinate_to_index
      ⟨acc.rect.x_min_boundary + (ym : Int),
        acc.rect.y_max_boundary - (xm : Int)⟩ = .ok (xm * g.y_count + ym) := by
  obtain ⟨_, _, _, _, hx1, hy1⟩ := grid_rect_facts g hb
  have haccr : acc.rect = (Grid.new g.y_count g.x_count : Grid α).rect := by
    unfold Grid.rect Grid.x_count Grid.y_count
    rw [hacc]
    rfl
  have hbF := (grid_new_wf α g.y_count g.x_count).1
  obtain ⟨hxleF, hyleF, hrxcF, hrycF, _, _⟩ :=
    grid_rect_facts (Grid.new g.y_count g.x_count : Grid α) hbF
  obtain ⟨hFx, hFy⟩ := grid_new_counts α g.y_count g.x_count hy1 hx1
  have hxcF : ((Grid.new g.y_count g.x_count : Grid α).rect.x_count : Int) =
      (Grid.new g.y_count g.x_count : Grid α).rect.x_max_boundary -
        (Grid.new g.y_count g.x_count : Grid α).rect.x_min_boundary + 1 :=
    Rect.x_count_cast _ hxleF
  have hycF : ((Grid.new g.y_count g.x_count : Grid α).rect.y_count : Int) =
      (Grid.new g.y_count g.x_count : Grid α).rect.y_max_boundary -
        (Grid.new g.y_count g.x_count : Grid α).rect.y_min_boundary + 1 :=
    Rect.y_count_cast _ hyleF
  have hymi : (ym : Int) < ((Grid.new g.y_count g.x_count :
      Grid α).rect.x_count : Int) := by
    rw [hrxcF, hFx]
    exact_mod_cast hym
  have hxmi : (xm : Int) < ((Grid.new g.y_count g.x_count :
      Grid α).rect.y_count : Int) := by
    rw [hrycF, hFy]
    exact_mod_cast hxm
  have hwin : acc.rect.is_within_bounds
      ⟨acc.rect.x_min_boundary + (ym : Int),
        acc.rect.y_max_boundary - (xm : Int)⟩ = true := by
    rw [Rect.is_within_bounds_iff]
    dsimp only
    rw [haccr]
    refine ⟨by omega, by omega, by omega, by omega⟩
  constructor
  · unfold Rect.to_grid_like
    dsimp only
    rw [if_pos hwin]
  · obtain ⟨hok, _⟩ := acc.rect.coordinate_to_index_ok _ hwin
    rw [hok]
    congr 1
    rw [show (acc.rect.y_max_boundary -
        (acc.rect.y_max_boundary - (xm : Int))).toNat = xm from by omega,
      show ((acc.rect.x_min_boundary + (ym : Int)) -
        acc.rect.x_min_boundary).toNat = ym from by omega]
    have hxc : acc.rect.x_count = g.y_count := by
      rw [haccr, hrxcF, hFx]
    rw [hxc]

/-- `to_grid_like` succeeds on any in-range distance pair. -/
theorem to_grid_like_ok (r : Rect)
    (hx : r.x_min_boundary ≤ r.x_max_boundary)
    (hy : r.y_min_boundary ≤ r.y_max_boundary) (xm ym : Nat)
    (hxm : xm < r.x_count) (hym : ym < r.y_count) :
    r.to_grid_like (xm, ym) =
      .ok ⟨r.x_min_boundary + (xm : Int), r.y_max_boundary - (ym : Int)⟩ := by
  unfold Rect.to_grid_like
  dsimp only
  rw [if_pos]
  rw [Rect.is_within_bounds_iff]
  dsimp only
  have h1 : (xm : Int) < (r.x_count : Int) := by exact_mod_cast hxm
  have h2 : (ym : Int) < (r.y_count : Int) := by exact_mod_cast hym
  rw [r.x_count_cast hx] at h1
  rw [r.y_count_cast hy] at h2
  refine ⟨by omega, by omega, by omega, by omega⟩

/-- The cell stream `IntoIterator for Grid` produces on a well-formed grid:
entry `ym * x_count + xm` pairs the grid-like coordinate of matrix position
`(xm, ym)` with the stored value of that cell. -/
theorem into_iter_list_getElem {α : Type} (g : Grid α)
    (hb : g.bounds.origin_centered = true) (hwf : g.well_formed = true) :
    g.into_iter_list.length = g.grid_data.length ∧
    (∀ xm ym : Nat, xm < g.x_count → ym < g.y_count →
      ∃ cell, g.grid_data[ym * g.x_count + xm]? = some cell ∧
        g.into_iter_list[ym * g.x_count + xm]? =
          some (⟨g.rect.x_min_boundary + (xm : Int),
            g.rect.y_max_boundary - (ym : Int)⟩, cell.value_opt)) := by
  obtain ⟨hxle, hyle, hrxc, hryc, hx1, hy1⟩ := grid_rect_facts g hb
  obtain ⟨hlen, hpt⟩ := (well_formed_iff g).mp hwf
  have hpb := bounds_new_geometric_rect g hxle hyle
  have hlen' : g.grid_data.length = g.rect.x_count * g.rect.y_count := by
    rw [hrxc, hryc]
    exact hlen
  have hw : ∀ a ∈ g.grid_data.enum,
      ((match (Bounds.new g.rect.x_min_boundary g.rect.x_geometric_len
          g.rect.y_min_boundary g.rect.y_geometric_len).rect.index_to_coordinate
            a.1 with
        | .ok c =>
          [(c, match a.2 with
            | .Object val => some val
            | .Empty _ => none)]
        | .error _ => []) : List (Coordinate × Option α)).length = 1 := by
    intro a ha
    rw [List.mem_iff_getElem?] at ha
    obtain ⟨k, hk⟩ := ha
    rw [List.getElem?_enum] at hk
    cases hck : g.grid_data[k]? with
    | none => rw [hck] at hk; cases hk
    | some cell =>
      rw [hck] at hk
      simp only [Option.map_some', Option.some.injEq] at hk
      have hklt : k < g.grid_data.length := by
        rw [List.getElem?_eq_some] at hck
        exact hck.1
      obtain ⟨c, hcok, _, _⟩ := g.rect.round_trip_index hxle hyle k
        (by rw [← hlen']; exact hklt)
      rw [hpb, ← hk]
      dsimp only
      rw [hcok]
      rfl
  have hL : g.into_iter_list.length = g.grid_data.length := by
    unfold Grid.into_iter_list
    dsimp only
    rw [flatMap_uniform_length _ _ 1 hw, List.enum_length, Nat.mul_one]
  refine ⟨hL, fun xm ym hxm hym => ?_⟩
  have hklt : ym * g.x_count + xm < g.grid_data.length := by
    rw [hlen]
    show _ < g.x_count * g.y_count
    calc ym * g.x_count + xm < ym * g.x_count + g.x_count := by omega
      _ = (ym + 1) * g.x_count := by rw [Nat.succ_mul]
      _ ≤ g.y_count * g.x_count := Nat.mul_le_mul_right _ hym
      _ = g.x_count * g.y_count := Nat.mul_comm _ _
  obtain ⟨cell, hcell⟩ : ∃ cell,
      g.grid_data[ym * g.x_count + xm]? = some cell := by
    cases hck : g.grid_data[ym * g.x_count + xm]? with
    | none =>
      rw [List.getElem?_eq_none_iff] at hck
      omega
    | some cell => exact ⟨cell, rfl⟩
  refine ⟨cell, hcell, ?_⟩
  show g.into_iter_list[ym * g.x_count + xm]? = _
  unfold Grid.into_iter_list
  dsimp only
  rw [show ym * g.x_count + xm = (ym * g.x_count + xm) * 1 + 0 from by omega,
    flatMap_uniform_getElem? _ _ 1 hw _ 0 (by omega)]
  rw [List.getElem?_enum, hcell]
  simp only [Option.map_some']
  have hidx : g.rect.index_to_coordinate (ym * g.x_count + xm) =
      .ok ⟨g.rect.x_min_boundary + (xm : Int),
        g.rect.y_max_boundary - (ym : Int)⟩ := by
    have hxm' : xm < g.rect.x_count := by rw [hrxc]; exact hxm
    have hym' : ym < g.rect.y_count := by rw [hryc]; exact hym
    have := g.rect.index_to_coordinate_of_split xm ym hxm'
    rw [show ym * g.x_count + xm = ym * g.rect.x_count + xm from by rw [hrxc],
      this, to_grid_like_ok g.rect hxle hyle xm ym hxm' hym']
  rw [hpb]
  rw [hidx]
  cases cell <;> rfl

/-- A run of `transpose_new` store steps over pairs that never target flat
index `j` of the fresh grid leaves that cell (plus bounds and length) as it
found them. -/
theorem transpose_fold_untouched {α : Type} (g : Grid α)
    (hb : g.bounds.origin_centered = true) (j : Nat) :
    ∀ (l : List (Coordinate × Option α)) (acc : Grid α),
      acc.bounds = (Grid.new g.y_count g.x_count : Grid α).bounds →
      acc.grid_data.length = g.x_count * g.y_count →
      (∀ q ∈ l, ∃ xm ym : Nat, xm < g.x_count ∧ ym < g.y_count ∧
        q.1 = ⟨g.rect.x_min_boundary + (xm : Int),
          g.rect.y_max_boundary - (ym : Int)⟩ ∧ ¬(xm * g.y_count + ym = j)) →
      (l.foldl (fun acc pair =>
        let m := (Bounds.new g.rect.x_min_boundary g.rect.x_geometric_len
          g.rect.y_min_boundary g.rect.y_geometric_len).rect.to_matrix_like
            pair.1
        match acc.rect.to_grid_like (m.2, m.1) with
        | .ok new_coordinate =>
          match pair.2 with
          | some e => (acc.store_element new_coordinate e).2
          | none => acc
        | .error _ => acc) acc).bounds = acc.bounds ∧
      (l.foldl (fun acc pair =>
        let m := (Bounds.new g.rect.x_min_boundary g.rect.x_geometric_len
          g.rect.y_min_boundary g.rect.y_geometric_len).rect.to_matrix_like
            pair.1
        match acc.rect.to_grid_like (m.2, m.1) with
        | .ok new_coordinate =>
          match pair.2 with
          | some e => (acc.store_element new_coordinate e).2
          | none => acc
        | .error _ => acc) acc).grid_data.length = acc.grid_data.length ∧
      (l.foldl (fun acc pair =>
        let m := (Bounds.new g.rect.x_min_boundary g.rect.x_geometric_len
          g.rect.y_min_boundary g.rect.y_geometric_len).rect.to_matrix_like
            pair.1
        match acc.rect.to_grid_like (m.2, m.1) with
        | .ok new_coordinate =>
          match pair.2 with
          | some e => (acc.store_element new_coordinate e).2
          | none => acc
        | .error _ => acc) acc).grid_data[j]? = acc.grid_data[j]? := by
  obtain ⟨hxle, hyle, hrxc, hryc, hx1, hy1⟩ := grid_rect_facts g hb
  intro l
  induction l with
  | nil => exact fun acc h1 h2 _ => ⟨rfl, rfl, rfl⟩
  | cons q rest ih =>
    intro acc h1 h2 hq
    obtain ⟨xm, ym, hxm, hym, hq1, hqj⟩ := hq q (List.Mem.head _)
    rw [List.foldl_cons]
    dsimp only
    rw [hq1, transpose_matrix_like g hxle hyle xm ym]
    dsimp only
    rw [(transpose_target_spec g acc hb h1 xm ym hxm hym).1]
    dsimp only
    cases hq2 : q.2 with
    | none =>
      exact ih acc h1 h2 fun p hp => hq p (List.Mem.tail _ hp)
    | some e =>
      dsimp only
      have hjlt : xm * g.y_count + ym < g.x_count * g.y_count := by
        calc xm * g.y_count + ym < xm * g.y_count + g.y_count := by omega
          _ = (xm + 1) * g.y_count := by rw [Nat.succ_mul]
          _ ≤ g.x_count * g.y_count := Nat.mul_le_mul_right _ hxm
      obtain ⟨cell, hcell, hst⟩ := store_element_spec acc _ e
        (xm * g.y_count + ym)
        (transpose_target_spec g acc hb h1 xm ym hxm hym).2
        (by rw [h2]; exact hjlt)
      rw [hst]
      dsimp only
      have hacc' : (Grid.mk (acc.grid_data.set (xm * g.y_count + ym)
          (.Object e)) acc.bounds : Grid α).bounds =
          (Grid.new g.y_count g.x_count : Grid α).bounds := h1
      have hlen' : (Grid.mk (acc.grid_data.set (xm * g.y_count + ym)
          (.Object e)) acc.bounds : Grid α).grid_data.length =
          g.x_count * g.y_count := by
        show (acc.grid_data.set _ _).length = _
        rw [List.length_set]
        exact h2
      have hrest := ih _ hacc' hlen'
        (fun p hp => hq p (List.Mem.tail _ hp))
      refine ⟨by rw [hrest.1], ?_, ?_⟩
      · rw [hrest.2.1]
        show (acc.grid_data.set _ _).length = _
        rw [List.length_set]
      · rw [hrest.2.2]
        show (acc.grid_data.set _ _)[j]? = _
        rw [List.getElem?_set_ne hqj]

/-- Uniqueness of the row-major decomposition of a flat index. -/
theorem rowmajor_inj (w a b c d : Nat) (hw : 0 < w) (hbw : b < w) (hdw : d < w)
    (h : a * w + b = c * w + d) : a = c ∧ b = d := by
  have h1 : (w * a + b) / w = a + b / w := Nat.mul_add_div hw a b
  have h2 : (w * c + d) / w = c + d / w := Nat.mul_add_div hw c d
  rw [Nat.div_eq_of_lt hbw] at h1
  rw [Nat.div_eq_of_lt hdw] at h2
  rw [Nat.mul_comm w a] at h1
  rw [Nat.mul_comm w c] at h2
  have hac : a = c := by
    rw [← Nat.add_zero a, ← h1, ← Nat.add_zero c, ← h2, h]
  refine ⟨hac, ?_⟩
  subst hac
  omega

/-- The storage of `transpose_new`, cell by cell: the fresh grid's cell at
matrix position `(my, mx)` receives the source's `Object` from matrix
position `(mx, my)` if there is one, else keeps its fresh placeholder. -/
theorem transpose_cells {α : Type} (g : Grid α)
    (hb : g.bounds.origin_centered = true) (hwf : g.well_formed = true)
    (mx my : Nat) (hmx : mx < g.x_count) (hmy : my < g.y_count) :
    (g.transpose_new).grid_data[mx * g.y_count + my]? =
      (match g.grid_data[my * g.x_count + mx]? with
        | some (.Object v) => some (.Object v)
        | _ =>
          (Grid.new g.y_count g.x_count : Grid α).grid_data[mx * g.y_count
            + my]?) := by
  obtain ⟨hxle, hyle, hrxc, hryc, hx1, hy1⟩ := grid_rect_facts g hb
  obtain ⟨hlen, hpt⟩ := (well_formed_iff g).mp hwf
  obtain ⟨hL, hget⟩ := into_iter_list_getElem g hb hwf
  obtain ⟨celli, hcelli, hli⟩ := hget mx my hmx hmy
  have hbF := (grid_new_wf α g.y_count g.x_count).1
  have hwfF := (grid_new_wf α g.y_count g.x_count).2
  have hlenF : (Grid.new g.y_count g.x_count : Grid α).grid_data.length =
      g.x_count * g.y_count := by
    obtain ⟨h1, _⟩ := (well_formed_iff _).mp hwfF
    rw [h1]
    obtain ⟨hFx, hFy⟩ := grid_new_counts α g.y_count g.x_count hy1 hx1
    show (Grid.new g.y_count g.x_count : Grid α).x_count *
      (Grid.new g.y_count g.x_count : Grid α).y_count = _
    rw [hFx, hFy, Nat.mul_comm]
  have hilt : my * g.x_count + mx < g.into_iter_list.length := by
    rw [hL, hlen]
    show _ < g.x_count * g.y_count
    calc my * g.x_count + mx < my * g.x_count + g.x_count := by omega
      _ = (my + 1) * g.x_count := by rw [Nat.succ_mul]
      _ ≤ g.y_count * g.x_count := Nat.mul_le_mul_right _ hmy
      _ = g.x_count * g.y_count := Nat.mul_comm _ _
  have hcond : ∀ k q, ¬(k = my * g.x_count + mx) →
      g.into_iter_list[k]? = some q →
      ∃ xm ym : Nat, xm < g.x_count ∧ ym < g.y_count ∧
        q.1 = ⟨g.rect.x_min_boundary + (xm : Int),
          g.rect.y_max_boundary - (ym : Int)⟩ ∧
        ¬(xm * g.y_count + ym = mx * g.y_count + my) := by
    intro k q hki hq
    have hk : k < g.into_iter_list.length := by
      rw [List.getElem?_eq_some] at hq
      exact hq.1
    have hx0 : 0 < g.x_count := hx1
    obtain ⟨xm, ym, hxm, hym, hdec⟩ :
        ∃ xm ym : Nat, xm < g.x_count ∧ ym < g.y_count ∧
          k = ym * g.x_count + xm := by
      refine ⟨k % g.x_count, k / g.x_count, Nat.mod_lt k hx0, ?_, ?_⟩
      · apply Nat.div_lt_of_lt_mul
        rw [hL, hlen] at hk
        show k < g.x_count * g.y_count
        exact hk
      · rw [Nat.mul_comm]
        exact (Nat.div_add_mod k g.x_count).symm
    obtain ⟨cellk, hcellk, hlk⟩ := hget xm ym hxm hym
    rw [hdec, hlk] at hq
    injection hq with hq
    refine ⟨xm, ym, hxm, hym, by rw [← hq], ?_⟩
    intro hcontra
    obtain ⟨hxeq, hyeq⟩ := rowmajor_inj g.y_count xm ym mx my hy1 hym hmy
      hcontra
    exact hki (by rw [hdec, hxeq, hyeq])
  have hcondTake : ∀ q ∈ g.into_iter_list.take (my * g.x_count + mx),
      ∃ xm ym : Nat, xm < g.x_count ∧ ym < g.y_count ∧
        q.1 = ⟨g.rect.x_min_boundary + (xm : Int),
          g.rect.y_max_boundary - (ym : Int)⟩ ∧
        ¬(xm * g.y_count + ym = mx * g.y_count + my) := by
    intro q hq
    rw [List.mem_iff_getElem?] at hq
    obtain ⟨k, hk⟩ := hq
    rw [List.getElem?_take] at hk
    by_cases hki : k < my * g.x_count + mx
    · rw [if_pos hki] at hk
      exact hcond k q (by omega) hk
    · rw [if_neg hki] at hk
      cases hk
  have hcondDrop : ∀ q ∈ g.into_iter_list.drop (my * g.x_count + mx + 1),
      ∃ xm ym : Nat, xm < g.x_count ∧ ym < g.y_count ∧
        q.1 = ⟨g.rect.x_min_boundary + (xm : Int),
          g.rect.y_max_boundary - (ym : Int)⟩ ∧
        ¬(xm * g.y_count + ym = mx * g.y_count + my) := by
    intro q hq
    rw [List.mem_iff_getElem?] at hq
    obtain ⟨k, hk⟩ := hq
    rw [List.getElem?_drop] at hk
    exact hcond (my * g.x_count + mx + 1 + k) q (by omega) hk
  have hex : ∃ h : my * g.x_count + mx < g.into_iter_list.length,
      g.into_iter_list[my * g.x_count + mx] =
        (⟨g.rect.x_min_boundary + (mx : Int),
          g.rect.y_max_boundary - (my : Int)⟩, celli.value_opt) := by
    rw [← List.getElem?_eq_some]
    exact hli
  obtain ⟨higet, higetv⟩ := hex
  show (List.foldl (fun acc pair =>
      let m := (Bounds.new g.rect.x_min_boundary g.rect.x_geometric_len
        g.rect.y_min_boundary g.rect.y_geometric_len).rect.to_matrix_like
          pair.1
      match acc.rect.to_grid_like (m.2, m.1) with
      | .ok new_coordinate =>
        match pair.2 with
        | some e => (acc.store_element new_coordinate e).2
        | none => acc
      | .error _ => acc)
      (Grid.new g.y_count g.x_count : Grid α)
      g.into_iter_list).grid_data[mx * g.y_count + my]? = _
  rw [← List.take_append_drop (my * g.x_count + mx) g.into_iter_list,
    List.foldl_append, List.drop_eq_getElem_cons higet, List.foldl_cons]
  set PRE : Grid α := List.foldl (fun acc pair =>
      let m := (Bounds.new g.rect.x_min_boundary g.rect.x_geometric_len
        g.rect.y_min_boundary g.rect.y_geometric_len).rect.to_matrix_like
          pair.1
      match acc.rect.to_grid_like (m.2, m.1) with
      | .ok new_coordinate =>
        match pair.2 with
        | some e => (acc.store_element new_coordinate e).2
        | none => acc
      | .error _ => acc)
      (Grid.new g.y_count g.x_count : Grid α)
      (g.into_iter_list.take (my * g.x_count + mx)) with hPRE
  have hpre := transpose_fold_untouched g hb (mx * g.y_count + my)
    (g.into_iter_list.take (my * g.x_count + mx))
    (Grid.new g.y_count g.x_count : Grid α) rfl hlenF hcondTake
  rw [← hPRE] at hpre
  have hprelen : PRE.grid_data.length = g.x_count * g.y_count := by
    rw [hpre.2.1]
    exact hlenF
  have hjlt : mx * g.y_count + my < g.x_count * g.y_count := by
    calc mx * g.y_count + my < mx * g.y_count + g.y_count := by omega
      _ = (mx + 1) * g.y_count := by rw [Nat.succ_mul]
      _ ≤ g.x_count * g.y_count := Nat.mul_le_mul_right _ hmx
  rw [higetv]
  dsimp only
  rw [transpose_matrix_like g hxle hyle mx my]
  dsimp only
  rw [(transpose_target_spec g PRE hb hpre.1 mx my hmx hmy).1]
  dsimp only
  cases celli with
  | Object v =>
    simp only [GridCoordinate.value_opt]
    obtain ⟨cell2, hcell2, hst⟩ := store_element_spec PRE _ v
      (mx * g.y_count + my)
      (transpose_target_spec g PRE hb hpre.1 mx my hmx hmy).2
      (by rw [hprelen]; exact hjlt)
    rw [hst]
    dsimp only
    have hacc2 : (Grid.mk (PRE.grid_data.set (mx * g.y_count + my)
        (.Object v)) PRE.bounds : Grid α).bounds =
        (Grid.new g.y_count g.x_count : Grid α).bounds := hpre.1
    have hlen2 : (Grid.mk (PRE.grid_data.set (mx * g.y_count + my)
        (.Object v)) PRE.bounds : Grid α).grid_data.length =
        g.x_count * g.y_count := by
      show (PRE.grid_data.set _ _).length = _
      rw [List.length_set]
      exact hprelen
    rw [(transpose_fold_untouched g hb (mx * g.y_count + my)
      (g.into_iter_list.drop (my * g.x_count + mx + 1)) _ hacc2 hlen2
      hcondDrop).2.2]
    show (PRE.grid_data.set (mx * g.y_count + my)
      (.Object v))[mx * g.y_count + my]? = _
    rw [List.getElem?_set_self (by rw [hprelen]; exact hjlt), hcelli]
  | Empty c0 =>
    simp only [GridCoordinate.value_opt]
    rw [(transpose_fold_untouched g hb (mx * g.y_count + my)
      (g.into_iter_list.drop (my * g.x_count + mx + 1)) _ hpre.1 hprelen
      hcondDrop).2.2]
    rw [hpre.2.2, hcelli]

/-- The counts of a transposed grid are the source's counts swapped. -/
theorem transpose_counts {α : Type} (g : Grid α)
    (hb : g.bounds.origin_centered = true) :
    (g.transpose_new).x_count = g.y_count ∧
      (g.transpose_new).y_count = g.x_count := by
  obtain ⟨_, _, _, _, hx1, hy1⟩ := grid_rect_facts g hb
  obtain ⟨hFx, hFy⟩ := grid_new_counts α g.y_count g.x_count hy1 hx1
  have hbt := (transpose_new_wf g).1
  constructor
  · show (g.transpose_new).bounds.x_count = g.y_count
    rw [hbt]
    exact hFx
  · show (g.transpose_new).bounds.y_count = g.x_count
    rw [hbt]
    exact hFy

/-- A single transpose moves the stored value of matrix position `(mx, my)`
to matrix position `(my, mx)` of the transposed grid, for every position. -/
theorem transpose_element_unchecked {α : Type} (g : Grid α)
    (hb : g.bounds.origin_centered = true) (hwf : g.well_formed = true)
    (mx my : Nat) (hmx : mx < g.x_count) (hmy : my < g.y_count) :
    (g.transpose_new).element_unchecked
        ⟨(g.transpose_new).rect.x_min_boundary + (my : Int),
          (g.transpose_new).rect.y_max_boundary - (mx : Int)⟩ =
      g.element_unchecked
        ⟨g.rect.x_min_boundary + (mx : Int),
          g.rect.y_max_boundary - (my : Int)⟩ := by
  obtain ⟨hxle, hyle, hrxc, hryc, hx1, hy1⟩ := grid_rect_facts g hb
  obtain ⟨hlen, hpt⟩ := (well_formed_iff g).mp hwf
  have ht := transpose_new_wf g
  have hokt := (transpose_target_spec g (g.transpose_new) hb ht.1 mx my
    hmx hmy).2
  have hwin : g.rect.is_within_bounds
      ⟨g.rect.x_min_boundary + (mx : Int),
        g.rect.y_max_boundary - (my : Int)⟩ = true := by
    rw [Rect.is_within_bounds_iff]
    dsimp only
    have h1 : (mx : Int) < (g.rect.x_count : Int) := by
      rw [hrxc]
      exact_mod_cast hmx
    have h2 : (my : Int) < (g.rect.y_count : Int) := by
      rw [hryc]
      exact_mod_cast hmy
    rw [g.rect.x_count_cast hxle] at h1
    rw [g.rect.y_count_cast hyle] at h2
    refine ⟨by omega, by omega, by omega, by omega⟩
  obtain ⟨hokg, _⟩ := g.rect.coordinate_to_index_ok _ hwin
  have hokg' : g.rect.coordinate_to_index
      ⟨g.rect.x_min_boundary + (mx : Int),
        g.rect.y_max_boundary - (my : Int)⟩ =
      .ok (my * g.x_count + mx) := by
    rw [hokg]
    congr 1
    rw [show (g.rect.y_max_boundary -
        (g.rect.y_max_boundary - (my : Int))).toNat = my from by omega,
      show ((g.rect.x_min_boundary + (mx : Int)) -
        g.rect.x_min_boundary).toNat = mx from by omega, hrxc]
  have hklt : my * g.x_count + mx < g.grid_data.length := by
    rw [hlen]
    show _ < g.x_count * g.y_count
    calc my * g.x_count + mx < my * g.x_count + g.x_count := by omega
      _ = (my + 1) * g.x_count := by rw [Nat.succ_mul]
      _ ≤ g.y_count * g.x_count := Nat.mul_le_mul_right _ hmy
      _ = g.x_count * g.y_count := Nat.mul_comm _ _
  obtain ⟨cell, hcell⟩ : ∃ cell,
      g.grid_data[my * g.x_count + mx]? = some cell := by
    cases hck : g.grid_data[my * g.x_count + mx]? with
    | none =>
      rw [List.getElem?_eq_none_iff] at hck
      omega
    | some cell => exact ⟨cell, rfl⟩
  unfold Grid.element_unchecked
  rw [hokt, hokg']
  dsimp only
  rw [transpose_cells g hb hwf mx my hmx hmy, hcell]
  cases cell with
  | Object v => rfl
  | Empty c0 =>
    dsimp only
    cases hfd : (Grid.new g.y_count g.x_count :
        Grid α).grid_data[mx * g.y_count + my]? with
    | none => rfl
    | some fc =>
      cases fc with
      | Object v => exact absurd hfd (fresh_no_object g.y_count g.x_count _ v)
      | Empty c1 => rfl

/-- Transposing twice restores both counts and the stored value of every
coordinate. -/
theorem transpose_transpose_spec {α : Type} (g : Grid α)
    (hb : g.bounds.origin_centered = true) (hwf : g.well_formed = true) :
    ((g.transpose_new).transpose_new).x_count = g.x_count ∧
      ((g.transpose_new).transpose_new).y_count = g.y_count ∧
      ∀ c : Coordinate,
        ((g.transpose_new).transpose_new).element_unchecked c =
          g.element_unchecked c := by
  obtain ⟨hxle, hyle, hrxc, hryc, hx1, hy1⟩ := grid_rect_facts g hb
  obtain ⟨hlen, hpt⟩ := (well_formed_iff g).mp hwf
  have ht := transpose_new_wf g
  have hbt : (g.transpose_new).bounds.origin_centered = true := by
    rw [ht.1]
    exact (grid_new_wf α g.y_count g.x_count).1
  have hwft := ht.2
  have htc := transpose_counts g hb
  have ht2c := transpose_counts (g.transpose_new) hbt
  have ht2x : ((g.transpose_new).transpose_new).x_count = g.x_count := by
    rw [ht2c.1, htc.2]
  have ht2y : ((g.transpose_new).transpose_new).y_count = g.y_count := by
    rw [ht2c.2, htc.1]
  have ht2rect : ((g.transpose_new).transpose_new).rect = g.rect := by
    show (⟨origin_centered_x_min ((g.transpose_new).transpose_new).x_count,
      origin_centered_x_max ((g.transpose_new).transpose_new).x_count,
      origin_centered_y_min ((g.transpose_new).transpose_new).y_count,
      origin_centered_y_max ((g.transpose_new).transpose_new).y_count⟩ :
        Rect) = _
    rw [ht2x, ht2y]
    rfl
  refine ⟨ht2x, ht2y, fun c => ?_⟩
  unfold Grid.element_unchecked
  rw [ht2rect]
  cases hok : g.rect.coordinate_to_index c with
  | error e => rfl
  | ok i =>
    dsimp only
    have hwin := (coordinate_to_index_back g.rect c i hok).1
    obtain ⟨hokg, hiltr⟩ := g.rect.coordinate_to_index_ok c hwin
    rw [hok] at hokg
    injection hokg with hokg
    obtain ⟨hw1, hw2, hw3, hw4⟩ := (g.rect.is_within_bounds_iff c).mp hwin
    have hycast := g.rect.y_count_cast hyle
    have hxcast := g.rect.x_count_cast hxle
    rw [hryc] at hycast
    rw [hrxc] at hxcast
    have ha : (g.rect.y_max_boundary - c.y).toNat < g.y_count := by omega
    have hbx : (c.x - g.rect.x_min_boundary).toNat < g.x_count := by omega
    have hieq : i = (g.rect.y_max_boundary - c.y).toNat * g.x_count +
        (c.x - g.rect.x_min_boundary).toNat := by
      rw [hokg, hrxc]
    have hilt : i < g.grid_data.length := by
      rw [hlen]
      show _ < g.x_count * g.y_count
      rw [← hrxc, ← hryc, hokg]
      exact hiltr
    have h2 := transpose_cells (g.transpose_new) hbt hwft
      ((g.rect.y_max_boundary - c.y).toNat)
      ((c.x - g.rect.x_min_boundary).toNat)
      (by rw [htc.1]; exact ha) (by rw [htc.2]; exact hbx)
    rw [htc.1, htc.2] at h2
    have h1 := transpose_cells g hb hwf
      ((c.x - g.rect.x_min_boundary).toNat)
      ((g.rect.y_max_boundary - c.y).toNat) hbx ha
    rw [h1] at h2
    rw [hieq]
    rw [h2]
    obtain ⟨cell, hcell⟩ : ∃ cell,
        g.grid_data[(g.rect.y_max_boundary - c.y).toNat * g.x_count +
          (c.x - g.rect.x_min_boundary).toNat]? = some cell := by
      rw [← hieq]
      cases hck : g.grid_data[i]? with
      | none =>
        rw [List.getElem?_eq_none_iff] at hck
        omega
      | some cell => exact ⟨cell, rfl⟩
    rw [hcell]
    cases cell with
    | Object v => rfl
    | Empty c0 =>
      dsimp only
      cases hfd1 : (Grid.new g.y_count g.x_count :
          Grid α).grid_data[(c.x - g.rect.x_min_boundary).toNat * g.y_count +
            (g.rect.y_max_boundary - c.y).toNat]? with
      | none =>
        dsimp only
        cases hfd2 : (Grid.new g.x_count g.y_count :
            Grid α).grid_data[(g.rect.y_max_boundary - c.y).toNat *
              g.x_count + (c.x - g.rect.x_min_boundary).toNat]? with
        | none => rfl
        | some fc2 =>
          cases fc2 with
          | Object v =>
            exact absurd hfd2 (fresh_no_object g.x_count g.y_count _ v)
          | Empty c2 => rfl
      | some fc1 =>
        cases fc1 with
        | Object v =>
          exact absurd hfd1 (fresh_no_object g.y_count g.x_count _ v)
        | Empty c1 =>
          dsimp only
          cases hfd2 : (Grid.new g.x_count g.y_count :
              Grid α).grid_data[(g.rect.y_max_boundary - c.y).toNat *
                g.x_count + (c.x - g.rect.x_min_boundary).toNat]? with
          | none => rfl
          | some fc2 =>
            cases fc2 with
            | Object v =>
              exact absurd hfd2 (fresh_no_object g.x_count g.y_count _ v)
            | Empty c2 => rfl

/-- **C4.** For every grid with origin-centered bounds and well-formed
storage (the invariant every API-reachable grid maintains), a single
`transpose` swaps `x_count` with `y_count` and moves the stored value of each
matrix-like position `(mx, my)` to position `(my, mx)` of the result, and
applying `transpose` twice yields a grid equal to the original in shape
(`x_count` and `y_count`) and in occupancy (the stored value of every
coordinate, hence the same set of occupied coordinates), for arbitrary
occupancy patterns. -/
theorem claim_c4_transpose_self_inverse (α : Type) (g : Grid α)
    (hb : g.bounds.origin_centered = true) (hwf : g.well_formed = true) :
    ((g.transpose_new).x_count = g.y_count ∧
      (g.transpose_new).y_count = g.x_count) ∧
    (∀ mx my : Nat, mx < g.x_count → my < g.y_count →
      (g.transpose_new).element_unchecked
          ⟨(g.transpose_new).rect.x_min_boundary + (my : Int),
            (g.transpose_new).rect.y_max_boundary - (mx : Int)⟩ =
        g.element_unchecked
          ⟨g.rect.x_min_boundary + (mx : Int),
            g.rect.y_max_boundary - (my : Int)⟩) ∧
    (((g.transpose_new).transpose_new).x_count = g.x_count ∧
      ((g.transpose_new).transpose_new).y_count = g.y_count) ∧
    (∀ c : Coordinate,
      ((g.transpose_new).transpose_new).element_unchecked c =
        g.element_unchecked c) := by
  obtain ⟨h2x, h2y, h2e⟩ := transpose_transpose_spec g hb hwf
  exact ⟨transpose_counts g hb,
    fun mx my hmx hmy => transpose_element_unchecked g hb hwf mx my hmx hmy,
    ⟨h2x, h2y⟩, h2e⟩

/-- Concrete witness for the transpose claim: a `2 × 3` grid holding one
element at `(0, 1)`. -/
theorem claim_c4_witness :
    (((((Grid.new 2 3 : Grid Unit).store_element ⟨0, 1⟩
          ()).2).transpose_new).x_count =
        (((Grid.new 2 3 : Grid Unit).store_element ⟨0, 1⟩ ()).2).y_count ∧
      ((((Grid.new 2 3 : Grid Unit).store_element ⟨0, 1⟩
          ()).2).transpose_new).y_count =
        (((Grid.new 2 3 : Grid Unit).store_element ⟨0, 1⟩ ()).2).x_count) ∧
    (∀ mx my : Nat,
      mx < (((Grid.new 2 3 : Grid Unit).store_element ⟨0, 1⟩
        ()).2).x_count →
      my < (((Grid.new 2 3 : Grid Unit).store_element ⟨0, 1⟩
        ()).2).y_count →
      ((((Grid.new 2 3 : Grid Unit).store_element ⟨0, 1⟩
          ()).2).transpose_new).element_unchecked
          ⟨((((Grid.new 2 3 : Grid Unit).store_element ⟨0, 1⟩
              ()).2).transpose_new).rect.x_min_boundary + (my : Int),
            ((((Grid.new 2 3 : Grid Unit).store_element ⟨0, 1⟩
              ()).2).transpose_new).rect.y_max_boundary - (mx : Int)⟩ =
        (((Grid.new 2 3 : Grid Unit).store_element ⟨0, 1⟩
          ()).2).element_unchecked
          ⟨(((Grid.new 2 3 : Grid Unit).store_element ⟨0, 1⟩
              ()).2).rect.x_min_boundary + (mx : Int),
            (((Grid.new 2 3 : Grid Unit).store_element ⟨0, 1⟩
              ()).2).rect.y_max_boundary - (my : Int)⟩) ∧
    ((((((Grid.new 2 3 : Grid Unit).store_element ⟨0, 1⟩
          ()).2).transpose_new).transpose_new).x_count =
        (((Grid.new 2 3 : Grid Unit).store_element ⟨0, 1⟩ ()).2).x_count ∧
      (((((Grid.new 2 3 : Grid Unit).store_element ⟨0, 1⟩
          ()).2).transpose_new).transpose_new).y_count =
        (((Grid.new 2 3 : Grid Unit).store_element ⟨0, 1⟩ ()).2).y_count) ∧
    (∀ c : Coordinate,
      (((((Grid.new 2 3 : Grid Unit).store_element ⟨0, 1⟩
          ()).2).transpose_new).transpose_new).element_unchecked c =
        (((Grid.new 2 3 : Grid Unit).store_element ⟨0, 1⟩
          ()).2).element_unchecked c) :=
  claim_c4_transpose_self_inverse Unit
    (((Grid.new 2 3 : Grid Unit).store_element ⟨0, 1⟩ ()).2)
    (by rfl) (by rfl)

/-- How `%` and `/` step when the dividend grows by one. -/
theorem mod_div_succ (w k : Nat) (hw : 0 < w) :
    (k % w + 1 < w → (k + 1) % w = k % w + 1 ∧ (k + 1) / w = k / w) ∧
    (k % w + 1 = w → (k + 1) % w = 0 ∧ (k + 1) / w = k / w + 1) := by
  have h1 : w * (k / w) + k % w = k := Nat.div_add_mod k w
  have h2 : w * ((k + 1) / w) + (k + 1) % w = k + 1 := Nat.div_add_mod (k + 1) w
  have hb2 : (k + 1) % w < w := Nat.mod_lt _ hw
  constructor
  · intro hlt
    have heq0 : w * ((k + 1) / w) + (k + 1) % w = w * (k / w) + (k % w + 1) := by
      omega
    rw [Nat.mul_comm w ((k + 1) / w), Nat.mul_comm w (k / w)] at heq0
    obtain ⟨ha, hb⟩ := rowmajor_inj w ((k + 1) / w) ((k + 1) % w) (k / w)
      (k % w + 1) hw hb2 hlt heq0
    exact ⟨hb, ha⟩
  · intro heqw
    have hm : w * (k / w + 1) = w * (k / w) + w := Nat.mul_succ w (k / w)
    have heq0 : w * ((k + 1) / w) + (k + 1) % w = w * (k / w + 1) + 0 := by
      omega
    rw [Nat.mul_comm w ((k + 1) / w), Nat.mul_comm w (k / w + 1)] at heq0
    obtain ⟨ha, hb⟩ := rowmajor_inj w ((k + 1) / w) ((k + 1) % w) (k / w + 1)
      0 hw hb2 hw heq0
    exact ⟨hb, ha⟩

/-- One `GridIter` cursor advancement from the cell at matrix distances
`(kx, ky)`: East within the row, West-reset one row South at the row's end,
and the southeast corner is exactly the last cell. -/
theorem cursor_next_step (r : Rect)
    (hxle : r.x_min_boundary ≤ r.x_max_boundary)
    (hyle : r.y_min_boundary ≤ r.y_max_boundary) (kx ky : Nat)
    (hkx : kx < r.x_count) (hky : ky < r.y_count) :
    (kx + 1 < r.x_count →
      r.cursor_next ⟨r.x_min_boundary + (kx : Int),
          r.y_max_boundary - (ky : Int)⟩ =
        ⟨r.x_min_boundary + ((kx + 1 : Nat) : Int),
          r.y_max_boundary - (ky : Int)⟩) ∧
    (kx + 1 = r.x_count → ky + 1 < r.y_count →
      r.cursor_next ⟨r.x_min_boundary + (kx : Int),
          r.y_max_boundary - (ky : Int)⟩ =
        ⟨r.x_min_boundary, r.y_max_boundary - ((ky + 1 : Nat) : Int)⟩) ∧
    (kx + 1 = r.x_count → ky + 1 = r.y_count →
      (⟨r.x_min_boundary + (kx : Int), r.y_max_boundary - (ky : Int)⟩ :
        Coordinate) = r.southeast_corner) ∧
    ((kx + 1 < r.x_count ∨ ky + 1 < r.y_count) →
      ¬((⟨r.x_min_boundary + (kx : Int), r.y_max_boundary - (ky : Int)⟩ :
        Coordinate) = r.southeast_corner)) := by
  have hxc := r.x_count_cast hxle
  have hyc := r.y_count_cast hyle
  have hkxI : (kx : Int) < (r.x_count : Int) := by exact_mod_cast hkx
  have hkyI : (ky : Int) < (r.y_count : Int) := by exact_mod_cast hky
  refine ⟨?_, ?_, ?_, ?_⟩
  · intro hlt
    have hltI : ((kx + 1 : Nat) : Int) < (r.x_count : Int) := by
      exact_mod_cast hlt
    unfold Rect.cursor_next Rect.clamped_move Coordinate.coordinate_in_direction
    dsimp only
    push_cast
    have hx : max (min (r.x_min_boundary + (kx : Int) + 1) r.x_max_boundary)
        r.x_min_boundary = r.x_min_boundary + (kx : Int) + 1 := by
      push_cast at hltI
      omega
    have hy : max (min (r.y_max_boundary - (ky : Int)) r.y_max_boundary)
        r.y_min_boundary = r.y_max_boundary - (ky : Int) := by
      omega
    rw [hx, hy]
    have hne : (⟨r.x_min_boundary + (kx : Int), r.y_max_boundary - (ky : Int)⟩ :
        Coordinate) ≠
        ⟨r.x_min_boundary + (kx : Int) + 1, r.y_max_boundary - (ky : Int)⟩ := by
      intro hcon
      injection hcon with hcx hcy
      omega
    rw [decide_eq_true hne, if_pos rfl]
    congr 1
    omega
  · intro heq hky1
    have hky1I : ((ky + 1 : Nat) : Int) < (r.y_count : Int) := by
      exact_mod_cast hky1
    unfold Rect.cursor_next Rect.clamped_move Coordinate.coordinate_in_direction
    dsimp only
    push_cast
    have hkxtop : r.x_min_boundary + (kx : Int) = r.x_max_boundary := by
      have : ((kx + 1 : Nat) : Int) = (r.x_count : Int) := by exact_mod_cast heq
      push_cast at this
      omega
    have hx : max (min (r.x_min_boundary + (kx : Int) + 1) r.x_max_boundary)
        r.x_min_boundary = r.x_min_boundary + (kx : Int) := by
      omega
    have hy : max (min (r.y_max_boundary - (ky : Int)) r.y_max_boundary)
        r.y_min_boundary = r.y_max_boundary - (ky : Int) := by
      omega
    rw [hx, hy]
    have heqc : (⟨r.x_min_boundary + (kx : Int), r.y_max_boundary - (ky : Int)⟩ :
        Coordinate) =
        ⟨r.x_min_boundary + (kx : Int), r.y_max_boundary - (ky : Int)⟩ := rfl
    rw [show decide ((⟨r.x_min_boundary + (kx : Int),
        r.y_max_boundary - (ky : Int)⟩ : Coordinate) ≠
        ⟨r.x_min_boundary + (kx : Int), r.y_max_boundary - (ky : Int)⟩) = false
      from by rw [decide_eq_false]; intro hcon; exact hcon rfl]
    rw [if_neg (by intro hcon; cases hcon)]
    have hys : max (min (r.y_max_boundary - (ky : Int) - 1) r.y_max_boundary)
        r.y_min_boundary = r.y_max_boundary - (ky : Int) - 1 := by
      push_cast at hky1I
      omega
    rw [hys]
    have hx2 : max (min (r.x_min_boundary + (kx : Int)) r.x_max_boundary)
        r.x_min_boundary = r.x_min_boundary + (kx : Int) := by
      omega
    rw [hx2]
    have hne2 : (⟨r.x_min_boundary + (kx : Int),
        r.y_max_boundary - (ky : Int)⟩ : Coordinate) ≠
        ⟨r.x_min_boundary + (kx : Int), r.y_max_boundary - (ky : Int) - 1⟩ := by
      intro hcon
      injection hcon with hcx hcy
      omega
    rw [decide_eq_true hne2, if_pos rfl]
    congr 1
    omega
  · intro heqx heqy
    unfold Rect.southeast_corner
    have h1 : ((kx + 1 : Nat) : Int) = (r.x_count : Int) := by exact_mod_cast heqx
    have h2 : ((ky + 1 : Nat) : Int) = (r.y_count : Int) := by exact_mod_cast heqy
    push_cast at h1 h2
    congr 1 <;> omega
  · intro hor hcon
    injection hcon with hcx hcy
    rcases hor with h | h
    · have : ((kx + 1 : Nat) : Int) < (r.x_count : Int) := by exact_mod_cast h
      push_cast at this
      omega
    · have : ((ky + 1 : Nat) : Int) < (r.y_count : Int) := by exact_mod_cast h
      push_cast at this
      omega

/-- The cursor scan starting at flat index `k` of the row-major order visits
exactly the remaining cells, in row-major order. -/
theorem cursor_positions_eq (r : Rect)
    (hxle : r.x_min_boundary ≤ r.x_max_boundary)
    (hyle : r.y_min_boundary ≤ r.y_max_boundary) :
    ∀ (n k : Nat), k + n = r.x_count * r.y_count →
      r.cursor_positions
          ⟨r.x_min_boundary + ((k % r.x_count : Nat) : Int),
            r.y_max_boundary - ((k / r.x_count : Nat) : Int)⟩ n =
        (List.range' k n).map (fun t =>
          (⟨r.x_min_boundary + ((t % r.x_count : Nat) : Int),
            r.y_max_boundary - ((t / r.x_count : Nat) : Int)⟩ : Coordinate)) := by
  intro n
  induction n with
  | zero => intro k hk; rfl
  | succ m ih =>
    intro k hk
    have hw0 : 0 < r.x_count := by
      simp only [Rect.x_count]
      omega
    have hh0 : 0 < r.y_count := by
      simp only [Rect.y_count]
      omega
    have hklt : k < r.x_count * r.y_count := by omega
    have hkx : k % r.x_count < r.x_count := Nat.mod_lt _ hw0
    have hky : k / r.x_count < r.y_count := by
      apply Nat.div_lt_of_lt_mul
      exact hklt
    obtain ⟨hstepE, hstepS, hSE, hnSE⟩ := cursor_next_step r hxle hyle
      (k % r.x_count) (k / r.x_count) hkx hky
    show (⟨r.x_min_boundary + ((k % r.x_count : Nat) : Int),
        r.y_max_boundary - ((k / r.x_count : Nat) : Int)⟩ : Coordinate) ::
      (if (⟨r.x_min_boundary + ((k % r.x_count : Nat) : Int),
          r.y_max_boundary - ((k / r.x_count : Nat) : Int)⟩ : Coordinate) =
          r.southeast_corner then []
        else r.cursor_positions (r.cursor_next
          ⟨r.x_min_boundary + ((k % r.x_count : Nat) : Int),
            r.y_max_boundary - ((k / r.x_count : Nat) : Int)⟩) m) =
      (List.range' k (m + 1)).map _
    rw [List.range'_succ, List.map_cons]
    congr 1
    cases m with
    | zero =>
      split
      · rfl
      · rfl
    | succ m' =>
      -- at least two cells remain, so we are not at the southeast corner
      have hi : k + 1 < r.x_count * r.y_count := by omega
      have hcase : k % r.x_count + 1 < r.x_count ∨
          (k % r.x_count + 1 = r.x_count ∧
            k / r.x_count + 1 < r.y_count) := by
        by_cases hx : k % r.x_count + 1 < r.x_count
        · exact Or.inl hx
        · refine Or.inr ⟨by omega, ?_⟩
          by_contra hy
          have hyeq : k / r.x_count + 1 = r.y_count := by omega
          have hdm := Nat.div_add_mod k r.x_count
          have hprod : r.x_count * (k / r.x_count) + r.x_count =
              r.x_count * (k / r.x_count + 1) := (Nat.mul_succ _ _).symm
          have : k + 1 = r.x_count * r.y_count := by
            rw [← hyeq, ← hprod]
            omega
          omega
      have hne : ¬((⟨r.x_min_boundary + ((k % r.x_count : Nat) : Int),
          r.y_max_boundary - ((k / r.x_count : Nat) : Int)⟩ : Coordinate) =
          r.southeast_corner) := by
        apply hnSE
        rcases hcase with h | h
        · exact Or.inl h
        · exact Or.inr h.2
      rw [if_neg hne]
      obtain ⟨hm1, hm2⟩ := mod_div_succ r.x_count k hw0
      rcases hcase with h | h
      · obtain ⟨hmod, hdiv⟩ := hm1 h
        rw [hstepE h]
        have hthis := ih (k + 1) (by omega)
        rw [hmod, hdiv] at hthis
        exact hthis
      · obtain ⟨hmod, hdiv⟩ := hm2 h.1
        rw [hstepS h.1 h.2]
        have hthis := ih (k + 1) (by omega)
        rw [hmod, hdiv] at hthis
        rw [show r.x_min_boundary + ((0 : Nat) : Int) = r.x_min_boundary from by
          push_cast
          ring] at hthis
        exact hthis

/-- The row-major cell of flat index `t`: its coordinate, both conversions,
and membership. -/
theorem index_facts (r : Rect)
    (hxle : r.x_min_boundary ≤ r.x_max_boundary)
    (hyle : r.y_min_boundary ≤ r.y_max_boundary)
    (t : Nat) (ht : t < r.x_count * r.y_count) :
    r.index_to_coordinate t =
      .ok ⟨r.x_min_boundary + ((t % r.x_count : Nat) : Int),
        r.y_max_boundary - ((t / r.x_count : Nat) : Int)⟩ ∧
    r.is_within_bounds
      ⟨r.x_min_boundary + ((t % r.x_count : Nat) : Int),
        r.y_max_boundary - ((t / r.x_count : Nat) : Int)⟩ = true ∧
    r.coordinate_to_index
      ⟨r.x_min_boundary + ((t % r.x_count : Nat) : Int),
        r.y_max_boundary - ((t / r.x_count : Nat) : Int)⟩ = .ok t := by
  have hw0 : 0 < r.x_count := by
    simp only [Rect.x_count]
    omega
  have hmx : t % r.x_count < r.x_count := Nat.mod_lt _ hw0
  have hmy : t / r.x_count < r.y_count := Nat.div_lt_of_lt_mul ht
  have hsplit : t = t / r.x_count * r.x_count + t % r.x_count := by
    rw [Nat.mul_comm]
    exact (Nat.div_add_mod t r.x_count).symm
  have hgl := to_grid_like_ok r hxle hyle (t % r.x_count) (t / r.x_count)
    hmx hmy
  have hback : r.index_to_coordinate t =
      .ok ⟨r.x_min_boundary + ((t % r.x_count : Nat) : Int),
        r.y_max_boundary - ((t / r.x_count : Nat) : Int)⟩ := by
    have hof := r.index_to_coordinate_of_split (t % r.x_count) (t / r.x_count)
      hmx
    rw [← hsplit] at hof
    rw [hof, hgl]
  have hwin : r.is_within_bounds
      ⟨r.x_min_boundary + ((t % r.x_count : Nat) : Int),
        r.y_max_boundary - ((t / r.x_count : Nat) : Int)⟩ = true := by
    rw [Rect.is_within_bounds_iff]
    dsimp only
    have h1 : ((t % r.x_count : Nat) : Int) < (r.x_count : Int) := by
      exact_mod_cast hmx
    have h2 : ((t / r.x_count : Nat) : Int) < (r.y_count : Int) := by
      exact_mod_cast hmy
    rw [r.x_count_cast hxle] at h1
    rw [r.y_count_cast hyle] at h2
    have h3 : (0 : Int) ≤ ((t % r.x_count : Nat) : Int) := by
      exact_mod_cast Nat.zero_le _
    have h4 : (0 : Int) ≤ ((t / r.x_count : Nat) : Int) := by
      exact_mod_cast Nat.zero_le _
    refine ⟨by omega, by omega, by omega, by omega⟩
  refine ⟨hback, hwin, ?_⟩
  obtain ⟨hok, _⟩ := r.coordinate_to_index_ok _ hwin
  rw [hok]
  have h4 : (0 : Int) ≤ ((t / r.x_count : Nat) : Int) := by
    exact_mod_cast Nat.zero_le _
  have h3 : (0 : Int) ≤ ((t % r.x_count : Nat) : Int) := by
    exact_mod_cast Nat.zero_le _
  congr 1
  rw [show (r.y_max_boundary -
      (r.y_max_boundary - ((t / r.x_count : Nat) : Int))).toNat =
      t / r.x_count from by omega,
    show ((r.x_min_boundary + ((t % r.x_count : Nat) : Int)) -
      r.x_min_boundary).toNat = t % r.x_count from by omega]
  omega

/-- Looking up a coordinate outside the boundaries yields nothing. -/
theorem element_unchecked_oob {α : Type} (g : Grid α) (c : Coordinate)
    (h : g.rect.is_within_bounds c = false) :
    g.element_unchecked c = none := by
  unfold Grid.element_unchecked Rect.coordinate_to_index
  rw [h]
  rfl

/-- The value the grid reports for the cell of flat index `t`. -/
theorem element_unchecked_at_index {α : Type} (g : Grid α)
    (hxle : g.rect.x_min_boundary ≤ g.rect.x_max_boundary)
    (hyle : g.rect.y_min_boundary ≤ g.rect.y_max_boundary)
    (t : Nat) (ht : t < g.rect.x_count * g.rect.y_count) :
    g.element_unchecked
        ⟨g.rect.x_min_boundary + ((t % g.rect.x_count : Nat) : Int),
          g.rect.y_max_boundary - ((t / g.rect.x_count : Nat) : Int)⟩ =
      (match g.grid_data[t]? with
        | some (.Object v) => some v
        | _ => none) := by
  obtain ⟨_, _, hok⟩ := index_facts g.rect hxle hyle t ht
  unfold Grid.element_unchecked
  rw [hok]

/-- The cursor iteration of a grid is the row-major coordinate listing. -/
theorem iter_positions_eq {α : Type} (g : Grid α)
    (hb : g.bounds.origin_centered = true) :
    g.iter_positions = (List.range (g.x_count * g.y_count)).map (fun t =>
      (⟨g.rect.x_min_boundary + ((t % g.rect.x_count : Nat) : Int),
        g.rect.y_max_boundary - ((t / g.rect.x_count : Nat) : Int)⟩ :
          Coordinate)) := by
  obtain ⟨hxle, hyle, hrxc, hryc, hx1, hy1⟩ := grid_rect_facts g hb
  have h0 := cursor_positions_eq g.rect hxle hyle (g.x_count * g.y_count) 0
    (by rw [hrxc, hryc]; omega)
  have hcoord : (⟨g.rect.x_min_boundary, g.rect.y_max_boundary⟩ : Coordinate) =
      ⟨g.rect.x_min_boundary + ((0 % g.rect.x_count : Nat) : Int),
        g.rect.y_max_boundary - ((0 / g.rect.x_count : Nat) : Int)⟩ := by
    rw [Nat.zero_mod, Nat.zero_div]
    congr 1 <;> push_cast <;> omega
  show g.rect.cursor_positions ⟨g.rect.x_min_boundary, g.rect.y_max_boundary⟩
      (g.x_count * g.y_count) = _
  rw [hcoord, h0, List.range_eq_range']

/-- `%` and `/` after subtracting one full row. -/
theorem mod_div_sub (w B : Nat) (hw : 0 < w) (hB : w ≤ B) :
    (B - w) % w = B % w ∧ (B - w) / w = B / w - 1 := by
  have h1 : w * (B / w) + B % w = B := Nat.div_add_mod B w
  have h2 : w * ((B - w) / w) + (B - w) % w = B - w := Nat.div_add_mod (B - w) w
  have hq1 : 1 ≤ B / w := (Nat.one_le_div_iff hw).mpr hB
  have hm : w * (B / w - 1) + w = w * (B / w) := by
    rw [← Nat.mul_succ]
    congr 1
    omega
  have heq : ((B - w) / w) * w + (B - w) % w = (B / w - 1) * w + B % w := by
    rw [Nat.mul_comm ((B - w) / w) w, Nat.mul_comm (B / w - 1) w]
    omega
  obtain ⟨ha, hb⟩ := rowmajor_inj w ((B - w) / w) ((B - w) % w) (B / w - 1)
    (B % w) hw (Nat.mod_lt _ hw) (Nat.mod_lt _ hw) heq
  exact ⟨hb, ha⟩

/-- Reading a stored value back from the shape of the cell lookup. -/
theorem val_some_cell {α : Type} (o : Option (GridCoordinate α)) (v : α)
    (h : (match o with
      | some (.Object v) => some v
      | _ => none) = some v) :
    o = some (.Object v) := by
  cases o with
  | none => cases h
  | some cell =>
    cases cell with
    | Object u =>
      injection h with h
      rw [h]
    | Empty c => cases h

/-- An absent stored value means the cell holds no `Object`. -/
theorem val_none_cell {α : Type} (o : Option (GridCoordinate α))
    (h : (match o with
      | some (.Object v) => some v
      | _ => none) = none) :
    ∀ v : α, ¬(o = some (.Object v)) := by
  intro v hv
  rw [hv] at h
  cases h

/-- A clamped one-step North move from a cell at least one row below the top
edge lands exactly one row up and reports movement. -/
theorem clamped_north (r : Rect)
    (hxle : r.x_min_boundary ≤ r.x_max_boundary)
    (hyle : r.y_min_boundary ≤ r.y_max_boundary) (kx ky : Nat)
    (hkx : kx < r.x_count) (hky : ky < r.y_count) (hky1 : 1 ≤ ky) :
    r.clamped_move ⟨r.x_min_boundary + (kx : Int),
        r.y_max_boundary - (ky : Int)⟩ .North 1 =
      (⟨r.x_min_boundary + (kx : Int),
        r.y_max_boundary - ((ky - 1 : Nat) : Int)⟩, true) := by
  have hxc := r.x_count_cast hxle
  have hyc := r.y_count_cast hyle
  have hkxI : (kx : Int) < (r.x_count : Int) := by exact_mod_cast hkx
  have hkyI : (ky : Int) < (r.y_count : Int) := by exact_mod_cast hky
  have hky1I : (1 : Int) ≤ ((ky : Nat) : Int) := by exact_mod_cast hky1
  unfold Rect.clamped_move Coordinate.coordinate_in_direction
  dsimp only
  push_cast
  have hx : max (min (r.x_min_boundary + (kx : Int)) r.x_max_boundary)
      r.x_min_boundary = r.x_min_boundary + (kx : Int) := by
    omega
  have hy : max (min (r.y_max_boundary - (ky : Int) + 1) r.y_max_boundary)
      r.y_min_boundary = r.y_max_boundary - (ky : Int) + 1 := by
    omega
  rw [hx, hy]
  have hne : (⟨r.x_min_boundary + (kx : Int),
      r.y_max_boundary - (ky : Int)⟩ : Coordinate) ≠
      ⟨r.x_min_boundary + (kx : Int), r.y_max_boundary - (ky : Int) + 1⟩ := by
    intro hcon
    injection hcon with hcx hcy
    omega
  rw [decide_eq_true hne]
  congr 1
  congr 1
  omega

/-- A clamped one-step South move from a cell at least one row above the
bottom edge lands exactly one row down and reports movement. -/
theorem clamped_south (r : Rect)
    (hxle : r.x_min_boundary ≤ r.x_max_boundary)
    (hyle : r.y_min_boundary ≤ r.y_max_boundary) (kx ky : Nat)
    (hkx : kx < r.x_count) (hky : ky + 1 < r.y_count) :
    r.clamped_move ⟨r.x_min_boundary + (kx : Int),
        r.y_max_boundary - (ky : Int)⟩ .South 1 =
      (⟨r.x_min_boundary + (kx : Int),
        r.y_max_boundary - ((ky + 1 : Nat) : Int)⟩, true) := by
  have hyc := r.y_count_cast hyle
  have hkxI : (kx : Int) < (r.x_count : Int) := by exact_mod_cast hkx
  have hxc := r.x_count_cast hxle
  have hkyI : ((ky + 1 : Nat) : Int) < (r.y_count : Int) := by exact_mod_cast hky
  unfold Rect.clamped_move Coordinate.coordinate_in_direction
  dsimp only
  push_cast
  push_cast at hkyI
  have hx : max (min (r.x_min_boundary + (kx : Int)) r.x_max_boundary)
      r.x_min_boundary = r.x_min_boundary + (kx : Int) := by
    omega
  have hy : max (min (r.y_max_boundary - (ky : Int) - 1) r.y_max_boundary)
      r.y_min_boundary = r.y_max_boundary - (ky : Int) - 1 := by
    omega
  rw [hx, hy]
  have hne : (⟨r.x_min_boundary + (kx : Int),
      r.y_max_boundary - (ky : Int)⟩ : Coordinate) ≠
      ⟨r.x_min_boundary + (kx : Int), r.y_max_boundary - (ky : Int) - 1⟩ := by
    intro hcon
    injection hcon with hcx hcy
    omega
  rw [decide_eq_true hne]
  congr 1
  congr 1
  omega

/-- Running the relocation loop North over the occupied cells of the storage
region `[0, K)` in ascending flat order: every move succeeds, the bounds are
kept, and afterwards cell `t` holds the value cell `t + x_count` held at the
start (region cells with no such source end empty; cells outside the region
are untouched). `B` is the induction cursor: cells before `B` are already
relocated. -/
theorem run_north {α : Type} (G : Grid α)
    (hb : G.bounds.origin_centered = true)
    (hlenG : G.grid_data.length = G.rect.x_count * G.rect.y_count)
    (K : Nat) (hK : K ≤ G.rect.x_count * G.rect.y_count)
    (p : Nat → Bool)
    (hp : ∀ t, p t = true ↔ (t < K ∧
      ¬((match G.grid_data[t]? with
          | some (.Object v) => some v
          | _ => none) = none)))
    (hrow0 : ∀ t, t < G.rect.x_count →
      (match G.grid_data[t]? with
        | some (.Object v) => some v
        | _ => none) = none) :
    ∀ (n B : Nat) (gcur : Grid α), B + n = K →
      gcur.bounds = G.bounds →
      gcur.grid_data.length = G.grid_data.length →
      (∀ t : Nat,
        (match gcur.grid_data[t]? with
          | some (.Object v) => some v
          | _ => none) =
        (if t + G.rect.x_count < B then
          (match G.grid_data[t + G.rect.x_count]? with
            | some (.Object v) => some v
            | _ => none)
        else if t < B then none
        else (match G.grid_data[t]? with
          | some (.Object v) => some v
          | _ => none))) →
      (Grid.move_elements_list .North gcur
          (((List.range' B n).filter p).map (fun t =>
            (⟨G.rect.x_min_boundary + ((t % G.rect.x_count : Nat) : Int),
              G.rect.y_max_boundary - ((t / G.rect.x_count : Nat) : Int)⟩ :
                Coordinate)))).1 = .ok () ∧
      (Grid.move_elements_list .North gcur
          (((List.range' B n).filter p).map (fun t =>
            (⟨G.rect.x_min_boundary + ((t % G.rect.x_count : Nat) : Int),
              G.rect.y_max_boundary - ((t / G.rect.x_count : Nat) : Int)⟩ :
                Coordinate)))).2.bounds = G.bounds ∧
      (∀ t : Nat,
        (match (Grid.move_elements_list .North gcur
            (((List.range' B n).filter p).map (fun t =>
              (⟨G.rect.x_min_boundary + ((t % G.rect.x_count : Nat) : Int),
                G.rect.y_max_boundary - ((t / G.rect.x_count : Nat) : Int)⟩ :
                  Coordinate)))).2.grid_data[t]? with
          | some (.Object v) => some v
          | _ => none) =
        (if t + G.rect.x_count < K then
          (match G.grid_data[t + G.rect.x_count]? with
            | some (.Object v) => some v
            | _ => none)
        else if t < K then none
        else (match G.grid_data[t]? with
          | some (.Object v) => some v
          | _ => none))) := by
  obtain ⟨hxle, hyle, hrxc, hryc, hx1g, hy1g⟩ := grid_rect_facts G hb
  have hw0 : 0 < G.rect.x_count := by
    simp only [Rect.x_count]
    omega
  intro n
  induction n with
  | zero =>
    intro B gcur hBK hbounds hlen hinv
    have hBeq : B = K := by omega
    subst hBeq
    exact ⟨rfl, hbounds, fun t => hinv t⟩
  | succ m ih =>
    intro B gcur hBK hbounds hlen hinv
    have hBK' : B < K := by omega
    rw [List.range'_succ]
    cases hpB : p B with
    | false =>
      rw [List.filter_cons, if_neg (by rw [hpB]; exact Bool.false_ne_true)]
      have hGB : (match G.grid_data[B]? with
          | some (.Object v) => some v
          | _ => none) = none := by
        by_contra hcon
        have hx := (hp B).mpr ⟨hBK', hcon⟩
        rw [hpB] at hx
        cases hx
      have hinv' : ∀ t : Nat,
          (match gcur.grid_data[t]? with
            | some (.Object v) => some v
            | _ => none) =
          (if t + G.rect.x_count < B + 1 then
            (match G.grid_data[t + G.rect.x_count]? with
              | some (.Object v) => some v
              | _ => none)
          else if t < B + 1 then none
          else (match G.grid_data[t]? with
            | some (.Object v) => some v
            | _ => none)) := by
        intro t
        rw [hinv t]
        by_cases h1 : t + G.rect.x_count < B
        · rw [if_pos h1, if_pos (show t + G.rect.x_count < B + 1 from by omega)]
        · by_cases h2 : t + G.rect.x_count = B
          · rw [if_neg h1,
              if_pos (show t + G.rect.x_count < B + 1 from by omega), h2, hGB,
              if_pos (show t < B from by omega)]
          · rw [if_neg h1,
              if_neg (show ¬(t + G.rect.x_count < B + 1) from by omega)]
            by_cases h3 : t < B
            · rw [if_pos h3, if_pos (show t < B + 1 from by omega)]
            · by_cases h4 : t = B
              · rw [if_neg h3, if_pos (show t < B + 1 from by omega), h4, hGB]
              · rw [if_neg h3, if_neg (show ¬(t < B + 1) from by omega)]
      exact ih (B + 1) gcur (by omega) hbounds hlen hinv'
    | true =>
      rw [List.filter_cons, if_pos hpB, List.map_cons]
      obtain ⟨hBlt, hBocc⟩ := (hp B).mp hpB
      cases hvG : (match G.grid_data[B]? with
          | some (.Object v) => some v
          | _ => none) with
      | none => exact absurd hvG hBocc
      | some v =>
      have hcellBG : G.grid_data[B]? = some (.Object v) := val_some_cell _ v hvG
      have hBw : G.rect.x_count ≤ B := by
        by_contra hcon
        rw [hrow0 B (by omega)] at hvG
        cases hvG
      have hvcur : (match gcur.grid_data[B]? with
          | some (.Object v) => some v
          | _ => none) = some v := by
        rw [hinv B, if_neg (by omega), if_neg (by omega)]
        exact hvG
      have hcellBc : gcur.grid_data[B]? = some (.Object v) :=
        val_some_cell _ v hvcur
      obtain ⟨hmodD, hdivD⟩ := mod_div_sub G.rect.x_count B hw0 hBw
      have hq1 : 1 ≤ B / G.rect.x_count := (Nat.one_le_div_iff hw0).mpr hBw
      have hrectc : gcur.rect = G.rect := by
        unfold Grid.rect Grid.x_count Grid.y_count
        rw [hbounds]
      have hBN : B < G.rect.x_count * G.rect.y_count := by omega
      obtain ⟨hitoB, hwinB, hokB⟩ := index_facts G.rect hxle hyle B hBN
      have hDN : B - G.rect.x_count < G.rect.x_count * G.rect.y_count := by
        omega
      obtain ⟨hitoD, hwinD, hokD⟩ := index_facts G.rect hxle hyle
        (B - G.rect.x_count) hDN
      have hclamp := clamped_north G.rect hxle hyle (B % G.rect.x_count)
        (B / G.rect.x_count) (Nat.mod_lt _ hw0) (Nat.div_lt_of_lt_mul hBN) hq1
      have hdestc : (⟨G.rect.x_min_boundary + ((B % G.rect.x_count : Nat) : Int),
          G.rect.y_max_boundary -
            ((B / G.rect.x_count - 1 : Nat) : Int)⟩ : Coordinate) =
          ⟨G.rect.x_min_boundary +
            (((B - G.rect.x_count) % G.rect.x_count : Nat) : Int),
            G.rect.y_max_boundary -
              (((B - G.rect.x_count) / G.rect.x_count : Nat) : Int)⟩ := by
        rw [hmodD, hdivD]
      have hvalD : (match gcur.grid_data[B - G.rect.x_count]? with
          | some (.Object v) => some v
          | _ => none) = none := by
        rw [hinv (B - G.rect.x_count), if_neg (by omega), if_pos (by omega)]
      have hlencur : gcur.grid_data.length =
          G.rect.x_count * G.rect.y_count := by
        rw [hlen, hlenG]
      have hone : gcur.move_element_in_direction
          ⟨G.rect.x_min_boundary + ((B % G.rect.x_count : Nat) : Int),
            G.rect.y_max_boundary - ((B / G.rect.x_count : Nat) : Int)⟩
          .North =
          (.ok ⟨G.rect.x_min_boundary +
              (((B - G.rect.x_count) % G.rect.x_count : Nat) : Int),
              G.rect.y_max_boundary -
                (((B - G.rect.x_count) / G.rect.x_count : Nat) : Int)⟩,
            ⟨(gcur.grid_data.set B (.Empty
                ⟨G.rect.x_min_boundary + ((B % G.rect.x_count : Nat) : Int),
                  G.rect.y_max_boundary -
                    ((B / G.rect.x_count : Nat) : Int)⟩)).set
              (B - G.rect.x_count) (.Object v), gcur.bounds⟩) := by
        unfold Grid.move_element_in_direction
        rw [hrectc, hwinB]
        simp only [Bool.not_true]
        rw [if_neg (by exact Bool.false_ne_true)]
        rw [hclamp]
        dsimp only
        rw [if_pos rfl, hdestc]
        have hokDc : gcur.rect.coordinate_to_index
            ⟨G.rect.x_min_boundary +
              (((B - G.rect.x_count) % G.rect.x_count : Nat) : Int),
              G.rect.y_max_boundary -
                (((B - G.rect.x_count) / G.rect.x_count : Nat) : Int)⟩ =
            .ok (B - G.rect.x_count) := by
          rw [hrectc]
          exact hokD
        have heD := element_unchecked_eq gcur _ (B - G.rect.x_count) hokDc
        rw [heD, hvalD]
        rw [if_neg (by simp)]
        obtain ⟨cell, hcellB2, hrm⟩ := remove_element_spec gcur
          ⟨G.rect.x_min_boundary + ((B % G.rect.x_count : Nat) : Int),
            G.rect.y_max_boundary - ((B / G.rect.x_count : Nat) : Int)⟩ B
          (by rw [hrectc]; exact hokB) (by omega)
        rw [hcellBc] at hcellB2
        injection hcellB2 with hcellB2
        subst hcellB2
        rw [hrm]
        dsimp only
        have hokD2 : (Grid.mk (gcur.grid_data.set B (.Empty
            ⟨G.rect.x_min_boundary + ((B % G.rect.x_count : Nat) : Int),
              G.rect.y_max_boundary - ((B / G.rect.x_count : Nat) : Int)⟩))
            gcur.bounds : Grid α).rect.coordinate_to_index
            ⟨G.rect.x_min_boundary +
              (((B - G.rect.x_count) % G.rect.x_count : Nat) : Int),
              G.rect.y_max_boundary -
                (((B - G.rect.x_count) / G.rect.x_count : Nat) : Int)⟩ =
            .ok (B - G.rect.x_count) := hokDc
        obtain ⟨cell2, hcell2, hst⟩ := store_element_spec
          (Grid.mk (gcur.grid_data.set B (.Empty
            ⟨G.rect.x_min_boundary + ((B % G.rect.x_count : Nat) : Int),
              G.rect.y_max_boundary - ((B / G.rect.x_count : Nat) : Int)⟩))
            gcur.bounds : Grid α) _ v (B - G.rect.x_count) hokD2
          (by show B - G.rect.x_count < (gcur.grid_data.set _ _).length
              rw [List.length_set]
              omega)
        rw [hst]
      simp only [Grid.move_elements_list]
      rw [hone]
      have hbounds' : (Grid.mk ((gcur.grid_data.set B (.Empty
          ⟨G.rect.x_min_boundary + ((B % G.rect.x_count : Nat) : Int),
            G.rect.y_max_boundary - ((B / G.rect.x_count : Nat) : Int)⟩)).set
          (B - G.rect.x_count) (.Object v)) gcur.bounds : Grid α).bounds =
          G.bounds := hbounds
      have hlen' : (Grid.mk ((gcur.grid_data.set B (.Empty
          ⟨G.rect.x_min_boundary + ((B % G.rect.x_count : Nat) : Int),
            G.rect.y_max_boundary - ((B / G.rect.x_count : Nat) : Int)⟩)).set
          (B - G.rect.x_count) (.Object v)) gcur.bounds : Grid α).grid_data.length
          = G.grid_data.length := by
        show ((gcur.grid_data.set _ _).set _ _).length = _
        rw [List.length_set, List.length_set]
        exact hlen
      have hinv'' : ∀ t : Nat,
          (match (Grid.mk ((gcur.grid_data.set B (.Empty
              ⟨G.rect.x_min_boundary + ((B % G.rect.x_count : Nat) : Int),
                G.rect.y_max_boundary -
                  ((B / G.rect.x_count : Nat) : Int)⟩)).set
              (B - G.rect.x_count) (.Object v)) gcur.bounds :
                Grid α).grid_data[t]? with
            | some (.Object v) => some v
            | _ => none) =
          (if t + G.rect.x_count < B + 1 then
            (match G.grid_data[t + G.rect.x_count]? with
              | some (.Object v) => some v
              | _ => none)
          else if t < B + 1 then none
          else (match G.grid_data[t]? with
            | some (.Object v) => some v
            | _ => none)) := by
        intro t
        show (match ((gcur.grid_data.set B (.Empty
            ⟨G.rect.x_min_boundary + ((B % G.rect.x_count : Nat) : Int),
              G.rect.y_max_boundary - ((B / G.rect.x_count : Nat) : Int)⟩)).set
            (B - G.rect.x_count) (.Object v))[t]? with
          | some (.Object v) => some v
          | _ => none) = _
        by_cases ht1 : t = B - G.rect.x_count
        · subst ht1
          rw [getElem?_set_cases, if_pos ⟨rfl, by
            show B - G.rect.x_count < (gcur.grid_data.set _ _).length
            rw [List.length_set]
            omega⟩]
          rw [if_pos (show B - G.rect.x_count + G.rect.x_count < B + 1 from by
            omega)]
          rw [show B - G.rect.x_count + G.rect.x_count = B from by omega, hvG]
        · rw [getElem?_set_cases,
            if_neg (by intro hcon; exact ht1 hcon.1.symm)]
          by_cases ht2 : t = B
          · rw [getElem?_set_cases, if_pos ⟨ht2.symm, by omega⟩]
            rw [if_neg (show ¬(t + G.rect.x_count < B + 1) from by omega),
              if_pos (show t < B + 1 from by omega)]
          · rw [getElem?_set_cases,
              if_neg (by intro hcon; exact ht2 hcon.1.symm)]
            rw [hinv t]
            by_cases h1 : t + G.rect.x_count < B
            · rw [if_pos h1, if_pos (show t + G.rect.x_count < B + 1 from by
                omega)]
            · rw [if_neg h1,
                if_neg (show ¬(t + G.rect.x_count < B + 1) from by omega)]
              by_cases h3 : t < B
              · rw [if_pos h3, if_pos (show t < B + 1 from by omega)]
              · rw [if_neg h3, if_neg (show ¬(t < B + 1) from by omega)]
      exact ih (B + 1) _ (by omega) hbounds' hlen' hinv''

/-- Running the relocation loop South over the occupied cells of the storage
region `[K2, N)` in descending flat order (the reversed iteration order):
every move succeeds, the bounds are kept, and afterwards cell `t` holds the
value cell `t - x_count` held at the start. `C` is the induction cursor:
cells from `C` on are already relocated, and `C = K2 + n`. -/
theorem run_south {α : Type} (G : Grid α)
    (hb : G.bounds.origin_centered = true)
    (hlenG : G.grid_data.length = G.rect.x_count * G.rect.y_count)
    (K2 : Nat)
    (p : Nat → Bool)
    (hp : ∀ t, p t = true ↔ (K2 ≤ t ∧ t < G.rect.x_count * G.rect.y_count ∧
      ¬((match G.grid_data[t]? with
          | some (.Object v) => some v
          | _ => none) = none)))
    (hrowBot : ∀ t, G.rect.x_count * G.rect.y_count - G.rect.x_count ≤ t →
      (match G.grid_data[t]? with
        | some (.Object v) => some v
        | _ => none) = none) :
    ∀ (n : Nat) (gcur : Grid α), K2 + n ≤ G.rect.x_count * G.rect.y_count →
      gcur.bounds = G.bounds →
      gcur.grid_data.length = G.grid_data.length →
      (∀ t : Nat,
        (match gcur.grid_data[t]? with
          | some (.Object v) => some v
          | _ => none) =
        (if K2 + n + G.rect.x_count ≤ t then
          (match G.grid_data[t - G.rect.x_count]? with
            | some (.Object v) => some v
            | _ => none)
        else if K2 + n ≤ t then none
        else (match G.grid_data[t]? with
          | some (.Object v) => some v
          | _ => none))) →
      (Grid.move_elements_list .South gcur
          ((((List.range' K2 n).filter p).map (fun t =>
            (⟨G.rect.x_min_boundary + ((t % G.rect.x_count : Nat) : Int),
              G.rect.y_max_boundary - ((t / G.rect.x_count : Nat) : Int)⟩ :
                Coordinate))).reverse)).1 = .ok () ∧
      (Grid.move_elements_list .South gcur
          ((((List.range' K2 n).filter p).map (fun t =>
            (⟨G.rect.x_min_boundary + ((t % G.rect.x_count : Nat) : Int),
              G.rect.y_max_boundary - ((t / G.rect.x_count : Nat) : Int)⟩ :
                Coordinate))).reverse)).2.bounds = G.bounds ∧
      (∀ t : Nat,
        (match (Grid.move_elements_list .South gcur
            ((((List.range' K2 n).filter p).map (fun t =>
              (⟨G.rect.x_min_boundary + ((t % G.rect.x_count : Nat) : Int),
                G.rect.y_max_boundary - ((t / G.rect.x_count : Nat) : Int)⟩ :
                  Coordinate))).reverse)).2.grid_data[t]? with
          | some (.Object v) => some v
          | _ => none) =
        (if K2 + G.rect.x_count ≤ t then
          (match G.grid_data[t - G.rect.x_count]? with
            | some (.Object v) => some v
            | _ => none)
        else if K2 ≤ t then none
        else (match G.grid_data[t]? with
          | some (.Object v) => some v
          | _ => none))) := by
  obtain ⟨hxle, hyle, hrxc, hryc, hx1g, hy1g⟩ := grid_rect_facts G hb
  have hw0 : 0 < G.rect.x_count := by
    simp only [Rect.x_count]
    omega
  intro n
  induction n with
  | zero =>
    intro gcur hK hbounds hlen hinv
    refine ⟨rfl, hbounds, fun t => ?_⟩
    have h := hinv t
    rw [Nat.add_zero] at h
    exact h
  | succ m ih =>
    intro gcur hK hbounds hlen hinv
    rw [List.range'_concat]
    simp only [Nat.one_mul]
    rw [List.filter_append, List.map_append,
      List.reverse_append, List.filter_cons, List.filter_nil]
    cases hpB : p (K2 + m) with
    | false =>
      rw [if_neg (by exact Bool.false_ne_true)]
      rw [List.map_nil, List.reverse_nil, List.nil_append]
      have hGB : (match G.grid_data[K2 + m]? with
          | some (.Object v) => some v
          | _ => none) = none := by
        by_contra hcon
        have hx := (hp (K2 + m)).mpr ⟨by omega, by omega, hcon⟩
        rw [hpB] at hx
        cases hx
      have hinv' : ∀ t : Nat,
          (match gcur.grid_data[t]? with
            | some (.Object v) => some v
            | _ => none) =
          (if K2 + m + G.rect.x_count ≤ t then
            (match G.grid_data[t - G.rect.x_count]? with
              | some (.Object v) => some v
              | _ => none)
          else if K2 + m ≤ t then none
          else (match G.grid_data[t]? with
            | some (.Object v) => some v
            | _ => none)) := by
        intro t
        rw [hinv t]
        by_cases h1 : K2 + (m + 1) + G.rect.x_count ≤ t
        · rw [if_pos h1, if_pos (show K2 + m + G.rect.x_count ≤ t from by
            omega)]
        · by_cases h2 : K2 + m + G.rect.x_count ≤ t
          · have hteq : t = K2 + m + G.rect.x_count := by omega
            rw [if_neg h1, if_pos (show K2 + (m + 1) ≤ t from by omega),
              if_pos h2, hteq,
              show K2 + m + G.rect.x_count - G.rect.x_count = K2 + m from by
                omega, hGB]
          · rw [if_neg h1, if_neg h2]
            by_cases h3 : K2 + (m + 1) ≤ t
            · rw [if_pos h3, if_pos (show K2 + m ≤ t from by omega)]
            · by_cases h4 : K2 + m ≤ t
              · have hteq : t = K2 + m := by omega
                rw [if_neg h3, if_pos h4, hteq, hGB]
              · rw [if_neg h3, if_neg h4]
      exact ih gcur (by omega) hbounds hlen hinv'
    | true =>
      rw [if_pos rfl, List.map_cons, List.map_nil, List.reverse_cons,
        List.reverse_nil, List.nil_append, List.cons_append]
      obtain ⟨hBge, hBlt, hBocc⟩ := (hp (K2 + m)).mp hpB
      cases hvG : (match G.grid_data[K2 + m]? with
          | some (.Object v) => some v
          | _ => none) with
      | none => exact absurd hvG hBocc
      | some v =>
      have hcellBG : G.grid_data[K2 + m]? = some (.Object v) :=
        val_some_cell _ v hvG
      have hBbot : K2 + m < G.rect.x_count * G.rect.y_count -
          G.rect.x_count := by
        by_contra hcon
        rw [hrowBot (K2 + m) (by omega)] at hvG
        cases hvG
      have hmodD : (K2 + m + G.rect.x_count) % G.rect.x_count =
          (K2 + m) % G.rect.x_count := Nat.add_mod_right _ _
      have hdivD : (K2 + m + G.rect.x_count) / G.rect.x_count =
          (K2 + m) / G.rect.x_count + 1 := Nat.add_div_right _ hw0
      have hvcur : (match gcur.grid_data[K2 + m]? with
          | some (.Object v) => some v
          | _ => none) = some v := by
        rw [hinv (K2 + m), if_neg (by omega), if_neg (by omega)]
        exact hvG
      have hcellBc : gcur.grid_data[K2 + m]? = some (.Object v) :=
        val_some_cell _ v hvcur
      have hrectc : gcur.rect = G.rect := by
        unfold Grid.rect Grid.x_count Grid.y_count
        rw [hbounds]
      have hBN : K2 + m < G.rect.x_count * G.rect.y_count := hBlt
      obtain ⟨hitoB, hwinB, hokB⟩ := index_facts G.rect hxle hyle (K2 + m) hBN
      have hDN : K2 + m + G.rect.x_count <
          G.rect.x_count * G.rect.y_count := by
        omega
      obtain ⟨hitoD, hwinD, hokD⟩ := index_facts G.rect hxle hyle
        (K2 + m + G.rect.x_count) hDN
      have hdivlt : (K2 + m) / G.rect.x_count + 1 < G.rect.y_count := by
        have := Nat.div_lt_of_lt_mul hDN
        rw [hdivD] at this
        exact this
      have hclamp := clamped_south G.rect hxle hyle
        ((K2 + m) % G.rect.x_count) ((K2 + m) / G.rect.x_count)
        (Nat.mod_lt _ hw0) hdivlt
      have hdestc : (⟨G.rect.x_min_boundary +
          (((K2 + m) % G.rect.x_count : Nat) : Int),
          G.rect.y_max_boundary -
            (((K2 + m) / G.rect.x_count + 1 : Nat) : Int)⟩ : Coordinate) =
          ⟨G.rect.x_min_boundary +
            (((K2 + m + G.rect.x_count) % G.rect.x_count : Nat) : Int),
            G.rect.y_max_boundary -
              (((K2 + m + G.rect.x_count) / G.rect.x_count : Nat) : Int)⟩ := by
        rw [hmodD, hdivD]
      have hvalD : (match gcur.grid_data[K2 + m + G.rect.x_count]? with
          | some (.Object v) => some v
          | _ => none) = none := by
        rw [hinv (K2 + m + G.rect.x_count), if_neg (by omega),
          if_pos (by omega)]
      have hone : gcur.move_element_in_direction
          ⟨G.rect.x_min_boundary + (((K2 + m) % G.rect.x_count : Nat) : Int),
            G.rect.y_max_boundary -
              (((K2 + m) / G.rect.x_count : Nat) : Int)⟩
          .South =
          (.ok ⟨G.rect.x_min_boundary +
              (((K2 + m + G.rect.x_count) % G.rect.x_count : Nat) : Int),
              G.rect.y_max_boundary -
                (((K2 + m + G.rect.x_count) / G.rect.x_count : Nat) : Int)⟩,
            ⟨(gcur.grid_data.set (K2 + m) (.Empty
                ⟨G.rect.x_min_boundary +
                  (((K2 + m) % G.rect.x_count : Nat) : Int),
                  G.rect.y_max_boundary -
                    (((K2 + m) / G.rect.x_count : Nat) : Int)⟩)).set
              (K2 + m + G.rect.x_count) (.Object v), gcur.bounds⟩) := by
        unfold Grid.move_element_in_direction
        rw [hrectc, hwinB]
        simp only [Bool.not_true]
        rw [if_neg (by exact Bool.false_ne_true)]
        rw [hclamp]
        dsimp only
        rw [if_pos rfl, hdestc]
        have hokDc : gcur.rect.coordinate_to_index
            ⟨G.rect.x_min_boundary +
              (((K2 + m + G.rect.x_count) % G.rect.x_count : Nat) : Int),
              G.rect.y_max_boundary -
                (((K2 + m + G.rect.x_count) / G.rect.x_count : Nat) : Int)⟩ =
            .ok (K2 + m + G.rect.x_count) := by
          rw [hrectc]
          exact hokD
        have heD := element_unchecked_eq gcur _ (K2 + m + G.rect.x_count) hokDc
        rw [heD, hvalD]
        rw [if_neg (by simp)]
        obtain ⟨cell, hcellB2, hrm⟩ := remove_element_spec gcur
          ⟨G.rect.x_min_boundary + (((K2 + m) % G.rect.x_count : Nat) : Int),
            G.rect.y_max_boundary -
              (((K2 + m) / G.rect.x_count : Nat) : Int)⟩ (K2 + m)
          (by rw [hrectc]; exact hokB) (by rw [hlen, hlenG]; omega)
        rw [hcellBc] at hcellB2
        injection hcellB2 with hcellB2
        subst hcellB2
        rw [hrm]
        dsimp only
        have hokD2 : (Grid.mk (gcur.grid_data.set (K2 + m) (.Empty
            ⟨G.rect.x_min_boundary +
              (((K2 + m) % G.rect.x_count : Nat) : Int),
              G.rect.y_max_boundary -
                (((K2 + m) / G.rect.x_count : Nat) : Int)⟩))
            gcur.bounds : Grid α).rect.coordinate_to_index
            ⟨G.rect.x_min_boundary +
              (((K2 + m + G.rect.x_count) % G.rect.x_count : Nat) : Int),
              G.rect.y_max_boundary -
                (((K2 + m + G.rect.x_count) / G.rect.x_count : Nat) : Int)⟩ =
            .ok (K2 + m + G.rect.x_count) := hokDc
        obtain ⟨cell2, hcell2, hst⟩ := store_element_spec
          (Grid.mk (gcur.grid_data.set (K2 + m) (.Empty
            ⟨G.rect.x_min_boundary +
              (((K2 + m) % G.rect.x_count : Nat) : Int),
              G.rect.y_max_boundary -
                (((K2 + m) / G.rect.x_count : Nat) : Int)⟩))
            gcur.bounds : Grid α) _ v (K2 + m + G.rect.x_count) hokD2
          (by show K2 + m + G.rect.x_count < (gcur.grid_data.set _ _).length
              rw [List.length_set, hlen, hlenG]
              omega)
        rw [hst]
      simp only [Grid.move_elements_list]
      rw [hone]
      have hbounds' : (Grid.mk ((gcur.grid_data.set (K2 + m) (.Empty
          ⟨G.rect.x_min_boundary + (((K2 + m) % G.rect.x_count : Nat) : Int),
            G.rect.y_max_boundary -
              (((K2 + m) / G.rect.x_count : Nat) : Int)⟩)).set
          (K2 + m + G.rect.x_count) (.Object v)) gcur.bounds : Grid α).bounds =
          G.bounds := hbounds
      have hlen' : (Grid.mk ((gcur.grid_data.set (K2 + m) (.Empty
          ⟨G.rect.x_min_boundary + (((K2 + m) % G.rect.x_count : Nat) : Int),
            G.rect.y_max_boundary -
              (((K2 + m) / G.rect.x_count : Nat) : Int)⟩)).set
          (K2 + m + G.rect.x_count) (.Object v)) gcur.bounds :
            Grid α).grid_data.length = G.grid_data.length := by
        show ((gcur.grid_data.set _ _).set _ _).length = _
        rw [List.length_set, List.length_set]
        exact hlen
      have hinv'' : ∀ t : Nat,
          (match (Grid.mk ((gcur.grid_data.set (K2 + m) (.Empty
              ⟨G.rect.x_min_boundary +
                (((K2 + m) % G.rect.x_count : Nat) : Int),
                G.rect.y_max_boundary -
                  (((K2 + m) / G.rect.x_count : Nat) : Int)⟩)).set
              (K2 + m + G.rect.x_count) (.Object v)) gcur.bounds :
                Grid α).grid_data[t]? with
            | some (.Object v) => some v
            | _ => none) =
          (if K2 + m + G.rect.x_count ≤ t then
            (match G.grid_data[t - G.rect.x_count]? with
              | some (.Object v) => some v
              | _ => none)
          else if K2 + m ≤ t then none
          else (match G.grid_data[t]? with
            | some (.Object v) => some v
            | _ => none)) := by
        intro t
        show (match ((gcur.grid_data.set (K2 + m) (.Empty
            ⟨G.rect.x_min_boundary +
              (((K2 + m) % G.rect.x_count : Nat) : Int),
              G.rect.y_max_boundary -
                (((K2 + m) / G.rect.x_count : Nat) : Int)⟩)).set
            (K2 + m + G.rect.x_count) (.Object v))[t]? with
          | some (.Object v) => some v
          | _ => none) = _
        by_cases ht1 : t = K2 + m + G.rect.x_count
        · rw [getElem?_set_cases, if_pos ⟨ht1.symm, by
            show K2 + m + G.rect.x_count < (gcur.grid_data.set _ _).length
            rw [List.length_set, hlen, hlenG]
            omega⟩]
          rw [if_pos (show K2 + m + G.rect.x_count ≤ t from by omega),
            show t - G.rect.x_count = K2 + m from by omega, hvG]
        · rw [getElem?_set_cases,
            if_neg (by intro hcon; exact ht1 hcon.1.symm)]
          by_cases ht2 : t = K2 + m
          · rw [getElem?_set_cases, if_pos ⟨ht2.symm, by
              rw [hlen, hlenG]; omega⟩]
            rw [if_neg (show ¬(K2 + m + G.rect.x_count ≤ t) from by omega),
              if_pos (show K2 + m ≤ t from by omega)]
          · rw [getElem?_set_cases,
              if_neg (by intro hcon; exact ht2 hcon.1.symm)]
            rw [hinv t]
            by_cases h1 : K2 + (m + 1) + G.rect.x_count ≤ t
            · rw [if_pos h1,
                if_pos (show K2 + m + G.rect.x_count ≤ t from by omega)]
            · rw [if_neg h1,
                if_neg (show ¬(K2 + m + G.rect.x_count ≤ t) from by omega)]
              by_cases h3 : K2 + (m + 1) ≤ t
              · rw [if_pos h3, if_pos (show K2 + m ≤ t from by omega)]
              · rw [if_neg h3, if_neg (show ¬(K2 + m ≤ t) from by omega)]
      exact ih _ (by omega) hbounds' hlen' hinv''

/-- The derived rectangle after `add_top_row` (odd row count): the North edge
moves up one. -/
theorem add_top_row_rect {α : Type} (g : Grid α)
    (hb : g.bounds.origin_centered = true) (hpar : g.y_count % 2 = 1) :
    (g.add_top_row).rect =
      ⟨g.rect.x_min_boundary, g.rect.x_max_boundary,
        g.rect.y_min_boundary, g.rect.y_max_boundary + 1⟩ := by
  obtain ⟨hxle, hyle, hrxc, hryc, hx1, hy1⟩ := grid_rect_facts g hb
  obtain ⟨hy', hx', _, _, _⟩ := ocb_expand_vertical_spec g.bounds hb
  have hxcnt : (g.add_top_row).x_count = g.x_count := hx'
  have hycnt : (g.add_top_row).y_count = g.y_count + 1 := hy'
  show (⟨origin_centered_x_min (g.add_top_row).x_count,
    origin_centered_x_max (g.add_top_row).x_count,
    origin_centered_y_min (g.add_top_row).y_count,
    origin_centered_y_max (g.add_top_row).y_count⟩ : Rect) = _
  rw [hxcnt, hycnt]
  obtain ⟨hshmin, hshmax⟩ := (origin_centered_y_shift g.y_count hy1).2 hpar
  rw [hshmin, hshmax]
  rfl

/-- The derived rectangle after `add_bottom_row` (even row count): the South
edge moves down one. -/
theorem add_bottom_row_rect {α : Type} (g : Grid α)
    (hb : g.bounds.origin_centered = true) (hpar : g.y_count % 2 = 0) :
    (g.add_bottom_row).rect =
      ⟨g.rect.x_min_boundary, g.rect.x_max_boundary,
        g.rect.y_min_boundary - 1, g.rect.y_max_boundary⟩ := by
  obtain ⟨hxle, hyle, hrxc, hryc, hx1, hy1⟩ := grid_rect_facts g hb
  obtain ⟨hy', hx', _, _, _⟩ := ocb_expand_vertical_spec g.bounds hb
  have hxcnt : (g.add_bottom_row).x_count = g.x_count := hx'
  have hycnt : (g.add_bottom_row).y_count = g.y_count + 1 := hy'
  show (⟨origin_centered_x_min (g.add_bottom_row).x_count,
    origin_centered_x_max (g.add_bottom_row).x_count,
    origin_centered_y_min (g.add_bottom_row).y_count,
    origin_centered_y_max (g.add_bottom_row).y_count⟩ : Rect) = _
  rw [hxcnt, hycnt]
  obtain ⟨hshmin, hshmax⟩ := (origin_centered_y_shift g.y_count hy1).1 hpar
  rw [hshmin, hshmax]
  rfl

/-- `add_top_row` does not change the value stored at any coordinate: old
cells keep their coordinates, the new top row is empty, and coordinates of
the new row were out of bounds before. -/
theorem add_top_row_element {α : Type} (g : Grid α)
    (hb : g.bounds.origin_centered = true) (hwf : g.well_formed = true)
    (hpar : g.y_count % 2 = 1) :
    ∀ c : Coordinate,
      (g.add_top_row).element_unchecked c = g.element_unchecked c := by
  obtain ⟨hxle, hyle, hrxc, hryc, hx1, hy1⟩ := grid_rect_facts g hb
  obtain ⟨hlen, hpt⟩ := (well_formed_iff g).mp hwf
  have hrect1 := add_top_row_rect g hb hpar
  have hxcast := g.rect.x_count_cast hxle
  have hycast := g.rect.y_count_cast hyle
  have hrowlen : ((int_range g.rect.x_min_boundary g.rect.x_max_boundary).map
      fun x => (GridCoordinate.Empty ⟨x, g.rect.y_max_boundary + 1⟩ :
        GridCoordinate α)).length = g.rect.x_count := by
    rw [List.length_map, int_range_length]
    simp only [Rect.x_count]
    omega
  have hdata : (g.add_top_row).grid_data =
      ((int_range g.rect.x_min_boundary g.rect.x_max_boundary).map
        fun x => (GridCoordinate.Empty ⟨x, g.rect.y_max_boundary + 1⟩ :
          GridCoordinate α)) ++ g.grid_data := rfl
  have hlen2 : g.grid_data.length = g.rect.x_count * g.rect.y_count := by
    rw [hlen, hrxc, hryc]
    rfl
  intro c
  cases hw1 : (g.add_top_row).rect.is_within_bounds c with
  | false =>
    rw [element_unchecked_oob _ c hw1]
    rw [hrect1] at hw1
    have hw2 : g.rect.is_within_bounds c = false := by
      cases hw2 : g.rect.is_within_bounds c with
      | false => rfl
      | true =>
        exfalso
        rw [Rect.is_within_bounds_iff] at hw2
        have : (⟨g.rect.x_min_boundary, g.rect.x_max_boundary,
            g.rect.y_min_boundary, g.rect.y_max_boundary + 1⟩ :
              Rect).is_within_bounds c = true := by
          rw [Rect.is_within_bounds_iff]
          dsimp only
          refine ⟨hw2.1, hw2.2.1, hw2.2.2.1, by
            have := hw2.2.2.2
            omega⟩
        rw [this] at hw1
        cases hw1
    rw [element_unchecked_oob _ c hw2]
  | true =>
    obtain ⟨hok1, hlt1⟩ := (g.add_top_row).rect.coordinate_to_index_ok c hw1
    rw [element_unchecked_eq _ c _ hok1]
    rw [hrect1] at hw1
    rw [Rect.is_within_bounds_iff] at hw1
    dsimp only at hw1
    obtain ⟨hc1, hc2, hc3, hc4⟩ := hw1
    by_cases htop : c.y = g.rect.y_max_boundary + 1
    · -- the freshly inserted row
      have hidx : ((g.add_top_row).rect.y_max_boundary - c.y).toNat *
          (g.add_top_row).rect.x_count + (c.x -
            (g.add_top_row).rect.x_min_boundary).toNat =
          (c.x - g.rect.x_min_boundary).toNat := by
        rw [hrect1]
        dsimp only
        rw [show (g.rect.y_max_boundary + 1 - c.y).toNat = 0 from by omega]
        rw [Nat.zero_mul, Nat.zero_add]
      rw [hidx, hdata]
      rw [List.getElem?_append_left (by
        rw [hrowlen]
        simp only [Rect.x_count]
        omega)]
      rw [List.getElem?_map, int_range_getElem? _ _ _ (by omega)]
      have hw2 : g.rect.is_within_bounds c = false := by
        cases hw2 : g.rect.is_within_bounds c with
        | false => rfl
        | true =>
          exfalso
          rw [Rect.is_within_bounds_iff] at hw2
          omega
      rw [element_unchecked_oob _ c hw2]
      rfl
    · -- a carried-over cell: same coordinate, index shifted by one row
      have hw2 : g.rect.is_within_bounds c = true := by
        rw [Rect.is_within_bounds_iff]
        refine ⟨hc1, hc2, hc3, by omega⟩
      obtain ⟨hok2, hlt2⟩ := g.rect.coordinate_to_index_ok c hw2
      rw [element_unchecked_eq g c _ hok2]
      have hidx : ((g.add_top_row).rect.y_max_boundary - c.y).toNat *
          (g.add_top_row).rect.x_count + (c.x -
            (g.add_top_row).rect.x_min_boundary).toNat =
          g.rect.x_count + ((g.rect.y_max_boundary - c.y).toNat *
            g.rect.x_count + (c.x - g.rect.x_min_boundary).toNat) := by
        rw [hrect1]
        dsimp only
        rw [show (g.rect.y_max_boundary + 1 - c.y).toNat =
          (g.rect.y_max_boundary - c.y).toNat + 1 from by omega]
        rw [Nat.succ_mul]
        simp only [Rect.x_count]
        ring
      rw [hidx, hdata]
      rw [List.getElem?_append_right (by rw [hrowlen]; omega)]
      rw [hrowlen]
      rw [show g.rect.x_count + ((g.rect.y_max_boundary - c.y).toNat *
        g.rect.x_count + (c.x - g.rect.x_min_boundary).toNat) -
        g.rect.x_count = (g.rect.y_max_boundary - c.y).toNat *
          g.rect.x_count + (c.x - g.rect.x_min_boundary).toNat from by omega]

/-- `add_bottom_row` does not change the value stored at any coordinate. -/
theorem add_bottom_row_element {α : Type} (g : Grid α)
    (hb : g.bounds.origin_centered = true) (hwf : g.well_formed = true)
    (hpar : g.y_count % 2 = 0) :
    ∀ c : Coordinate,
      (g.add_bottom_row).element_unchecked c = g.element_unchecked c := by
  obtain ⟨hxle, hyle, hrxc, hryc, hx1, hy1⟩ := grid_rect_facts g hb
  obtain ⟨hlen, hpt⟩ := (well_formed_iff g).mp hwf
  have hrect1 := add_bottom_row_rect g hb hpar
  have hxcast := g.rect.x_count_cast hxle
  have hycast := g.rect.y_count_cast hyle
  have hdata : (g.add_bottom_row).grid_data = g.grid_data ++
      ((int_range g.rect.x_min_boundary g.rect.x_max_boundary).map
        fun x => (GridCoordinate.Empty ⟨x, g.rect.y_min_boundary - 1⟩ :
          GridCoordinate α)) := rfl
  have hlen2 : g.grid_data.length = g.rect.x_count * g.rect.y_count := by
    rw [hlen, hrxc, hryc]
    rfl
  intro c
  cases hw1 : (g.add_bottom_row).rect.is_within_bounds c with
  | false =>
    rw [element_unchecked_oob _ c hw1]
    rw [hrect1] at hw1
    have hw2 : g.rect.is_within_bounds c = false := by
      cases hw2 : g.rect.is_within_bounds c with
      | false => rfl
      | true =>
        exfalso
        rw [Rect.is_within_bounds_iff] at hw2
        have : (⟨g.rect.x_min_boundary, g.rect.x_max_boundary,
            g.rect.y_min_boundary - 1, g.rect.y_max_boundary⟩ :
              Rect).is_within_bounds c = true := by
          rw [Rect.is_within_bounds_iff]
          dsimp only
          refine ⟨hw2.1, hw2.2.1, by
            have := hw2.2.2.1
            omega, hw2.2.2.2⟩
        rw [this] at hw1
        cases hw1
    rw [element_unchecked_oob _ c hw2]
  | true =>
    obtain ⟨hok1, hlt1⟩ := (g.add_bottom_row).rect.coordinate_to_index_ok c hw1
    rw [element_unchecked_eq _ c _ hok1]
    rw [hrect1] at hw1
    rw [Rect.is_within_bounds_iff] at hw1
    dsimp only at hw1
    obtain ⟨hc1, hc2, hc3, hc4⟩ := hw1
    by_cases hbot : c.y = g.rect.y_min_boundary - 1
    · -- the freshly appended row
      have hidx : ((g.add_bottom_row).rect.y_max_boundary - c.y).toNat *
          (g.add_bottom_row).rect.x_count + (c.x -
            (g.add_bottom_row).rect.x_min_boundary).toNat =
          g.grid_data.length + (c.x - g.rect.x_min_boundary).toNat := by
        rw [hrect1]
        dsimp only
        show (g.rect.y_max_boundary - c.y).toNat *
          (⟨g.rect.x_min_boundary, g.rect.x_max_boundary,
            g.rect.y_min_boundary - 1, g.rect.y_max_boundary⟩ :
              Rect).x_count + _ = _
        rw [hlen2]
        simp only [Rect.x_count, Rect.y_count]
        rw [show (g.rect.y_max_boundary - c.y).toNat =
          (g.rect.y_max_boundary - g.rect.y_min_boundary).natAbs + 1 from by
            omega]
        ring
      rw [hidx, hdata]
      rw [List.getElem?_append_right (by omega)]
      rw [show g.grid_data.length + (c.x - g.rect.x_min_boundary).toNat -
        g.grid_data.length = (c.x - g.rect.x_min_boundary).toNat from by omega]
      rw [List.getElem?_map, int_range_getElem? _ _ _ (by omega)]
      have hw2 : g.rect.is_within_bounds c = false := by
        cases hw2 : g.rect.is_within_bounds c with
        | false => rfl
        | true =>
          exfalso
          rw [Rect.is_within_bounds_iff] at hw2
          omega
      rw [element_unchecked_oob _ c hw2]
      rfl
    · -- a carried-over cell: same coordinate, same index
      have hw2 : g.rect.is_within_bounds c = true := by
        rw [Rect.is_within_bounds_iff]
        refine ⟨hc1, hc2, by omega, hc4⟩
      obtain ⟨hok2, hlt2⟩ := g.rect.coordinate_to_index_ok c hw2
      rw [element_unchecked_eq g c _ hok2]
      have hidx : ((g.add_bottom_row).rect.y_max_boundary - c.y).toNat *
          (g.add_bottom_row).rect.x_count + (c.x -
            (g.add_bottom_row).rect.x_min_boundary).toNat =
          (g.rect.y_max_boundary - c.y).toNat * g.rect.x_count +
            (c.x - g.rect.x_min_boundary).toNat := by
        rw [hrect1]
        dsimp only
        show _ * (⟨g.rect.x_min_boundary, g.rect.x_max_boundary,
          g.rect.y_min_boundary - 1, g.rect.y_max_boundary⟩ :
            Rect).x_count + _ = _
        simp only [Rect.x_count]
      rw [hidx, hdata]
      rw [List.getElem?_append_left (by
        rw [hlen2]
        exact hlt2)]

/-- The rectangle counts after `add_top_row`: same columns, one more row. -/
theorem add_top_row_counts {α : Type} (g : Grid α)
    (hb : g.bounds.origin_centered = true) (hpar : g.y_count % 2 = 1) :
    (g.add_top_row).rect.x_count = g.rect.x_count ∧
      (g.add_top_row).rect.y_count = g.rect.y_count + 1 := by
  obtain ⟨hxle, hyle, hrxc, hryc, hx1, hy1⟩ := grid_rect_facts g hb
  rw [add_top_row_rect g hb hpar]
  simp only [Rect.x_count, Rect.y_count]
  constructor
  · trivial
  · omega

/-- The rectangle counts after `add_bottom_row`: same columns, one more row. -/
theorem add_bottom_row_counts {α : Type} (g : Grid α)
    (hb : g.bounds.origin_centered = true) (hpar : g.y_count % 2 = 0) :
    (g.add_bottom_row).rect.x_count = g.rect.x_count ∧
      (g.add_bottom_row).rect.y_count = g.rect.y_count + 1 := by
  obtain ⟨hxle, hyle, hrxc, hryc, hx1, hy1⟩ := grid_rect_facts g hb
  rw [add_bottom_row_rect g hb hpar]
  simp only [Rect.x_count, Rect.y_count]
  constructor
  · trivial
  · omega

/-- Every cell of the freshly inserted top row holds no object. -/
theorem add_top_row_first {α : Type} (g : Grid α)
    (hxle : g.rect.x_min_boundary ≤ g.rect.x_max_boundary) :
    ∀ t : Nat, t < g.rect.x_count →
      (match (g.add_top_row).grid_data[t]? with
        | some (.Object v) => some v
        | _ => none) = none := by
  intro t ht
  have hrowlen : ((int_range g.rect.x_min_boundary g.rect.x_max_boundary).map
      fun x => (GridCoordinate.Empty ⟨x, g.rect.y_max_boundary + 1⟩ :
        GridCoordinate α)).length = g.rect.x_count := by
    rw [List.length_map, int_range_length]
    simp only [Rect.x_count]
    omega
  show (match (((int_range g.rect.x_min_boundary g.rect.x_max_boundary).map
      fun x => (GridCoordinate.Empty ⟨x, g.rect.y_max_boundary + 1⟩ :
        GridCoordinate α)) ++ g.grid_data)[t]? with
    | some (.Object v) => some v
    | _ => none) = none
  rw [List.getElem?_append_left (by rw [hrowlen]; exact ht)]
  rw [List.getElem?_map, int_range_getElem? _ _ _ (by
    simp only [Rect.x_count] at ht
    omega)]
  rfl

/-- Every cell of the freshly appended bottom row (and beyond the storage)
holds no object. -/
theorem add_bottom_row_last {α : Type} (g : Grid α)
    (hb : g.bounds.origin_centered = true) (hwf : g.well_formed = true)
    (hpar : g.y_count % 2 = 0) :
    ∀ t : Nat, (g.add_bottom_row).rect.x_count *
        (g.add_bottom_row).rect.y_count - (g.add_bottom_row).rect.x_count ≤ t →
      (match (g.add_bottom_row).grid_data[t]? with
        | some (.Object v) => some v
        | _ => none) = none := by
  obtain ⟨hxle, hyle, hrxc, hryc, hx1, hy1⟩ := grid_rect_facts g hb
  obtain ⟨hlen, hpt⟩ := (well_formed_iff g).mp hwf
  obtain ⟨hcx, hcy⟩ := add_bottom_row_counts g hb hpar
  intro t ht
  rw [hcx, hcy] at ht
  have hlen2 : g.grid_data.length = g.rect.x_count * g.rect.y_count := by
    rw [hlen, hrxc, hryc]
    rfl
  have hrowlen : ((int_range g.rect.x_min_boundary g.rect.x_max_boundary).map
      fun x => (GridCoordinate.Empty ⟨x, g.rect.y_min_boundary - 1⟩ :
        GridCoordinate α)).length = g.rect.x_count := by
    rw [List.length_map, int_range_length]
    simp only [Rect.x_count]
    omega
  have htge : g.grid_data.length ≤ t := by
    rw [hlen2]
    have : g.rect.x_count * (g.rect.y_count + 1) - g.rect.x_count =
        g.rect.x_count * g.rect.y_count := by
      rw [Nat.mul_add, Nat.mul_one]
      omega
    omega
  show (match (g.grid_data ++
      ((int_range g.rect.x_min_boundary g.rect.x_max_boundary).map
        fun x => (GridCoordinate.Empty ⟨x, g.rect.y_min_boundary - 1⟩ :
          GridCoordinate α)))[t]? with
    | some (.Object v) => some v
    | _ => none) = none
  rw [List.getElem?_append_right htge]
  by_cases hlt : t - g.grid_data.length <
      ((int_range g.rect.x_min_boundary g.rect.x_max_boundary).map
        fun x => (GridCoordinate.Empty ⟨x, g.rect.y_min_boundary - 1⟩ :
          GridCoordinate α)).length
  · rw [List.getElem?_map]
    rw [int_range_getElem? _ _ _ (by
      rw [hrowlen] at hlt
      simp only [Rect.x_count] at hlt
      omega)]
    rfl
  · rw [List.getElem?_eq_none (by omega)]

/-- A single element move (successful or not) never changes the number of
occupied cells on a well-formed grid. -/
theorem count_objects_move_any {α : Type} (g : Grid α) (c : Coordinate)
    (d : AbsoluteDirection) (hb : g.bounds.origin_centered = true)
    (hwf : g.well_formed = true) :
    (g.move_element_in_direction c d).2.count_objects = g.count_objects := by
  obtain ⟨hlen, hpt⟩ := (well_formed_iff g).mp hwf
  cases hmv : g.move_element_in_direction c d with
  | mk res g1 =>
    dsimp only
    cases res with
    | error e =>
      rw [move_element_error_spec g c d e g1 hb hlen hpt hmv]
    | ok dst =>
      exact count_objects_move_success g c dst d g1 hb hlen hmv

/-- A bulk element move never changes the number of occupied cells on a
well-formed grid. -/
theorem count_objects_move_list {α : Type} (d : AbsoluteDirection) :
    ∀ (cs : List Coordinate) (g : Grid α),
      g.bounds.origin_centered = true → g.well_formed = true →
      (Grid.move_elements_list d g cs).2.count_objects = g.count_objects := by
  intro cs
  induction cs with
  | nil => exact fun g _ _ => rfl
  | cons c rest ih =>
    intro g hb hwf
    have hcnt := count_objects_move_any g c d hb hwf
    have hw1 := move_element_wf g c d hb hwf
    cases hmv : g.move_element_in_direction c d with
    | mk res g1 =>
      rw [hmv] at hcnt hw1
      dsimp only at hcnt hw1
      cases res with
      | error e =>
        simp only [Grid.move_elements_list, hmv]
        exact hcnt
      | ok x =>
        have hb1 : g1.bounds.origin_centered = true := by
          rw [hw1.1]
          exact hb
        simp only [Grid.move_elements_list, hmv]
        rw [ih g1 hb1 hw1.2]
        exact hcnt

/-- Adding an empty top row does not change the number of occupied cells. -/
theorem count_objects_add_top_row {α : Type} (g : Grid α) :
    (g.add_top_row).count_objects = g.count_objects := by
  show ((((int_range g.rect.x_min_boundary g.rect.x_max_boundary).map
      fun x => (GridCoordinate.Empty ⟨x, g.rect.y_max_boundary + 1⟩ :
        GridCoordinate α)) ++ g.grid_data).filter _).length = _
  rw [List.filter_append]
  rw [List.filter_map]
  rw [show (List.filter ((fun cell => match cell with
      | GridCoordinate.Object _ => true
      | GridCoordinate.Empty _ => false) ∘ fun x =>
        (GridCoordinate.Empty ⟨x, g.rect.y_max_boundary + 1⟩ :
          GridCoordinate α))
      (int_range g.rect.x_min_boundary g.rect.x_max_boundary)) = [] from by
    rw [List.filter_eq_nil_iff]
    intro a _
    simp]
  rfl

/-- Adding an empty bottom row does not change the number of occupied cells. -/
theorem count_objects_add_bottom_row {α : Type} (g : Grid α) :
    (g.add_bottom_row).count_objects = g.count_objects := by
  show ((g.grid_data ++
      ((int_range g.rect.x_min_boundary g.rect.x_max_boundary).map
        fun x => (GridCoordinate.Empty ⟨x, g.rect.y_min_boundary - 1⟩ :
          GridCoordinate α))).filter _).length = _
  rw [List.filter_append]
  rw [List.filter_map]
  rw [show (List.filter ((fun cell => match cell with
      | GridCoordinate.Object _ => true
      | GridCoordinate.Empty _ => false) ∘ fun x =>
        (GridCoordinate.Empty ⟨x, g.rect.y_min_boundary - 1⟩ :
          GridCoordinate α))
      (int_range g.rect.x_min_boundary g.rect.x_max_boundary)) = [] from by
    rw [List.filter_eq_nil_iff]
    intro a _
    simp]
  rw [List.length_append]
  rfl

/-- The occupied coordinates at or above row `y`, as a filtered index range. -/
theorem iter_above_eq {α : Type} (G : Grid α) (y : Int)
    (hb : G.bounds.origin_centered = true) :
    G.iter_elements_coords.filter (fun c => Coordinate.is_above_row c y) =
      ((List.range (G.rect.x_count * G.rect.y_count)).filter (fun t =>
        Coordinate.is_above_row
            ⟨G.rect.x_min_boundary + ((t % G.rect.x_count : Nat) : Int),
              G.rect.y_max_boundary - ((t / G.rect.x_count : Nat) : Int)⟩ y &&
          (G.element_unchecked
            ⟨G.rect.x_min_boundary + ((t % G.rect.x_count : Nat) : Int),
              G.rect.y_max_boundary -
                ((t / G.rect.x_count : Nat) : Int)⟩).isSome)).map
        (fun t =>
          (⟨G.rect.x_min_boundary + ((t % G.rect.x_count : Nat) : Int),
            G.rect.y_max_boundary - ((t / G.rect.x_count : Nat) : Int)⟩ :
              Coordinate)) := by
  obtain ⟨hxle, hyle, hrxc, hryc, hx1, hy1⟩ := grid_rect_facts G hb
  unfold Grid.iter_elements_coords
  rw [iter_positions_eq G hb]
  rw [List.filter_map, List.filter_map, List.filter_filter]
  rw [← hrxc, ← hryc]
  simp only [Function.comp_apply]

/-- The occupied coordinates at or below row `y`, as a filtered index range. -/
theorem iter_below_eq {α : Type} (G : Grid α) (y : Int)
    (hb : G.bounds.origin_centered = true) :
    G.iter_elements_coords.filter (fun c => Coordinate.is_below_row c y) =
      ((List.range (G.rect.x_count * G.rect.y_count)).filter (fun t =>
        Coordinate.is_below_row
            ⟨G.rect.x_min_boundary + ((t % G.rect.x_count : Nat) : Int),
              G.rect.y_max_boundary - ((t / G.rect.x_count : Nat) : Int)⟩ y &&
          (G.element_unchecked
            ⟨G.rect.x_min_boundary + ((t % G.rect.x_count : Nat) : Int),
              G.rect.y_max_boundary -
                ((t / G.rect.x_count : Nat) : Int)⟩).isSome)).map
        (fun t =>
          (⟨G.rect.x_min_boundary + ((t % G.rect.x_count : Nat) : Int),
            G.rect.y_max_boundary - ((t / G.rect.x_count : Nat) : Int)⟩ :
              Coordinate)) := by
  obtain ⟨hxle, hyle, hrxc, hryc, hx1, hy1⟩ := grid_rect_facts G hb
  unfold Grid.iter_elements_coords
  rw [iter_positions_eq G hb]
  rw [List.filter_map, List.filter_map, List.filter_filter]
  rw [← hrxc, ← hryc]
  simp only [Function.comp_apply]

/-- A filter over a full index range may be truncated at a bound the
predicate never reaches. -/
theorem filter_range_trunc (p : Nat → Bool) (K N : Nat) (hKN : K ≤ N)
    (hp : ∀ t, p t = true → t < K) :
    (List.range N).filter p = (List.range' 0 K).filter p := by
  rw [List.range_eq_range']
  rw [show N = (N - K) + K from by omega]
  rw [← List.range'_append]
  simp only [Nat.one_mul, Nat.zero_add]
  rw [List.filter_append]
  rw [show (List.range' K (N - K)).filter p = [] from by
    rw [List.filter_eq_nil_iff]
    intro a ha hpa
    have h1 := (List.mem_range'_1.mp ha).1
    have h2 := hp a hpa
    omega]
  rw [List.append_nil]

/-- Converts the flat-index description of the North relocation result into
the per-coordinate policy: rows at or above `y` take the value one row South,
row `y` is vacated, rows strictly below `y` are untouched. -/
theorem north_final_policy {α : Type} (g : Grid α) (y : Int) (res : Grid α)
    (hb : g.bounds.origin_centered = true) (hwf : g.well_formed = true)
    (hpar : g.y_count % 2 = 1)
    (hbnd : res.bounds = (g.add_top_row).bounds)
    (hval : ∀ t : Nat,
      (match res.grid_data[t]? with
        | some (.Object v) => some v
        | _ => none) =
      (if t + (g.add_top_row).rect.x_count <
          min (((g.add_top_row).rect.y_max_boundary - y + 1).toNat)
            (g.add_top_row).rect.y_count * (g.add_top_row).rect.x_count then
        (match (g.add_top_row).grid_data[t + (g.add_top_row).rect.x_count]? with
          | some (.Object v) => some v
          | _ => none)
      else if t < min (((g.add_top_row).rect.y_max_boundary - y + 1).toNat)
          (g.add_top_row).rect.y_count * (g.add_top_row).rect.x_count then
        none
      else (match (g.add_top_row).grid_data[t]? with
        | some (.Object v) => some v
        | _ => none))) :
    ∀ c : Coordinate,
      (y + 1 ≤ c.y → res.element_unchecked c =
        g.element_unchecked ⟨c.x, c.y - 1⟩) ∧
      (c.y = y → res.element_unchecked c = none) ∧
      (c.y < y → res.element_unchecked c = g.element_unchecked c) := by
  obtain ⟨hbG, hwfG, hxcG, hycG⟩ := add_top_row_wf g hb hwf hpar
  obtain ⟨hxle, hyle, hrxc, hryc, hx1, hy1⟩ := grid_rect_facts g hb
  obtain ⟨hxleG, hyleG, hrxcG, hrycG, hx1G, hy1G⟩ :=
    grid_rect_facts (g.add_top_row) hbG
  have hrect1 := add_top_row_rect g hb hpar
  have hw0 : 0 < (g.add_top_row).rect.x_count := by
    simp only [Rect.x_count]
    omega
  have hKN : min (((g.add_top_row).rect.y_max_boundary - y + 1).toNat)
      (g.add_top_row).rect.y_count * (g.add_top_row).rect.x_count ≤
      (g.add_top_row).rect.x_count * (g.add_top_row).rect.y_count := by
    have h1 : min (((g.add_top_row).rect.y_max_boundary - y + 1).toNat)
        (g.add_top_row).rect.y_count * (g.add_top_row).rect.x_count ≤
        (g.add_top_row).rect.y_count * (g.add_top_row).rect.x_count :=
      Nat.mul_le_mul_right _ (Nat.min_le_right _ _)
    rw [Nat.mul_comm (g.add_top_row).rect.x_count (g.add_top_row).rect.y_count]
    exact h1
  have hycastG := (g.add_top_row).rect.y_count_cast hyleG
  have hrectR : res.rect = (g.add_top_row).rect := by
    unfold Grid.rect Grid.x_count Grid.y_count
    rw [hbnd]
  intro c
  cases hwc : (g.add_top_row).rect.is_within_bounds c with
  | false =>
    have hresoob : res.element_unchecked c = none := by
      apply element_unchecked_oob
      rw [hrectR]
      exact hwc
    have hnb : ¬(g.rect.x_min_boundary ≤ c.x ∧ c.x ≤ g.rect.x_max_boundary ∧
        g.rect.y_min_boundary ≤ c.y ∧ c.y ≤ g.rect.y_max_boundary + 1) := by
      intro hcomp
      rw [hrect1] at hwc
      have := (Rect.is_within_bounds_iff
        (⟨g.rect.x_min_boundary, g.rect.x_max_boundary,
          g.rect.y_min_boundary, g.rect.y_max_boundary + 1⟩ : Rect) c).mpr
        ⟨hcomp.1, hcomp.2.1, hcomp.2.2.1, hcomp.2.2.2⟩
      rw [this] at hwc
      cases hwc
    refine ⟨fun hy1c => ?_, fun hyec => hresoob, fun hylt => ?_⟩
    · rw [hresoob]
      symm
      apply element_unchecked_oob
      cases hg2 : g.rect.is_within_bounds ⟨c.x, c.y - 1⟩ with
      | false => rfl
      | true =>
        exfalso
        rw [Rect.is_within_bounds_iff] at hg2
        dsimp only at hg2
        exact hnb ⟨hg2.1, hg2.2.1, by omega, by omega⟩
    · rw [hresoob]
      symm
      apply element_unchecked_oob
      cases hg2 : g.rect.is_within_bounds c with
      | false => rfl
      | true =>
        exfalso
        rw [Rect.is_within_bounds_iff] at hg2
        exact hnb ⟨hg2.1, hg2.2.1, hg2.2.2.1, by
          have := hg2.2.2.2
          omega⟩
  | true =>
    obtain ⟨hokt, hltt⟩ := (g.add_top_row).rect.coordinate_to_index_ok c hwc
    set t := ((g.add_top_row).rect.y_max_boundary - c.y).toNat *
        (g.add_top_row).rect.x_count +
      (c.x - (g.add_top_row).rect.x_min_boundary).toNat with htdef
    have hokres : res.rect.coordinate_to_index c = .ok t := by
      rw [hrectR]
      exact hokt
    have hresel : res.element_unchecked c =
        (match res.grid_data[t]? with
          | some (.Object v) => some v
          | _ => none) := element_unchecked_eq res c t hokres
    obtain ⟨hidx1, hwidx, hidx2⟩ := index_facts (g.add_top_row).rect hxleG
      hyleG t hltt
    have hceq : c = ⟨(g.add_top_row).rect.x_min_boundary +
        ((t % (g.add_top_row).rect.x_count : Nat) : Int),
      (g.add_top_row).rect.y_max_boundary -
        ((t / (g.add_top_row).rect.x_count : Nat) : Int)⟩ :=
      coordinate_to_index_inj _ c _ hwc hwidx (by rw [hokt, hidx2])
    have hcyeq : c.y = (g.add_top_row).rect.y_max_boundary -
        ((t / (g.add_top_row).rect.x_count : Nat) : Int) := by rw [hceq]
    have hcxeq : c.x = (g.add_top_row).rect.x_min_boundary +
        ((t % (g.add_top_row).rect.x_count : Nat) : Int) := by rw [hceq]
    have hdivN : t / (g.add_top_row).rect.x_count <
        (g.add_top_row).rect.y_count := Nat.div_lt_of_lt_mul hltt
    have hq0 : (0:Int) ≤ ((t / (g.add_top_row).rect.x_count : Nat) : Int) := by
      exact_mod_cast Nat.zero_le _
    have hvt := hval t
    have hdivmul := Nat.div_mul_le_self t (g.add_top_row).rect.x_count
    refine ⟨fun hy1c => ?_, fun hyec => ?_, fun hylt => ?_⟩
    · -- a row at or above `y + 1`: takes the value one row South
      have htK : t < min (((g.add_top_row).rect.y_max_boundary - y + 1).toNat)
          (g.add_top_row).rect.y_count * (g.add_top_row).rect.x_count := by
        rw [← Nat.div_lt_iff_lt_mul hw0, Nat.lt_min]
        refine ⟨Int.lt_toNat.mpr (by omega), hdivN⟩
      by_cases ht2 : t + (g.add_top_row).rect.x_count <
          min (((g.add_top_row).rect.y_max_boundary - y + 1).toNat)
            (g.add_top_row).rect.y_count * (g.add_top_row).rect.x_count
      · have htwN : t + (g.add_top_row).rect.x_count <
            (g.add_top_row).rect.x_count * (g.add_top_row).rect.y_count := by
          omega
        rw [hresel, hvt, if_pos ht2]
        rw [← element_unchecked_at_index (g.add_top_row) hxleG hyleG
          (t + (g.add_top_row).rect.x_count) htwN]
        have hco : (⟨(g.add_top_row).rect.x_min_boundary +
            (((t + (g.add_top_row).rect.x_count) %
              (g.add_top_row).rect.x_count : Nat) : Int),
          (g.add_top_row).rect.y_max_boundary -
            (((t + (g.add_top_row).rect.x_count) /
              (g.add_top_row).rect.x_count : Nat) : Int)⟩ : Coordinate) =
            ⟨c.x, c.y - 1⟩ := by
          rw [Nat.add_mod_right, Nat.add_div_right _ hw0]
          rw [show (((t / (g.add_top_row).rect.x_count) + 1 : Nat) : Int) =
              ((t / (g.add_top_row).rect.x_count : Nat) : Int) + 1 from by
            push_cast
            ring]
          rw [hcxeq, hcyeq]
          congr 1
          ring
        rw [hco]
        exact add_top_row_element g hb hwf hpar ⟨c.x, c.y - 1⟩
      · -- the bottom row of a fully-shifted region: its source row lies
        -- outside the original grid
        rw [hresel, hvt, if_neg ht2, if_pos htK]
        have hmin : min (((g.add_top_row).rect.y_max_boundary - y + 1).toNat)
            (g.add_top_row).rect.y_count ≤
            t / (g.add_top_row).rect.x_count + 1 := by
          rw [show t / (g.add_top_row).rect.x_count + 1 =
            (t + (g.add_top_row).rect.x_count) /
              (g.add_top_row).rect.x_count from
            (Nat.add_div_right t hw0).symm]
          rw [Nat.le_div_iff_mul_le hw0]
          omega
        have hAge : (g.add_top_row).rect.y_max_boundary - y + 1 ≤
            (((g.add_top_row).rect.y_max_boundary - y + 1).toNat : Int) :=
          Int.self_le_toNat _
        have hcymin : c.y = (g.add_top_row).rect.y_min_boundary := by omega
        have hyminshift : (g.add_top_row).rect.y_min_boundary =
            g.rect.y_min_boundary := by rw [hrect1]
        symm
        apply element_unchecked_oob
        cases hg2 : g.rect.is_within_bounds ⟨c.x, c.y - 1⟩ with
        | false => rfl
        | true =>
          exfalso
          rw [Rect.is_within_bounds_iff] at hg2
          dsimp only at hg2
          omega
    · -- row `y` itself is vacated
      have hAeq : (((g.add_top_row).rect.y_max_boundary - y + 1).toNat) =
          t / (g.add_top_row).rect.x_count + 1 := by omega
      have htK : t < min (((g.add_top_row).rect.y_max_boundary - y + 1).toNat)
          (g.add_top_row).rect.y_count * (g.add_top_row).rect.x_count := by
        rw [← Nat.div_lt_iff_lt_mul hw0, Nat.lt_min]
        exact ⟨by omega, hdivN⟩
      have hKleA : min (((g.add_top_row).rect.y_max_boundary - y + 1).toNat)
          (g.add_top_row).rect.y_count * (g.add_top_row).rect.x_count ≤
          (((g.add_top_row).rect.y_max_boundary - y + 1).toNat) *
            (g.add_top_row).rect.x_count :=
        Nat.mul_le_mul_right _ (Nat.min_le_left _ _)
      have hAw : (((g.add_top_row).rect.y_max_boundary - y + 1).toNat) *
          (g.add_top_row).rect.x_count =
          t / (g.add_top_row).rect.x_count * (g.add_top_row).rect.x_count +
            (g.add_top_row).rect.x_count := by
        rw [hAeq, Nat.succ_mul]
      have ht2 : ¬(t + (g.add_top_row).rect.x_count <
          min (((g.add_top_row).rect.y_max_boundary - y + 1).toNat)
            (g.add_top_row).rect.y_count * (g.add_top_row).rect.x_count) := by
        omega
      rw [hresel, hvt, if_neg ht2, if_pos htK]
    · -- rows strictly below `y` are untouched
      have hAle : (((g.add_top_row).rect.y_max_boundary - y + 1).toNat) ≤
          t / (g.add_top_row).rect.x_count := by omega
      have h2 : min (((g.add_top_row).rect.y_max_boundary - y + 1).toNat)
          (g.add_top_row).rect.y_count * (g.add_top_row).rect.x_count ≤
          (((g.add_top_row).rect.y_max_boundary - y + 1).toNat) *
            (g.add_top_row).rect.x_count :=
        Nat.mul_le_mul_right _ (Nat.min_le_left _ _)
      have h3 : (((g.add_top_row).rect.y_max_boundary - y + 1).toNat) *
          (g.add_top_row).rect.x_count ≤
          t / (g.add_top_row).rect.x_count * (g.add_top_row).rect.x_count :=
        Nat.mul_le_mul_right _ hAle
      have htK : ¬(t <
          min (((g.add_top_row).rect.y_max_boundary - y + 1).toNat)
            (g.add_top_row).rect.y_count * (g.add_top_row).rect.x_count) := by
        omega
      have ht2 : ¬(t + (g.add_top_row).rect.x_count <
          min (((g.add_top_row).rect.y_max_boundary - y + 1).toNat)
            (g.add_top_row).rect.y_count * (g.add_top_row).rect.x_count) := by
        omega
      rw [hresel, hvt, if_neg ht2, if_neg htK]
      rw [← element_unchecked_at_index (g.add_top_row) hxleG hyleG t hltt]
      rw [← hceq]
      exact add_top_row_element g hb hwf hpar c

/-- `expand_at_row` on a grid with an odd row count: the grid grows North,
the relocation loop succeeds, and every coordinate follows the fixed policy
(rows at or above `y` take the value one row South of them, row `y` is
vacated, rows strictly below `y` are untouched). -/
theorem expand_north_spec {α : Type} (g : Grid α) (y : Int)
    (hb : g.bounds.origin_centered = true) (hwf : g.well_formed = true)
    (hpar : g.y_count % 2 = 1) :
    (g.expand_at_row y).1 = .ok () ∧
    (g.expand_at_row y).2.2 = true ∧
    (∀ c : Coordinate,
      (y + 1 ≤ c.y → (g.expand_at_row y).2.1.element_unchecked c =
        g.element_unchecked ⟨c.x, c.y - 1⟩) ∧
      (c.y = y → (g.expand_at_row y).2.1.element_unchecked c = none) ∧
      (c.y < y → (g.expand_at_row y).2.1.element_unchecked c =
        g.element_unchecked c)) := by
  obtain ⟨hbG, hwfG, hxcG, hycG⟩ := add_top_row_wf g hb hwf hpar
  obtain ⟨hxle, hyle, hrxc, hryc, hx1, hy1⟩ := grid_rect_facts g hb
  obtain ⟨hxleG, hyleG, hrxcG, hrycG, hx1G, hy1G⟩ :=
    grid_rect_facts (g.add_top_row) hbG
  obtain ⟨hcx, hcy⟩ := add_top_row_counts g hb hpar
  have hrect1 := add_top_row_rect g hb hpar
  obtain ⟨hlenG, hptG⟩ := (well_formed_iff (g.add_top_row)).mp hwfG
  have hlenG' : (g.add_top_row).grid_data.length =
      (g.add_top_row).rect.x_count * (g.add_top_row).rect.y_count := by
    rw [hlenG, hrxcG, hrycG]
    rfl
  have hw0 : 0 < (g.add_top_row).rect.x_count := by
    simp only [Rect.x_count]
    omega
  have hKN : min (((g.add_top_row).rect.y_max_boundary - y + 1).toNat)
      (g.add_top_row).rect.y_count * (g.add_top_row).rect.x_count ≤
      (g.add_top_row).rect.x_count * (g.add_top_row).rect.y_count := by
    have h1 : min (((g.add_top_row).rect.y_max_boundary - y + 1).toNat)
        (g.add_top_row).rect.y_count * (g.add_top_row).rect.x_count ≤
        (g.add_top_row).rect.y_count * (g.add_top_row).rect.x_count :=
      Nat.mul_le_mul_right _ (Nat.min_le_right _ _)
    rw [Nat.mul_comm (g.add_top_row).rect.x_count (g.add_top_row).rect.y_count]
    exact h1
  have hycastG := (g.add_top_row).rect.y_count_cast hyleG
  have hp : ∀ t : Nat,
      (Coordinate.is_above_row
          ⟨(g.add_top_row).rect.x_min_boundary +
              ((t % (g.add_top_row).rect.x_count : Nat) : Int),
            (g.add_top_row).rect.y_max_boundary -
              ((t / (g.add_top_row).rect.x_count : Nat) : Int)⟩ y &&
        ((g.add_top_row).element_unchecked
          ⟨(g.add_top_row).rect.x_min_boundary +
              ((t % (g.add_top_row).rect.x_count : Nat) : Int),
            (g.add_top_row).rect.y_max_boundary -
              ((t / (g.add_top_row).rect.x_count : Nat) : Int)⟩).isSome) =
        true ↔
      (t < min (((g.add_top_row).rect.y_max_boundary - y + 1).toNat)
          (g.add_top_row).rect.y_count * (g.add_top_row).rect.x_count ∧
        ¬((match (g.add_top_row).grid_data[t]? with
            | some (.Object v) => some v
            | _ => none) = none)) := by
    intro t
    rw [Bool.and_eq_true]
    have hq0 : (0:Int) ≤ ((t / (g.add_top_row).rect.x_count : Nat) : Int) := by
      exact_mod_cast Nat.zero_le _
    by_cases htN : t < (g.add_top_row).rect.x_count * (g.add_top_row).rect.y_count
    · rw [element_unchecked_at_index (g.add_top_row) hxleG hyleG t htN]
      simp only [Coordinate.is_above_row, decide_eq_true_eq]
      rw [Option.isSome_iff_ne_none]
      have hdivN : t / (g.add_top_row).rect.x_count <
          (g.add_top_row).rect.y_count := Nat.div_lt_of_lt_mul htN
      constructor
      · rintro ⟨habove, hsome⟩
        refine ⟨?_, hsome⟩
        rw [← Nat.div_lt_iff_lt_mul hw0, Nat.lt_min]
        refine ⟨Int.lt_toNat.mpr ?_, hdivN⟩
        omega
      · rintro ⟨hK, hsome⟩
        refine ⟨?_, hsome⟩
        rw [← Nat.div_lt_iff_lt_mul hw0, Nat.lt_min] at hK
        have h1 := Int.lt_toNat.mp hK.1
        omega
    · have hge : (g.add_top_row).rect.y_count ≤
          t / (g.add_top_row).rect.x_count := by
        rw [Nat.le_div_iff_mul_le hw0]
        rw [Nat.mul_comm] at htN
        omega
      have hgeI : (((g.add_top_row).rect.y_count : Nat) : Int) ≤
          ((t / (g.add_top_row).rect.x_count : Nat) : Int) := by
        exact_mod_cast hge
      have hoob : (g.add_top_row).rect.is_within_bounds
          ⟨(g.add_top_row).rect.x_min_boundary +
              ((t % (g.add_top_row).rect.x_count : Nat) : Int),
            (g.add_top_row).rect.y_max_boundary -
              ((t / (g.add_top_row).rect.x_count : Nat) : Int)⟩ = false := by
        cases hwb : (g.add_top_row).rect.is_within_bounds
            ⟨(g.add_top_row).rect.x_min_boundary +
                ((t % (g.add_top_row).rect.x_count : Nat) : Int),
              (g.add_top_row).rect.y_max_boundary -
                ((t / (g.add_top_row).rect.x_count : Nat) : Int)⟩ with
        | false => rfl
        | true =>
          exfalso
          rw [Rect.is_within_bounds_iff] at hwb
          obtain ⟨-, -, h3, -⟩ := hwb
          dsimp only at h3
          omega
      rw [element_unchecked_oob _ _ hoob]
      constructor
      · rintro ⟨-, hfalse⟩
        exact absurd hfalse (by simp)
      · rintro ⟨h1, -⟩
        exact absurd (Nat.lt_of_lt_of_le h1 hKN) htN
  have hrow0 : ∀ t, t < (g.add_top_row).rect.x_count →
      (match (g.add_top_row).grid_data[t]? with
        | some (.Object v) => some v
        | _ => none) = none := by
    intro t ht
    rw [hcx] at ht
    exact add_top_row_first g hxle t ht
  have hinv : ∀ t : Nat,
      (match (g.add_top_row).grid_data[t]? with
        | some (.Object v) => some v
        | _ => none) =
      (if t + (g.add_top_row).rect.x_count < 0 then
        (match (g.add_top_row).grid_data[t + (g.add_top_row).rect.x_count]? with
          | some (.Object v) => some v
          | _ => none)
      else if t < 0 then none
      else (match (g.add_top_row).grid_data[t]? with
        | some (.Object v) => some v
        | _ => none)) := by
    intro t
    rw [if_neg (by omega : ¬(t + (g.add_top_row).rect.x_count < 0)),
      if_neg (by omega : ¬(t < 0))]
  have hrun := run_north (g.add_top_row) hbG hlenG' _ hKN _ hp hrow0 _ 0
    (g.add_top_row) (Nat.zero_add _) rfl rfl hinv
  have hnot0 : ¬(g.y_count % 2 = 0) := by omega
  have hadd1 : (g.add_row).1 = true := by
    unfold Grid.add_row
    rw [if_neg hnot0]
  have hadd2 : (g.add_row).2 = g.add_top_row := by
    unfold Grid.add_row
    rw [if_neg hnot0]
  have hexp : g.expand_at_row y =
      (((g.add_top_row).move_elements_above_row_in_direction y .North).1,
        ((g.add_top_row).move_elements_above_row_in_direction y .North).2,
        true) := by
    unfold Grid.expand_at_row
    dsimp only
    split
    · rw [hadd2]
    · rename_i hfalse
      rw [hadd1] at hfalse
      exact absurd rfl hfalse
  have hmel : (g.add_top_row).move_elements_above_row_in_direction y .North =
      Grid.move_elements_list .North (g.add_top_row)
        ((g.add_top_row).iter_elements_coords.filter fun c =>
          Coordinate.is_above_row c y) := by
    unfold Grid.move_elements_above_row_in_direction
      Grid.row_filter_move_elements_in_direction
    rw [if_neg (by decide :
      ¬(AbsoluteDirection.North = .South ∨ AbsoluteDirection.North = .East))]
  rw [hexp]
  dsimp only
  rw [hmel]
  rw [iter_above_eq (g.add_top_row) y hbG]
  rw [filter_range_trunc _ _ _ hKN (fun t ht => ((hp t).mp ht).1)]
  obtain ⟨hok, hbnd, hval⟩ := hrun
  exact ⟨hok, rfl, north_final_policy g y _ hb hwf hpar hbnd hval⟩

/-- A filter over a full index range may drop an initial segment the
predicate never accepts. -/
theorem filter_range_trunc_front (p : Nat → Bool) (K N : Nat) (hKN : K ≤ N)
    (hp : ∀ t, p t = true → K ≤ t) :
    (List.range N).filter p = (List.range' K (N - K)).filter p := by
  rw [List.range_eq_range']
  rw [show N = (N - K) + K from by omega]
  rw [← List.range'_append]
  simp only [Nat.one_mul, Nat.zero_add]
  rw [List.filter_append]
  rw [show (List.range' 0 K).filter p = [] from by
    rw [List.filter_eq_nil_iff]
    intro a ha hpa
    have h1 := (List.mem_range'_1.mp ha).2
    have h2 := hp a hpa
    omega]
  rw [List.nil_append]
  rw [show (N - K) + K - K = N - K from by omega]

/-- Converts the flat-index description of the South relocation result into
the per-coordinate policy: rows at or below `y` take the value one row North,
row `y` is vacated, rows strictly above `y` are untouched. -/
theorem south_final_policy {α : Type} (g : Grid α) (y : Int) (res : Grid α)
    (hb : g.bounds.origin_centered = true) (hwf : g.well_formed = true)
    (hpar : g.y_count % 2 = 0)
    (hbnd : res.bounds = (g.add_bottom_row).bounds)
    (hval : ∀ t : Nat,
      (match res.grid_data[t]? with
        | some (.Object v) => some v
        | _ => none) =
      (if min (((g.add_bottom_row).rect.y_max_boundary - y).toNat)
          (g.add_bottom_row).rect.y_count * (g.add_bottom_row).rect.x_count +
          (g.add_bottom_row).rect.x_count ≤ t then
        (match (g.add_bottom_row).grid_data[t -
            (g.add_bottom_row).rect.x_count]? with
          | some (.Object v) => some v
          | _ => none)
      else if min (((g.add_bottom_row).rect.y_max_boundary - y).toNat)
          (g.add_bottom_row).rect.y_count * (g.add_bottom_row).rect.x_count ≤
          t then
        none
      else (match (g.add_bottom_row).grid_data[t]? with
        | some (.Object v) => some v
        | _ => none))) :
    ∀ c : Coordinate,
      (c.y ≤ y - 1 → res.element_unchecked c =
        g.element_unchecked ⟨c.x, c.y + 1⟩) ∧
      (c.y = y → res.element_unchecked c = none) ∧
      (y + 1 ≤ c.y → res.element_unchecked c = g.element_unchecked c) := by
  obtain ⟨hbG, hwfG, hxcG, hycG⟩ := add_bottom_row_wf g hb hwf hpar
  obtain ⟨hxle, hyle, hrxc, hryc, hx1, hy1⟩ := grid_rect_facts g hb
  obtain ⟨hxleG, hyleG, hrxcG, hrycG, hx1G, hy1G⟩ :=
    grid_rect_facts (g.add_bottom_row) hbG
  have hrect1 := add_bottom_row_rect g hb hpar
  have hw0 : 0 < (g.add_bottom_row).rect.x_count := by
    simp only [Rect.x_count]
    omega
  have hycastG := (g.add_bottom_row).rect.y_count_cast hyleG
  have hrectR : res.rect = (g.add_bottom_row).rect := by
    unfold Grid.rect Grid.x_count Grid.y_count
    rw [hbnd]
  intro c
  cases hwc : (g.add_bottom_row).rect.is_within_bounds c with
  | false =>
    have hresoob : res.element_unchecked c = none := by
      apply element_unchecked_oob
      rw [hrectR]
      exact hwc
    have hnb : ¬(g.rect.x_min_boundary ≤ c.x ∧ c.x ≤ g.rect.x_max_boundary ∧
        g.rect.y_min_boundary - 1 ≤ c.y ∧ c.y ≤ g.rect.y_max_boundary) := by
      intro hcomp
      rw [hrect1] at hwc
      have := (Rect.is_within_bounds_iff
        (⟨g.rect.x_min_boundary, g.rect.x_max_boundary,
          g.rect.y_min_boundary - 1, g.rect.y_max_boundary⟩ : Rect) c).mpr
        ⟨hcomp.1, hcomp.2.1, hcomp.2.2.1, hcomp.2.2.2⟩
      rw [this] at hwc
      cases hwc
    refine ⟨fun hylt => ?_, fun hyec => hresoob, fun hy1c => ?_⟩
    · rw [hresoob]
      symm
      apply element_unchecked_oob
      cases hg2 : g.rect.is_within_bounds ⟨c.x, c.y + 1⟩ with
      | false => rfl
      | true =>
        exfalso
        rw [Rect.is_within_bounds_iff] at hg2
        dsimp only at hg2
        exact hnb ⟨hg2.1, hg2.2.1, by omega, by omega⟩
    · rw [hresoob]
      symm
      apply element_unchecked_oob
      cases hg2 : g.rect.is_within_bounds c with
      | false => rfl
      | true =>
        exfalso
        rw [Rect.is_within_bounds_iff] at hg2
        exact hnb ⟨hg2.1, hg2.2.1, by
          have := hg2.2.2.1
          omega, hg2.2.2.2⟩
  | true =>
    obtain ⟨hokt, hltt⟩ := (g.add_bottom_row).rect.coordinate_to_index_ok c hwc
    set t := ((g.add_bottom_row).rect.y_max_boundary - c.y).toNat *
        (g.add_bottom_row).rect.x_count +
      (c.x - (g.add_bottom_row).rect.x_min_boundary).toNat with htdef
    have hokres : res.rect.coordinate_to_index c = .ok t := by
      rw [hrectR]
      exact hokt
    have hresel : res.element_unchecked c =
        (match res.grid_data[t]? with
          | some (.Object v) => some v
          | _ => none) := element_unchecked_eq res c t hokres
    obtain ⟨hidx1, hwidx, hidx2⟩ := index_facts (g.add_bottom_row).rect hxleG
      hyleG t hltt
    have hceq : c = ⟨(g.add_bottom_row).rect.x_min_boundary +
        ((t % (g.add_bottom_row).rect.x_count : Nat) : Int),
      (g.add_bottom_row).rect.y_max_boundary -
        ((t / (g.add_bottom_row).rect.x_count : Nat) : Int)⟩ :=
      coordinate_to_index_inj _ c _ hwc hwidx (by rw [hokt, hidx2])
    have hcyeq : c.y = (g.add_bottom_row).rect.y_max_boundary -
        ((t / (g.add_bottom_row).rect.x_count : Nat) : Int) := by rw [hceq]
    have hcxeq : c.x = (g.add_bottom_row).rect.x_min_boundary +
        ((t % (g.add_bottom_row).rect.x_count : Nat) : Int) := by rw [hceq]
    have hdivN : t / (g.add_bottom_row).rect.x_count <
        (g.add_bottom_row).rect.y_count := Nat.div_lt_of_lt_mul hltt
    have hq0 : (0:Int) ≤ ((t / (g.add_bottom_row).rect.x_count : Nat) : Int) := by
      exact_mod_cast Nat.zero_le _
    have hvt := hval t
    have hdm : t / (g.add_bottom_row).rect.x_count *
        (g.add_bottom_row).rect.x_count +
        t % (g.add_bottom_row).rect.x_count = t := by
      rw [Nat.mul_comm]
      exact Nat.div_add_mod t (g.add_bottom_row).rect.x_count
    have hmod : t % (g.add_bottom_row).rect.x_count <
        (g.add_bottom_row).rect.x_count := Nat.mod_lt _ hw0
    refine ⟨fun hylt => ?_, fun hyec => ?_, fun hy1c => ?_⟩
    · -- a row at or below `y - 1`: takes the value one row North
      by_cases ht2 : min (((g.add_bottom_row).rect.y_max_boundary - y).toNat)
          (g.add_bottom_row).rect.y_count * (g.add_bottom_row).rect.x_count +
          (g.add_bottom_row).rect.x_count ≤ t
      · have hwle : (g.add_bottom_row).rect.x_count ≤ t := by omega
        have htwN : t - (g.add_bottom_row).rect.x_count <
            (g.add_bottom_row).rect.x_count *
              (g.add_bottom_row).rect.y_count := by
          omega
        obtain ⟨hmodeq, hdiveq⟩ :=
          mod_div_sub (g.add_bottom_row).rect.x_count t hw0 hwle
        have hq1 : 1 ≤ t / (g.add_bottom_row).rect.x_count :=
          (Nat.one_le_div_iff hw0).mpr hwle
        rw [hresel, hvt, if_pos ht2]
        rw [← element_unchecked_at_index (g.add_bottom_row) hxleG hyleG
          (t - (g.add_bottom_row).rect.x_count) htwN]
        have hco : (⟨(g.add_bottom_row).rect.x_min_boundary +
            (((t - (g.add_bottom_row).rect.x_count) %
              (g.add_bottom_row).rect.x_count : Nat) : Int),
          (g.add_bottom_row).rect.y_max_boundary -
            (((t - (g.add_bottom_row).rect.x_count) /
              (g.add_bottom_row).rect.x_count : Nat) : Int)⟩ : Coordinate) =
            ⟨c.x, c.y + 1⟩ := by
          rw [hmodeq, hdiveq]
          rw [hcxeq, hcyeq]
          congr 1
          omega
        rw [hco]
        exact add_bottom_row_element g hb hwf hpar ⟨c.x, c.y + 1⟩
      · -- the top row of a fully-shifted region: its source row lies
        -- outside the original grid
        have hqA : t / (g.add_bottom_row).rect.x_count ≤
            (((g.add_bottom_row).rect.y_max_boundary - y).toNat) := by
          by_contra hgt
          push_neg at hgt
          have h5 : ((((g.add_bottom_row).rect.y_max_boundary - y).toNat) + 1) *
              (g.add_bottom_row).rect.x_count ≤
              t / (g.add_bottom_row).rect.x_count *
                (g.add_bottom_row).rect.x_count :=
            Nat.mul_le_mul_right _ (by omega)
          have h6 : min (((g.add_bottom_row).rect.y_max_boundary - y).toNat)
              (g.add_bottom_row).rect.y_count *
                (g.add_bottom_row).rect.x_count ≤
              (((g.add_bottom_row).rect.y_max_boundary - y).toNat) *
                (g.add_bottom_row).rect.x_count :=
            Nat.mul_le_mul_right _ (Nat.min_le_left _ _)
          have h7 : ((((g.add_bottom_row).rect.y_max_boundary - y).toNat) + 1) *
              (g.add_bottom_row).rect.x_count =
              (((g.add_bottom_row).rect.y_max_boundary - y).toNat) *
                (g.add_bottom_row).rect.x_count +
                (g.add_bottom_row).rect.x_count := Nat.succ_mul _ _
          omega
        have hfacts : (((g.add_bottom_row).rect.y_max_boundary - y).toNat) = 0 ∧
            t / (g.add_bottom_row).rect.x_count = 0 ∧
            c.y = (g.add_bottom_row).rect.y_max_boundary := by
          omega
        have hmin0 : min (((g.add_bottom_row).rect.y_max_boundary - y).toNat)
            (g.add_bottom_row).rect.y_count = 0 := by
          omega
        have hn1 : min (((g.add_bottom_row).rect.y_max_boundary - y).toNat)
            (g.add_bottom_row).rect.y_count *
              (g.add_bottom_row).rect.x_count ≤ t := by
          rw [hmin0]
          omega
        rw [hresel, hvt, if_neg ht2, if_pos hn1]
        have hymaxG : (g.add_bottom_row).rect.y_max_boundary =
            g.rect.y_max_boundary := by rw [hrect1]
        symm
        apply element_unchecked_oob
        cases hg2 : g.rect.is_within_bounds ⟨c.x, c.y + 1⟩ with
        | false => rfl
        | true =>
          exfalso
          rw [Rect.is_within_bounds_iff] at hg2
          dsimp only at hg2
          omega
    · -- row `y` itself is vacated
      have hAeq : (((g.add_bottom_row).rect.y_max_boundary - y).toNat) =
          t / (g.add_bottom_row).rect.x_count := by omega
      have hminq : min (((g.add_bottom_row).rect.y_max_boundary - y).toNat)
          (g.add_bottom_row).rect.y_count ≤
          t / (g.add_bottom_row).rect.x_count := by omega
      have hqmin : t / (g.add_bottom_row).rect.x_count ≤
          min (((g.add_bottom_row).rect.y_max_boundary - y).toNat)
            (g.add_bottom_row).rect.y_count := by omega
      have hKle2 : min (((g.add_bottom_row).rect.y_max_boundary - y).toNat)
          (g.add_bottom_row).rect.y_count * (g.add_bottom_row).rect.x_count ≤
          t / (g.add_bottom_row).rect.x_count *
            (g.add_bottom_row).rect.x_count :=
        Nat.mul_le_mul_right _ hminq
      have hKge2 : t / (g.add_bottom_row).rect.x_count *
          (g.add_bottom_row).rect.x_count ≤
          min (((g.add_bottom_row).rect.y_max_boundary - y).toNat)
            (g.add_bottom_row).rect.y_count *
            (g.add_bottom_row).rect.x_count :=
        Nat.mul_le_mul_right _ hqmin
      have hn1 : min (((g.add_bottom_row).rect.y_max_boundary - y).toNat)
          (g.add_bottom_row).rect.y_count *
            (g.add_bottom_row).rect.x_count ≤ t := by
        omega
      have hn2 : ¬(min (((g.add_bottom_row).rect.y_max_boundary - y).toNat)
          (g.add_bottom_row).rect.y_count * (g.add_bottom_row).rect.x_count +
          (g.add_bottom_row).rect.x_count ≤ t) := by
        omega
      rw [hresel, hvt, if_neg hn2, if_pos hn1]
    · -- rows strictly above `y` are untouched
      have hqA : t / (g.add_bottom_row).rect.x_count <
          (((g.add_bottom_row).rect.y_max_boundary - y).toNat) :=
        Int.lt_toNat.mpr (by omega)
      have htK : t < min (((g.add_bottom_row).rect.y_max_boundary - y).toNat)
          (g.add_bottom_row).rect.y_count * (g.add_bottom_row).rect.x_count := by
        rw [← Nat.div_lt_iff_lt_mul hw0, Nat.lt_min]
        exact ⟨hqA, hdivN⟩
      have hn1 : ¬(min (((g.add_bottom_row).rect.y_max_boundary - y).toNat)
          (g.add_bottom_row).rect.y_count *
            (g.add_bottom_row).rect.x_count ≤ t) := by
        omega
      have hn2 : ¬(min (((g.add_bottom_row).rect.y_max_boundary - y).toNat)
          (g.add_bottom_row).rect.y_count * (g.add_bottom_row).rect.x_count +
          (g.add_bottom_row).rect.x_count ≤ t) := by
        omega
      rw [hresel, hvt, if_neg hn2, if_neg hn1]
      rw [← element_unchecked_at_index (g.add_bottom_row) hxleG hyleG t hltt]
      rw [← hceq]
      exact add_bottom_row_element g hb hwf hpar c

/-- `expand_at_row` on a grid with an even row count: the grid grows South,
the relocation loop succeeds, and every coordinate follows the fixed policy
(rows at or below `y` take the value one row North of them, row `y` is
vacated, rows strictly above `y` are untouched). -/
theorem expand_south_spec {α : Type} (g : Grid α) (y : Int)
    (hb : g.bounds.origin_centered = true) (hwf : g.well_formed = true)
    (hpar : g.y_count % 2 = 0) :
    (g.expand_at_row y).1 = .ok () ∧
    (g.expand_at_row y).2.2 = false ∧
    (∀ c : Coordinate,
      (c.y ≤ y - 1 → (g.expand_at_row y).2.1.element_unchecked c =
        g.element_unchecked ⟨c.x, c.y + 1⟩) ∧
      (c.y = y → (g.expand_at_row y).2.1.element_unchecked c = none) ∧
      (y + 1 ≤ c.y → (g.expand_at_row y).2.1.element_unchecked c =
        g.element_unchecked c)) := by
  obtain ⟨hbG, hwfG, hxcG, hycG⟩ := add_bottom_row_wf g hb hwf hpar
  obtain ⟨hxle, hyle, hrxc, hryc, hx1, hy1⟩ := grid_rect_facts g hb
  obtain ⟨hxleG, hyleG, hrxcG, hrycG, hx1G, hy1G⟩ :=
    grid_rect_facts (g.add_bottom_row) hbG
  obtain ⟨hlenG, hptG⟩ := (well_formed_iff (g.add_bottom_row)).mp hwfG
  have hlenG' : (g.add_bottom_row).grid_data.length =
      (g.add_bottom_row).rect.x_count * (g.add_bottom_row).rect.y_count := by
    rw [hlenG, hrxcG, hrycG]
    rfl
  have hw0 : 0 < (g.add_bottom_row).rect.x_count := by
    simp only [Rect.x_count]
    omega
  have hK2N : min (((g.add_bottom_row).rect.y_max_boundary - y).toNat)
      (g.add_bottom_row).rect.y_count * (g.add_bottom_row).rect.x_count ≤
      (g.add_bottom_row).rect.x_count * (g.add_bottom_row).rect.y_count := by
    have h1 : min (((g.add_bottom_row).rect.y_max_boundary - y).toNat)
        (g.add_bottom_row).rect.y_count * (g.add_bottom_row).rect.x_count ≤
        (g.add_bottom_row).rect.y_count * (g.add_bottom_row).rect.x_count :=
      Nat.mul_le_mul_right _ (Nat.min_le_right _ _)
    rw [Nat.mul_comm (g.add_bottom_row).rect.x_count
      (g.add_bottom_row).rect.y_count]
    exact h1
  have hycastG := (g.add_bottom_row).rect.y_count_cast hyleG
  have hself : (g.add_bottom_row).rect.y_max_boundary - y ≤
      ((((g.add_bottom_row).rect.y_max_boundary - y).toNat : Nat) : Int) :=
    Int.self_le_toNat _
  have hp : ∀ t : Nat,
      (Coordinate.is_below_row
          ⟨(g.add_bottom_row).rect.x_min_boundary +
              ((t % (g.add_bottom_row).rect.x_count : Nat) : Int),
            (g.add_bottom_row).rect.y_max_boundary -
              ((t / (g.add_bottom_row).rect.x_count : Nat) : Int)⟩ y &&
        ((g.add_bottom_row).element_unchecked
          ⟨(g.add_bottom_row).rect.x_min_boundary +
              ((t % (g.add_bottom_row).rect.x_count : Nat) : Int),
            (g.add_bottom_row).rect.y_max_boundary -
              ((t / (g.add_bottom_row).rect.x_count : Nat) : Int)⟩).isSome) =
        true ↔
      (min (((g.add_bottom_row).rect.y_max_boundary - y).toNat)
          (g.add_bottom_row).rect.y_count * (g.add_bottom_row).rect.x_count ≤
          t ∧
        t < (g.add_bottom_row).rect.x_count * (g.add_bottom_row).rect.y_count ∧
        ¬((match (g.add_bottom_row).grid_data[t]? with
            | some (.Object v) => some v
            | _ => none) = none)) := by
    intro t
    rw [Bool.and_eq_true]
    have hq0 : (0:Int) ≤ ((t / (g.add_bottom_row).rect.x_count : Nat) : Int) := by
      exact_mod_cast Nat.zero_le _
    have hdm : t / (g.add_bottom_row).rect.x_count *
        (g.add_bottom_row).rect.x_count +
        t % (g.add_bottom_row).rect.x_count = t := by
      rw [Nat.mul_comm]
      exact Nat.div_add_mod t (g.add_bottom_row).rect.x_count
    have hmod : t % (g.add_bottom_row).rect.x_count <
        (g.add_bottom_row).rect.x_count := Nat.mod_lt _ hw0
    by_cases htN : t <
        (g.add_bottom_row).rect.x_count * (g.add_bottom_row).rect.y_count
    · rw [element_unchecked_at_index (g.add_bottom_row) hxleG hyleG t htN]
      simp only [Coordinate.is_below_row, decide_eq_true_eq]
      rw [Option.isSome_iff_ne_none]
      have hdivN : t / (g.add_bottom_row).rect.x_count <
          (g.add_bottom_row).rect.y_count := Nat.div_lt_of_lt_mul htN
      constructor
      · rintro ⟨hbelow, hsome⟩
        refine ⟨?_, htN, hsome⟩
        have hAq : (((g.add_bottom_row).rect.y_max_boundary - y).toNat) ≤
            t / (g.add_bottom_row).rect.x_count := by
          omega
        have h1 : min (((g.add_bottom_row).rect.y_max_boundary - y).toNat)
            (g.add_bottom_row).rect.y_count ≤
            t / (g.add_bottom_row).rect.x_count := by
          omega
        have h2 := Nat.mul_le_mul_right (g.add_bottom_row).rect.x_count h1
        omega
      · rintro ⟨hK2, -, hsome⟩
        refine ⟨?_, hsome⟩
        have h1 : min (((g.add_bottom_row).rect.y_max_boundary - y).toNat)
            (g.add_bottom_row).rect.y_count ≤
            t / (g.add_bottom_row).rect.x_count :=
          (Nat.le_div_iff_mul_le hw0).mpr hK2
        omega
    · have hge : (g.add_bottom_row).rect.y_count ≤
          t / (g.add_bottom_row).rect.x_count := by
        rw [Nat.le_div_iff_mul_le hw0]
        rw [Nat.mul_comm] at htN
        omega
      have hgeI : (((g.add_bottom_row).rect.y_count : Nat) : Int) ≤
          ((t / (g.add_bottom_row).rect.x_count : Nat) : Int) := by
        exact_mod_cast hge
      have hoob : (g.add_bottom_row).rect.is_within_bounds
          ⟨(g.add_bottom_row).rect.x_min_boundary +
              ((t % (g.add_bottom_row).rect.x_count : Nat) : Int),
            (g.add_bottom_row).rect.y_max_boundary -
              ((t / (g.add_bottom_row).rect.x_count : Nat) : Int)⟩ = false := by
        cases hwb : (g.add_bottom_row).rect.is_within_bounds
            ⟨(g.add_bottom_row).rect.x_min_boundary +
                ((t % (g.add_bottom_row).rect.x_count : Nat) : Int),
              (g.add_bottom_row).rect.y_max_boundary -
                ((t / (g.add_bottom_row).rect.x_count : Nat) : Int)⟩ with
        | false => rfl
        | true =>
          exfalso
          rw [Rect.is_within_bounds_iff] at hwb
          obtain ⟨-, -, h3, -⟩ := hwb
          dsimp only at h3
          omega
      rw [element_unchecked_oob _ _ hoob]
      constructor
      · rintro ⟨-, hfalse⟩
        exact absurd hfalse (by simp)
      · rintro ⟨-, h1, -⟩
        exact absurd h1 htN
  have hrowBot := add_bottom_row_last g hb hwf hpar
  have hinv : ∀ t : Nat,
      (match (g.add_bottom_row).grid_data[t]? with
        | some (.Object v) => some v
        | _ => none) =
      (if min (((g.add_bottom_row).rect.y_max_boundary - y).toNat)
          (g.add_bottom_row).rect.y_count * (g.add_bottom_row).rect.x_count +
          ((g.add_bottom_row).rect.x_count * (g.add_bottom_row).rect.y_count -
            min (((g.add_bottom_row).rect.y_max_boundary - y).toNat)
              (g.add_bottom_row).rect.y_count *
              (g.add_bottom_row).rect.x_count) +
          (g.add_bottom_row).rect.x_count ≤ t then
        (match (g.add_bottom_row).grid_data[t -
            (g.add_bottom_row).rect.x_count]? with
          | some (.Object v) => some v
          | _ => none)
      else if min (((g.add_bottom_row).rect.y_max_boundary - y).toNat)
          (g.add_bottom_row).rect.y_count * (g.add_bottom_row).rect.x_count +
          ((g.add_bottom_row).rect.x_count * (g.add_bottom_row).rect.y_count -
            min (((g.add_bottom_row).rect.y_max_boundary - y).toNat)
              (g.add_bottom_row).rect.y_count *
              (g.add_bottom_row).rect.x_count) ≤ t then
        none
      else (match (g.add_bottom_row).grid_data[t]? with
        | some (.Object v) => some v
        | _ => none)) := by
    intro t
    by_cases h1 : min (((g.add_bottom_row).rect.y_max_boundary - y).toNat)
        (g.add_bottom_row).rect.y_count * (g.add_bottom_row).rect.x_count +
        ((g.add_bottom_row).rect.x_count * (g.add_bottom_row).rect.y_count -
          min (((g.add_bottom_row).rect.y_max_boundary - y).toNat)
            (g.add_bottom_row).rect.y_count *
            (g.add_bottom_row).rect.x_count) +
        (g.add_bottom_row).rect.x_count ≤ t
    · rw [if_pos h1]
      rw [List.getElem?_eq_none
        (by omega : (g.add_bottom_row).grid_data.length ≤ t)]
      rw [List.getElem?_eq_none
        (by omega : (g.add_bottom_row).grid_data.length ≤
          t - (g.add_bottom_row).rect.x_count)]
    · rw [if_neg h1]
      by_cases h2 : min (((g.add_bottom_row).rect.y_max_boundary - y).toNat)
          (g.add_bottom_row).rect.y_count * (g.add_bottom_row).rect.x_count +
          ((g.add_bottom_row).rect.x_count * (g.add_bottom_row).rect.y_count -
            min (((g.add_bottom_row).rect.y_max_boundary - y).toNat)
              (g.add_bottom_row).rect.y_count *
              (g.add_bottom_row).rect.x_count) ≤ t
      · rw [if_pos h2]
        rw [List.getElem?_eq_none
          (by omega : (g.add_bottom_row).grid_data.length ≤ t)]
      · rw [if_neg h2]
  have hrun := run_south (g.add_bottom_row) hbG hlenG' _ _ hp hrowBot
    ((g.add_bottom_row).rect.x_count * (g.add_bottom_row).rect.y_count -
      min (((g.add_bottom_row).rect.y_max_boundary - y).toNat)
        (g.add_bottom_row).rect.y_count * (g.add_bottom_row).rect.x_count)
    (g.add_bottom_row) (by omega) rfl rfl hinv
  have hadd1 : (g.add_row).1 = false := by
    unfold Grid.add_row
    rw [if_pos hpar]
  have hadd2 : (g.add_row).2 = g.add_bottom_row := by
    unfold Grid.add_row
    rw [if_pos hpar]
  have hexp : g.expand_at_row y =
      (((g.add_bottom_row).move_elements_below_row_in_direction y .South).1,
        ((g.add_bottom_row).move_elements_below_row_in_direction y .South).2,
        false) := by
    unfold Grid.expand_at_row
    dsimp only
    split
    · rename_i htrue
      rw [hadd1] at htrue
      cases htrue
    · rw [hadd2]
  have hmel : (g.add_bottom_row).move_elements_below_row_in_direction y
      .South =
      Grid.move_elements_list .South (g.add_bottom_row)
        (((g.add_bottom_row).iter_elements_coords.filter fun c =>
          Coordinate.is_below_row c y).reverse) := by
    unfold Grid.move_elements_below_row_in_direction
      Grid.row_filter_move_elements_in_direction
    rw [if_pos (Or.inl rfl)]
  rw [hexp]
  dsimp only
  rw [hmel]
  rw [iter_below_eq (g.add_bottom_row) y hbG]
  rw [filter_range_trunc_front _ _ _ hK2N (fun t ht => ((hp t).mp ht).1)]
  obtain ⟨hok, hbnd, hval⟩ := hrun
  exact ⟨hok, rfl, south_final_policy g y _ hb hwf hpar hbnd hval⟩

/-- `add_row` never changes the number of occupied cells. -/
theorem count_objects_add_row {α : Type} (g : Grid α) :
    (g.add_row).2.count_objects = g.count_objects := by
  unfold Grid.add_row
  by_cases hpar : g.y_count % 2 = 0
  · rw [if_pos hpar]
    exact count_objects_add_bottom_row g
  · rw [if_neg hpar]
    exact count_objects_add_top_row g

/-- `expand_at_row` preserves the total number of occupied cells. -/
theorem expand_at_row_count {α : Type} (g : Grid α) (y : Int)
    (hb : g.bounds.origin_centered = true) (hwf : g.well_formed = true) :
    (g.expand_at_row y).2.1.count_objects = g.count_objects := by
  obtain ⟨hb1, hwf1, hx1, hy1⟩ := add_row_wf g hb hwf
  unfold Grid.expand_at_row
  dsimp only
  split
  · show ((g.add_row).2.move_elements_above_row_in_direction y
      .North).2.count_objects = g.count_objects
    unfold Grid.move_elements_above_row_in_direction
      Grid.row_filter_move_elements_in_direction
    rw [if_neg (by decide :
      ¬(AbsoluteDirection.North = .South ∨ AbsoluteDirection.North = .East))]
    rw [count_objects_move_list .North _ (g.add_row).2 hb1 hwf1]
    exact count_objects_add_row g
  · show ((g.add_row).2.move_elements_below_row_in_direction y
      .South).2.count_objects = g.count_objects
    unfold Grid.move_elements_below_row_in_direction
      Grid.row_filter_move_elements_in_direction
    rw [if_pos (Or.inl rfl)]
    rw [count_objects_move_list .South _ (g.add_row).2 hb1 hwf1]
    exact count_objects_add_row g

/-- **C5.** For every well-formed grid and every row index `y`,
`expand_at_row(y)` grows the row count by exactly one, keeps the column
count, preserves the total element count and the origin-centering invariant,
reports which side grew (North exactly when the previous row count was odd),
and relocates each element according to the fixed policy: after a North
growth, cells at rows `⩾ y + 1` hold what was one row below them (so elements
strictly above `y` and exactly at `y` moved one step North), row `y` is
vacated, and rows strictly below `y` are unchanged; after a South growth,
cells at rows `⩽ y - 1` hold what was one row above them (elements strictly
below `y` and exactly at `y` moved one step South), row `y` is vacated, and
rows strictly above `y` are unchanged. The relocation loop itself never
fails. -/
theorem claim_c5_expand_at_row (α : Type) (g : Grid α) (y : Int)
    (hb : g.bounds.origin_centered = true) (hwf : g.well_formed = true) :
    (g.expand_at_row y).1 = .ok () ∧
    (g.expand_at_row y).2.1.y_count = g.y_count + 1 ∧
    (g.expand_at_row y).2.1.x_count = g.x_count ∧
    (g.expand_at_row y).2.1.bounds.origin_centered = true ∧
    (g.expand_at_row y).2.1.count_objects = g.count_objects ∧
    (g.expand_at_row y).2.2 = decide (g.y_count % 2 = 1) ∧
    (g.y_count % 2 = 1 →
      ∀ c : Coordinate,
        (y + 1 ≤ c.y → (g.expand_at_row y).2.1.element_unchecked c =
          g.element_unchecked ⟨c.x, c.y - 1⟩) ∧
        (c.y = y → (g.expand_at_row y).2.1.element_unchecked c = none) ∧
        (c.y < y → (g.expand_at_row y).2.1.element_unchecked c =
          g.element_unchecked c)) ∧
    (g.y_count % 2 = 0 →
      ∀ c : Coordinate,
        (c.y ≤ y - 1 → (g.expand_at_row y).2.1.element_unchecked c =
          g.element_unchecked ⟨c.x, c.y + 1⟩) ∧
        (c.y = y → (g.expand_at_row y).2.1.element_unchecked c = none) ∧
        (y + 1 ≤ c.y → (g.expand_at_row y).2.1.element_unchecked c =
          g.element_unchecked c)) := by
  obtain ⟨hoc, hwf2, hxc, hyc⟩ := expand_at_row_wf g y hb hwf
  have hcnt := expand_at_row_count g y hb hwf
  by_cases hpar : g.y_count % 2 = 0
  · obtain ⟨s1, s2, s3⟩ := expand_south_spec g y hb hwf hpar
    refine ⟨s1, hyc, hxc, hoc, hcnt, ?_, ?_, fun _ => s3⟩
    · rw [s2]
      exact (decide_eq_false (by omega)).symm
    · intro hodd
      exact absurd hodd (by omega)
  · obtain ⟨n1, n2, n3⟩ := expand_north_spec g y hb hwf (by omega)
    refine ⟨n1, hyc, hxc, hoc, hcnt, ?_, fun _ => n3, ?_⟩
    · rw [n2]
      exact (decide_eq_true (by omega)).symm
    · intro heven
      exact absurd heven hpar

theorem claim_c5_witness :
    (Grid.new 2 2 : Grid Nat).bounds.origin_centered = true ∧
    (Grid.new 2 2 : Grid Nat).well_formed = true ∧
    ((Grid.new 2 2 : Grid Nat).expand_at_row 0).1 = .ok () ∧
    ((Grid.new 2 2 : Grid Nat).expand_at_row 0).2.1.y_count =
      (Grid.new 2 2 : Grid Nat).y_count + 1 ∧
    ((Grid.new 2 2 : Grid Nat).expand_at_row 0).2.1.count_objects =
      (Grid.new 2 2 : Grid Nat).count_objects :=
  ⟨by rfl, by rfl,
    (claim_c5_expand_at_row Nat (Grid.new 2 2) 0 (by rfl) (by rfl)).1,
    (claim_c5_expand_at_row Nat (Grid.new 2 2) 0 (by rfl) (by rfl)).2.1,
    (claim_c5_expand_at_row Nat (Grid.new 2 2) 0 (by rfl)
      (by rfl)).2.2.2.2.1⟩
end Tudi
